import Mathlib

/-!
# Asynchronous AI-insight job pipeline

A shallow embedding of `lib/lambdas/stockAiInsightSuggestions/index.mjs`
(the orchestrator: the Lambda that drives the bounded tool-calling loop and
writes the terminal job status), of `lib/lambdas/stockAiJobStarter/index.mjs`
(the starter: it creates the job record and dispatches the orchestrator), of
`lib/lambdas/aiJobStatusChecker/index.mjs` (the status checker: it reads the
job record), of `lib/lambdas/stockDailyGet/index.mjs` (the daily price
lookup) and of the parts of `lib/serverless_backend-stack.ts` that configure
and route to these functions, followed by theorems about them.

Modelling conventions

* JavaScript values that travel through the handler (parsed JSON, message
  contents, tool inputs and results) are values of `JVal`.
* Every awaited external call is a field of `World`; it answers either with a
  value or with a thrown `JsError`.  The handler is a pure function from a
  world and an invocation event to a `Run`: the ordered list of external calls
  it made (`Effect`) and how the returned promise settled.
* `console.error` is not modelled (no claim observes the log).
-/

namespace AiInsight

/-! ## JavaScript values -/

/-- A JavaScript value as `JSON.parse` can produce it, plus `undefined`.
Numbers are kept to the integers; nothing in the handler computes with one. -/
inductive JVal where
  | undefined : JVal
  | null : JVal
  | bool (b : Bool) : JVal
  | num (n : Int) : JVal
  | str (s : String) : JVal
  | arr (items : List JVal) : JVal
  | obj (fields : List (String × JVal)) : JVal

/-- A thrown JavaScript error (an `Error` object); only `name` and `message`
are observed. -/
structure JsError where
  name : String
  message : String
deriving DecidableEq, Repr

/-- The `TypeError` V8 raises for a property read on `undefined` or `null`. -/
def typeErrorRead (base prop : String) : JsError :=
  ⟨"TypeError", "Cannot read properties of " ++ base ++ " (reading '" ++ prop ++ "')"⟩

/-- The `TypeError` V8 raises for calling something that is not a function. -/
def typeErrorNotFunction (expr : String) : JsError :=
  ⟨"TypeError", expr ++ " is not a function"⟩

/-- Property read `v.p` for the property names the handlers use
(`stop_reason`, `content`, `type`, `text`, `id`, `name`, `input`, `symbols`
in the orchestrator; `userId`, `prompt`, `prompts`, `responses`, `jobId` in
the starter and the status checker):
throws on `undefined`/`null`, looks the key up in an object, and is
`undefined` on every other value (none of these names is a built-in property
of a string, number, boolean or array). -/
def getProp (v : JVal) (p : String) : Except JsError JVal :=
  match v with
  | .undefined => .error (typeErrorRead "undefined" p)
  | .null => .error (typeErrorRead "null" p)
  | .obj fields => .ok ((fields.lookup p).getD .undefined)
  | _ => .ok .undefined

/-- Strict equality `v === "s"` against a string literal. -/
def strictEqStr (v : JVal) (s : String) : Bool :=
  match v with
  | .str t => decide (t = s)
  | _ => false

/-- JavaScript truthiness, as used by `!x` and `x || y`. -/
def truthy (v : JVal) : Bool :=
  match v with
  | .undefined => false
  | .null => false
  | .bool b => b
  | .num n => decide (n ≠ 0)
  | .str s => decide (s ≠ "")
  | .arr _ => true
  | .obj _ => true

/-- The expression `a || b`. -/
def jsOr (a b : JVal) : JVal := if truthy a then a else b

/-- The call `blocks.find(block => block.type === ty)` on an array: the first
element whose `type` is `ty`, `undefined` when there is none; the callback
throws on a `null` element met before a match. -/
def findByType (blocks : List JVal) (ty : String) : Except JsError JVal :=
  match blocks with
  | [] => .ok .undefined
  | block :: rest =>
    match getProp block "type" with
    | .error e => .error e
    | .ok t => if strictEqStr t ty then .ok block else findByType rest ty

/-- The call `content.find(block => block.type === ty)` on any value: a
`TypeError` unless `content` is an array. -/
def contentFind (content : JVal) (ty : String) : Except JsError JVal :=
  match content with
  | .arr blocks => findByType blocks ty
  | .undefined => .error (typeErrorRead "undefined" "find")
  | .null => .error (typeErrorRead "null" "find")
  | _ => .error (typeErrorNotFunction "responseBody.content.find")

/-! ## Messages, effects and the world -/

/-- One conversation message sent to the model. -/
structure Message where
  role : String
  content : JVal

/-- An `UpdateCommand` on table `ai-jobs`: the key and the attributes its
`SET` expression assigns, with the `#name` and `:value` placeholders
resolved, in the order of the expression. -/
structure UpdateCmd where
  tableName : String
  jobId : String
  sets : List (String × JVal)

/-- The external calls of one run, each with the answer it got. -/
inductive Effect where
  | queryHoldings (userId : JVal) (answer : Except JsError JVal) : Effect
  | modelCall (loopCount : Nat) (messages : List Message)
      (answer : Except JsError JVal) : Effect
  | dailyPrices (symbols : JVal) (answer : Except JsError JVal) : Effect
  | intradayPrices (symbols : JVal) (answer : Except JsError JVal) : Effect
  | update (cmd : UpdateCmd) (answer : Except JsError Unit) : Effect

/-- Everything outside the handler.

* `queryItems u`: `(await dynamo.send(new QueryCommand(..u..))).Items`.
* `invokeModel k msgs`: the parsed body of the answer to the model call made
  with `loopCount = k` and conversation `msgs` (a throw of `send`, of the
  decoder or of `JSON.parse` is an error).
* `getStockPrices`, `getIntradayStockPrices`: the two price helpers
  (`fetch`, `response.json()`, `.results`).
* `sendUpdate`: `dynamo.send(new UpdateCommand(..))`.
* `stringify`: `JSON.stringify(v)` for a value other than `undefined`;
  `stringifyIndent v` is `JSON.stringify(v, null, 2)` likewise.
* `objectToString`: string conversion of arrays and objects in a template.
* the three clock readings, one per `new Date()` in the handler. -/
structure World where
  queryItems : JVal → Except JsError JVal
  invokeModel : Nat → List Message → Except JsError JVal
  getStockPrices : JVal → Except JsError JVal
  getIntradayStockPrices : JVal → Except JsError JVal
  sendUpdate : UpdateCmd → Except JsError Unit
  stringify : JVal → String
  stringifyIndent : JVal → String
  objectToString : JVal → String
  localeDate : String
  completedClock : String
  failedClock : String

/-- The call `JSON.stringify(v)`: `undefined` for `undefined`. -/
def jsonStringify (W : World) (v : JVal) : JVal :=
  match v with
  | .undefined => .undefined
  | w => .str (W.stringify w)

/-- Interpolation of `JSON.stringify(v, null, 2)` in a template literal. -/
def templateStringify (W : World) (v : JVal) : String :=
  match v with
  | .undefined => "undefined"
  | w => W.stringifyIndent w

/-- Interpolation of a value in a template literal (`String(v)`). -/
def templateValue (W : World) (v : JVal) : String :=
  match v with
  | .undefined => "undefined"
  | .null => "null"
  | .bool true => "true"
  | .bool false => "false"
  | .num n => toString n
  | .str s => s
  | w => W.objectToString w

/-- The invocation event of the orchestrator Lambda.  `prompts` and
`responses` are arrays when present (`none`: the field is absent). -/
structure JobEvent where
  jobId : String
  userId : JVal
  prompts : Option (List JVal)
  responses : Option (List JVal)
  prompt : JVal

/-- How one run went: the external calls in order and how the promise
returned by `handler` settled. -/
structure Run where
  trace : List Effect
  outcome : Except JsError Unit

/-! ## The handler -/

/-- Function `getPortfolioFromDB` (lines 8-20): a fixed one-element array when
`userId` is falsy, otherwise the `Items` of the query. -/
def getPortfolioFromDB (W : World) (userId : JVal) :
    List Effect × Except JsError JVal :=
  if !truthy userId then ([], .ok (.arr [.str "this user is not signed in."]))
  else
    let answer := W.queryItems userId
    ([.queryHoldings userId answer], answer)

/-- The `input_schema` shared by both tool descriptions (lines 64-74, 79-89). -/
def symbolsSchema : JVal :=
  .obj [("type", .str "object"),
    ("properties", .obj [("symbols", .obj [("type", .str "array"),
      ("items", .obj [("type", .str "string")]),
      ("description", .str "Array of stock ticker symbols like ['AAPL', 'MSFT', 'GOOGL']")])]),
    ("required", .arr [.str "symbols"])]

/-- The constant `tools` sent with every model call (lines 60-92). -/
def tools : List JVal :=
  [.obj [("name", .str "get_stock_prices"),
     ("description", .str "Gets historical daily close prices of 30 popular individual stocks, 4 US indices, and sector ETFs, for about the last year."),
     ("input_schema", symbolsSchema)],
   .obj [("name", .str "get_intraday_stock_prices"),
     ("description", .str "Gets most recent minute-by-minute intraday prices of popular stocks, 4 US indices, and sector ETFs."),
     ("input_schema", symbolsSchema)]]

/-- The names under which `tools` advertises a tool. -/
def toolNames : List String :=
  tools.filterMap fun t =>
    match getProp t "name" with
    | .ok (.str n) => some n
    | _ => none

/-- The `for` loop of lines 97-106: for `i` from `0` below
`Math.min(contextPrompts.length, responses.length)` push a user message with
`contextPrompts[i]` and an assistant message with `responses[i]`. -/
def historyMessages (contextPrompts responses : List JVal) : List Message :=
  (List.range (min contextPrompts.length responses.length)).foldl
    (fun messages i =>
      messages ++ [⟨"user", contextPrompts.getD i .undefined⟩,
                   ⟨"assistant", responses.getD i .undefined⟩])
    []

/-- The template literal of lines 110-124. -/
def questionText (W : World) (holdings newPrompt : JVal) : String :=
  "You are an AI financial advisor assistant with access to real-time market data. \n" ++
  "    \n" ++
  "    Context:\n" ++
  "    - User's portfolio: " ++ templateStringify W holdings ++ "\n" ++
  "    - Current date: " ++ W.localeDate ++ "\n" ++
  "    - You have access to tools to fetch stock price data for analysis\n" ++
  "    \n" ++
  "    Guidelines:\n" ++
  "    - Provide specific, actionable advice based on the user's actual holdings\n" ++
  "    - Use the get_stock_prices tool when you need current market data\n" ++
  "    - Consider risk, diversification, and the user's portfolio composition\n" ++
  "    - Support your recommendations with data when possible\n" ++
  "    - Cross Check that latest snapshot matches the watchlist and holdings data before relying on it\n" ++
  "    \n" ++
  "    User's question: " ++ templateValue W newPrompt

/-- The conversation of the first model call (lines 95-125). -/
def initialMessages (W : World) (event : JobEvent) (holdings : JVal) :
    List Message :=
  historyMessages (event.prompts.getD []) (event.responses.getD []) ++
    [⟨"user", .str (questionText W holdings event.prompt)⟩]

/-- The constant `MAX_LOOPS` (line 130). -/
def MAX_LOOPS : Nat := 5

/-- Lines 151-154: `toolResult` stays `undefined` unless the requested name is
`get_stock_prices`, in which case it is `await
getStockPrices(toolUse.input.symbols)`. -/
def toolDispatch (W : World) (toolUse name : JVal) :
    List Effect × Except JsError JVal :=
  if strictEqStr name "get_stock_prices" then
    match getProp toolUse "input" with
    | .error e => ([], .error e)
    | .ok input =>
      match getProp input "symbols" with
      | .error e => ([], .error e)
      | .ok symbols =>
        let answer := W.getStockPrices symbols
        ([.dailyPrices symbols answer], answer)
  else ([], .ok .undefined)

/-- The two messages pushed by lines 156-170. -/
def toolTurn (W : World) (content toolUseId toolResult : JVal) : List Message :=
  [⟨"assistant", content⟩,
   ⟨"user", .arr [.obj [("type", .str "tool_result"),
                        ("tool_use_id", toolUseId),
                        ("content", jsonStringify W toolResult)]]⟩]

/-- The expression `found?.text`. -/
def optionalText (found : JVal) : JVal :=
  match found with
  | .obj fields => (fields.lookup "text").getD .undefined
  | _ => .undefined

/-- How one pass through the body of the `while` loop ends. -/
inductive Step where
  | again (messages : List Message) : Step
  | final (finalResponse : JVal) : Step
  | thrown (error : JsError) : Step

/-- What follows the model call in the loop body (lines 148-176), given the
parsed `responseBody`. -/
def afterModel (W : World) (messages : List Message) (responseBody : JVal) :
    List Effect × Step :=
  match getProp responseBody "stop_reason" with
  | .error e => ([], .thrown e)
  | .ok stopReason =>
    match getProp responseBody "content" with
    | .error e => ([], .thrown e)
    | .ok content =>
      if strictEqStr stopReason "tool_use" then
        match contentFind content "tool_use" with
        | .error e => ([], .thrown e)
        | .ok toolUse =>
          match getProp toolUse "name" with
          | .error e => ([], .thrown e)
          | .ok name =>
            match toolDispatch W toolUse name with
            | (effects, .error e) => (effects, .thrown e)
            | (effects, .ok toolResult) =>
              match getProp toolUse "id" with
              | .error e => (effects, .thrown e)
              | .ok toolUseId =>
                (effects, .again (messages ++ toolTurn W content toolUseId toolResult))
      else
        match contentFind content "text" with
        | .error e => ([], .thrown e)
        | .ok found => ([], .final (optionalText found))

/-- One pass through the body of the `while` loop (lines 133-176). -/
def loopIteration (W : World) (loopCount : Nat) (messages : List Message) :
    List Effect × Step :=
  let answer := W.invokeModel loopCount messages
  match answer with
  | .error e => ([.modelCall loopCount messages answer], .thrown e)
  | .ok responseBody =>
    let rest := afterModel W messages responseBody
    (.modelCall loopCount messages answer :: rest.1, rest.2)

/-- What the loop leaves behind: the calls made, and `finalResponse` or the
error thrown out of the loop. -/
structure LoopOut where
  trace : List Effect
  result : Except JsError JVal

/-- The loop `while (loopCount < MAX_LOOPS)` (lines 132-177).  The first
argument is `MAX_LOOPS - loopCount`, the number of passes the guard still
allows; `finalResponse` is `undefined` when the guard ends the loop. -/
def bedrockLoop (W : World) (remaining loopCount : Nat)
    (messages : List Message) : LoopOut :=
  match remaining with
  | 0 => ⟨[], .ok .undefined⟩
  | n + 1 =>
    match loopIteration W loopCount messages with
    | (effects, .thrown e) => ⟨effects, .error e⟩
    | (effects, .final finalResponse) => ⟨effects, .ok finalResponse⟩
    | (effects, .again messages2) =>
      let rest := bedrockLoop W n (loopCount + 1) messages2
      ⟨effects ++ rest.trace, rest.result⟩

/-- The `UpdateCommand` of lines 181-194. -/
def completedUpdate (jobId : String) (finalResponse : JVal) (now : String) :
    UpdateCmd :=
  ⟨"ai-jobs", jobId,
   [("status", .str "COMPLETED"),
    ("result", jsOr finalResponse (.str "Unable to generate response")),
    ("completedAt", .str now)]⟩

/-- The `UpdateCommand` of lines 199-212. -/
def failedUpdate (jobId : String) (message : String) (now : String) :
    UpdateCmd :=
  ⟨"ai-jobs", jobId,
   [("status", .str "FAILED"),
    ("error", .str message),
    ("completedAt", .str now)]⟩

/-- The `try` block of `handler` (lines 56-194). -/
def tryBlock (W : World) (event : JobEvent) : Run :=
  match getPortfolioFromDB W event.userId with
  | (fetch, .error e) => ⟨fetch, .error e⟩
  | (fetch, .ok holdings) =>
    let looped := bedrockLoop W MAX_LOOPS 0 (initialMessages W event holdings)
    match looped.result with
    | .error e => ⟨fetch ++ looped.trace, .error e⟩
    | .ok finalResponse =>
      let cmd := completedUpdate event.jobId finalResponse W.completedClock
      let answer := W.sendUpdate cmd
      ⟨fetch ++ looped.trace ++ [.update cmd answer], answer⟩

/-- The exported `handler` (lines 48-215): the `try` block, and on any error
thrown in it the `catch` block, which sends the `FAILED` update and then
rethrows (an error thrown by that update replaces the caught one). -/
def handler (W : World) (event : JobEvent) : Run :=
  let body := tryBlock W event
  match body.outcome with
  | .ok _ => body
  | .error error =>
    let cmd := failedUpdate event.jobId error.message W.failedClock
    let answer := W.sendUpdate cmd
    ⟨body.trace ++ [.update cmd answer],
     match answer with
     | .ok _ => .error error
     | .error e => .error e⟩

/-- What `handler` does once the loop has ended (lines 179-214), as a function
of how it ended: after a throw the `catch` block; after a normal end the
`COMPLETED` update, and the `catch` block when that update throws.
`handler_settle` shows that `handler` ends this way. -/
def settle (W : World) (jobId : String) (result : Except JsError JVal) : Run :=
  let catchBlock (error : JsError) : Run :=
    ⟨[.update (failedUpdate jobId error.message W.failedClock)
        (W.sendUpdate (failedUpdate jobId error.message W.failedClock))],
     match W.sendUpdate (failedUpdate jobId error.message W.failedClock) with
     | .ok _ => .error error
     | .error e => .error e⟩
  match result with
  | .error error => catchBlock error
  | .ok finalResponse =>
    match W.sendUpdate (completedUpdate jobId finalResponse W.completedClock) with
    | .ok u => ⟨[.update (completedUpdate jobId finalResponse W.completedClock) (.ok u)], .ok u⟩
    | .error error =>
      ⟨.update (completedUpdate jobId finalResponse W.completedClock) (.error error) ::
        (catchBlock error).trace, (catchBlock error).outcome⟩

/-! ## Observations on a run -/

/-- Whether an effect is a model call. -/
def isModelCall : Effect → Bool
  | .modelCall _ _ _ => true
  | _ => false

/-- The number of model calls in a trace. -/
def modelCallCount (t : List Effect) : Nat := t.countP isModelCall

/-- The command of an update effect. -/
def updateOf : Effect → Option UpdateCmd
  | .update cmd _ => some cmd
  | _ => none

/-- The update commands issued in a trace, in order. -/
def updatesOf (t : List Effect) : List UpdateCmd := t.filterMap updateOf

/-- A model response that asks for a tool in the documented shape: its
`stop_reason` is `"tool_use"`, its content has a first block of type
`tool_use`, and that block carries a name, an id and an input whose `symbols`
can be read. -/
def ToolRequest (body content toolUse name toolUseId symbols : JVal) : Prop :=
  getProp body "stop_reason" = .ok (.str "tool_use") ∧
  getProp body "content" = .ok content ∧
  contentFind content "tool_use" = .ok toolUse ∧
  getProp toolUse "name" = .ok name ∧
  getProp toolUse "id" = .ok toolUseId ∧
  ∃ input, getProp toolUse "input" = .ok input ∧ getProp input "symbols" = .ok symbols

/-! ## Sample responses and worlds -/

/-- A content block of type `tool_use`. -/
def toolUseBlock (id name : String) (symbols : List String) : JVal :=
  .obj [("type", .str "tool_use"), ("id", .str id), ("name", .str name),
        ("input", .obj [("symbols", .arr (symbols.map JVal.str))])]

/-- A content block of type `text`. -/
def textBlock (text : String) : JVal :=
  .obj [("type", .str "text"), ("text", .str text)]

/-- A parsed model response. -/
def modelResponse (stopReason : String) (content : List JVal) : JVal :=
  .obj [("role", .str "assistant"), ("content", .arr content),
        ("stop_reason", .str stopReason)]

/-- A world in which every collaborator other than the model succeeds: one
holding of ten `AAPL`, price helpers that answer an empty result list. -/
def sampleWorld (model : Nat → List Message → Except JsError JVal) : World where
  queryItems := fun _ =>
    .ok (.arr [.obj [("symbol", .str "AAPL"), ("quantity", .num 10)]])
  invokeModel := model
  getStockPrices := fun _ => .ok (.arr [])
  getIntradayStockPrices := fun _ => .ok (.arr [])
  sendUpdate := fun _ => .ok ()
  stringify := fun _ => "[]"
  stringifyIndent := fun _ => "[]"
  objectToString := fun _ => "[object Object]"
  localeDate := "11/6/2026"
  completedClock := "2026-11-06T10:00:05.000Z"
  failedClock := "2026-11-06T10:00:06.000Z"

/-- The submission of the scenario in the specification. -/
def sampleEvent : JobEvent :=
  ⟨"J", .str "u1", none, none, .str "Should I rebalance?"⟩

/-- A model that asks for daily prices of `AAPL` and `MSFT` on every call. -/
def alwaysToolModel : Nat → List Message → Except JsError JVal :=
  fun _ _ => .ok (modelResponse "tool_use"
    [toolUseBlock "toolu_1" "get_stock_prices" ["AAPL", "MSFT"]])

/-- A model that answers the first call with the given text. -/
def directModel (text : String) : Nat → List Message → Except JsError JVal :=
  fun _ _ => .ok (modelResponse "end_turn" [textBlock text])

/-- A model whose every call throws. -/
def failingModel (e : JsError) : Nat → List Message → Except JsError JVal :=
  fun _ _ => .error e

/-- A submission with three earlier prompts and one earlier response. -/
def unevenHistoryEvent : JobEvent :=
  ⟨"J", .str "u1", some [.str "p1", .str "p2", .str "p3"], some [.str "r1"],
   .str "Should I rebalance?"⟩

/-- A model that first asks for the tool `name` on `AAPL` and answers
`"Done"` on every later call. -/
def toolThenTextModel (name : String) : Nat → List Message → Except JsError JVal :=
  fun k _ =>
    if k = 0 then .ok (modelResponse "tool_use" [toolUseBlock "toolu_1" name ["AAPL"]])
    else .ok (modelResponse "end_turn" [textBlock "Done"])

/-- The sample world with a portfolio store whose query throws. -/
def brokenPortfolioWorld : World :=
  { sampleWorld (directModel "Yes, consider...") with
    queryItems := fun _ => .error ⟨"Error", "portfolio store unavailable"⟩ }

/-! ## The job table -/

/-- An item of table `ai-jobs`: the value of each attribute it has. -/
abbrev Item := String → Option JVal

/-- The table `ai-jobs`: the item stored under each `jobId`, if any. -/
abbrev Table := String → Option Item

/-- Assignment of one attribute, as a `SET` action does it. -/
def setAttr (item : Item) (name : String) (value : JVal) : Item :=
  fun a => if a = name then some value else item a

/-- The item an update starts from when the key holds none: the key alone. -/
def keyOnly (jobId : String) : Item :=
  fun a => if a = "jobId" then some (.str jobId) else none

/-- The effect on the table of a successful `UpdateCommand` that has a `SET`
expression and no condition, as both commands of the handler are: the item
under the key (created with the key alone when absent) gets the assigned
attributes, every other item is left as it is. -/
def applyUpdate (T : Table) (cmd : UpdateCmd) : Table :=
  fun key =>
    if key = cmd.jobId then
      some (cmd.sets.foldl (fun item kv => setAttr item kv.1 kv.2)
        ((T key).getD (keyOnly key)))
    else T key

/-- The effect of one external call on the table: only an update that the
store accepted changes it. -/
def applyEffect (T : Table) : Effect → Table
  | .update cmd (.ok _) => applyUpdate T cmd
  | _ => T

/-- The table after the external calls of a run. -/
def storeAfter (T : Table) (trace : List Effect) : Table :=
  trace.foldl applyEffect T

/-- The value of attribute `a` of the item under `jobId`. -/
def readAttr (T : Table) (jobId a : String) : Option JVal :=
  (T jobId).bind fun item => item a

/-- An item given by its attribute list. -/
def itemOfList (attrs : List (String × JVal)) : Item :=
  fun a => attrs.lookup a

/-- A table holding one job, already `COMPLETED`. -/
def completedTable : Table :=
  fun key =>
    if key = "J" then
      some (itemOfList
        [("jobId", .str "J"), ("status", .str "COMPLETED"),
         ("userId", .str "u1"), ("prompt", .str "Should I rebalance?"),
         ("result", .str "Yes, consider..."),
         ("createdAt", .str "2026-11-06T10:00:00.000Z"),
         ("completedAt", .str "2026-11-06T10:00:05.000Z")])
    else none

/-! ## The job starter and the status checker

Embedding of `lib/lambdas/stockAiJobStarter/index.mjs` and
`lib/lambdas/aiJobStatusChecker/index.mjs`.  Where the source passes
`JSON.stringify(x)` (response bodies, the dispatched payload), the model keeps
the JSON document that text denotes: `x` without the members whose value is
`undefined`, which `JSON.stringify` leaves out.  The `console` calls are not
modelled. -/

/-- Whether a value is `undefined`. -/
def isUndefined : JVal → Bool
  | .undefined => true
  | _ => false

/-- The JSON document that `JSON.stringify` writes for an object literal with
the given members: members whose value is `undefined` are left out. -/
def jsonObject (members : List (String × JVal)) : JVal :=
  .obj (members.filter fun kv => !isUndefined kv.2)

/-- The member names of a JSON document that is an object. -/
def jsonKeys : JVal → List String
  | .obj members => members.map Prod.fst
  | _ => []

/-- The member of a JSON document under a name, if it has one. -/
def jsonField (doc : JVal) (name : String) : Option JVal :=
  match doc with
  | .obj members => members.lookup name
  | _ => none

/-- A `PutCommand` on a table: the members of its `Item` object literal. -/
structure PutCmd where
  tableName : String
  item : List (String × JVal)

/-- An `InvokeCommand`; `payload` is the JSON document of its `Payload`. -/
structure InvokeCmd where
  functionName : String
  invocationType : String
  payload : JVal

/-- The external calls of the starter and of the status checker, each with
the answer it got (`get`: the `Item` of the answer, if it has one). -/
inductive ApiEffect where
  | put (cmd : PutCmd) (answer : Except JsError Unit) : ApiEffect
  | invoke (cmd : InvokeCmd) (answer : Except JsError Unit) : ApiEffect
  | get (tableName : String) (jobId : JVal)
      (answer : Except JsError (Option Item)) : ApiEffect

/-- An API Gateway proxy response; `body` is the JSON document of the body
text, `none` when the response has no body. -/
structure HttpResponse where
  statusCode : Nat
  headers : List (String × String)
  body : Option JVal

/-- The three CORS headers every response carries. -/
def corsHeaders (methods : String) : List (String × String) :=
  [("Access-Control-Allow-Origin", "*"),
   ("Access-Control-Allow-Headers", "Content-Type"),
   ("Access-Control-Allow-Methods", methods)]

/-- The request of the starter: its `httpMethod` and what
`JSON.parse(event.body)` gives (the parsed value, or the error it throws). -/
structure StarterEvent where
  httpMethod : JVal
  body : Except JsError JVal

/-- Everything outside the starter.

* `randomUUID`: the value `randomUUID()` returns.
* `putItem`, `invokeLambda`: `dynamo.send(new PutCommand(..))` and
  `lambdaClient.send(new InvokeCommand(..))`.
* `newDate`: the reading (milliseconds) of `new Date()`; `dateNow`: the
  reading of `Date.now()`; `toISOString`: the ISO text of a reading.
* `env`: the variables of `process.env`.
* `errorStack`: the `stack` of a thrown error. -/
structure StarterWorld where
  randomUUID : String
  putItem : PutCmd → Except JsError Unit
  invokeLambda : InvokeCmd → Except JsError Unit
  newDate : Nat
  dateNow : Nat
  toISOString : Nat → String
  env : String → Option String
  errorStack : JsError → JVal

/-- How a request to the starter went. -/
structure StarterRun where
  trace : List ApiEffect
  response : HttpResponse

/-- The `Item` of the `PutCommand` (lines 35-44). -/
def starterItem (W : StarterWorld) (jobId : String) (body : JVal) :
    Except JsError (List (String × JVal)) := do
  let userId ← getProp body "userId"
  let prompt ← getProp body "prompt"
  let prompts ← getProp body "prompts"
  let responses ← getProp body "responses"
  pure [("jobId", .str jobId),
        ("status", .str "PROCESSING"),
        ("userId", userId),
        ("prompt", prompt),
        ("prompts", jsOr prompts (.arr [])),
        ("responses", jsOr responses (.arr [])),
        ("createdAt", .str (W.toISOString W.newDate)),
        ("ttl", .num (Int.ofNat (W.dateNow / 1000 + 86400)))]

/-- The document of the `Payload` of the `InvokeCommand` (lines 52-58). -/
def starterPayload (jobId : String) (body : JVal) : Except JsError JVal := do
  let userId ← getProp body "userId"
  let prompt ← getProp body "prompt"
  let prompts ← getProp body "prompts"
  let responses ← getProp body "responses"
  pure (jsonObject [("jobId", .str jobId),
                    ("userId", userId),
                    ("prompt", prompt),
                    ("prompts", jsOr prompts (.arr [])),
                    ("responses", jsOr responses (.arr []))])

/-- The expression `process.env.PROCESSOR_LAMBDA_NAME ||
"Stock-AI-Insight-Portfolio-Suggestions"` (line 50). -/
def processorFunctionName (W : StarterWorld) : String :=
  match W.env "PROCESSOR_LAMBDA_NAME" with
  | some name => if name ≠ "" then name else "Stock-AI-Insight-Portfolio-Suggestions"
  | none => "Stock-AI-Insight-Portfolio-Suggestions"

/-- The `try` block of the starter (lines 25-75): the external calls made and
the response returned, or the error thrown. -/
def starterTry (W : StarterWorld) (event : StarterEvent) :
    List ApiEffect × Except JsError HttpResponse :=
  match event.body with
  | .error e => ([], .error e)
  | .ok body =>
    let jobId := W.randomUUID
    match starterItem W jobId body with
    | .error e => ([], .error e)
    | .ok item =>
      let put : PutCmd := ⟨"ai-jobs", item⟩
      match W.putItem put with
      | .error e => ([.put put (.error e)], .error e)
      | .ok u =>
        match starterPayload jobId body with
        | .error e => ([.put put (.ok u)], .error e)
        | .ok payload =>
          let invoke : InvokeCmd := ⟨processorFunctionName W, "Event", payload⟩
          match W.invokeLambda invoke with
          | .error e => ([.put put (.ok u), .invoke invoke (.error e)], .error e)
          | .ok v =>
            ([.put put (.ok u), .invoke invoke (.ok v)],
             .ok ⟨202, corsHeaders "POST,OPTIONS",
               some (jsonObject [("jobId", .str jobId),
                                 ("status", .str "PROCESSING"),
                                 ("message", .str "Job submitted successfully")])⟩)

/-- The exported `handler` of the starter (lines 11-91): the answer to
`OPTIONS`, otherwise the `try` block, and on any error thrown in it the 500
response of the `catch` block. -/
def starterHandler (W : StarterWorld) (event : StarterEvent) : StarterRun :=
  if strictEqStr event.httpMethod "OPTIONS" then
    ⟨[], ⟨200, corsHeaders "POST,OPTIONS", none⟩⟩
  else
    match starterTry W event with
    | (trace, .ok response) => ⟨trace, response⟩
    | (trace, .error error) =>
      ⟨trace, ⟨500, corsHeaders "POST,OPTIONS",
        some (jsonObject [("error", .str error.message),
                          ("details", W.errorStack error)])⟩⟩

/-- The request of the status checker. -/
structure CheckerEvent where
  httpMethod : JVal
  pathParameters : JVal

/-- Everything outside the status checker: `sendGet j` is the `Item` of the
answer of `dynamo.send(new GetCommand(..))` for the key `j` (`none`: the
answer has no `Item`), or the error thrown. -/
structure CheckerWorld where
  sendGet : JVal → Except JsError (Option Item)

/-- How a request to the status checker went. -/
structure CheckerRun where
  trace : List ApiEffect
  outcome : Except JsError HttpResponse

/-- The attribute read `result.Item.a`. -/
def itemAttr (item : Item) (a : String) : JVal := (item a).getD .undefined

/-- The exported `handler` of the status checker (lines 7-54).  It has no
`try`: an error thrown by the read of `event.pathParameters.jobId` or by the
`GetCommand` rejects the returned promise. -/
def statusHandler (W : CheckerWorld) (event : CheckerEvent) : CheckerRun :=
  if strictEqStr event.httpMethod "OPTIONS" then
    ⟨[], .ok ⟨200, corsHeaders "GET,OPTIONS", none⟩⟩
  else
    match getProp event.pathParameters "jobId" with
    | .error e => ⟨[], .error e⟩
    | .ok jobId =>
      match W.sendGet jobId with
      | .error e => ⟨[.get "ai-jobs" jobId (.error e)], .error e⟩
      | .ok none =>
        ⟨[.get "ai-jobs" jobId (.ok none)],
         .ok ⟨404, corsHeaders "GET,OPTIONS",
           some (jsonObject [("error", .str "Job not found")])⟩⟩
      | .ok (some item) =>
        ⟨[.get "ai-jobs" jobId (.ok (some item))],
         .ok ⟨200, corsHeaders "GET,OPTIONS",
           some (jsonObject [("jobId", itemAttr item "jobId"),
                             ("status", itemAttr item "status"),
                             ("result", itemAttr item "result"),
                             ("error", itemAttr item "error"),
                             ("createdAt", itemAttr item "createdAt"),
                             ("completedAt", itemAttr item "completedAt")])⟩⟩

/-! ## The job table under the starter and the status checker -/

/-- The item a successful `PutCommand` stores: the members of `Item` that
have a value. -/
def storedItem (members : List (String × JVal)) : Item :=
  fun a =>
    match members.lookup a with
    | some .undefined => none
    | found => found

/-- The effect on the table of a successful `PutCommand` with no condition:
the item under the key `jobId` of `Item` is replaced by the new one. -/
def applyPut (T : Table) (cmd : PutCmd) : Table :=
  match cmd.item.lookup "jobId" with
  | some (.str jobId) => fun key => if key = jobId then some (storedItem cmd.item) else T key
  | _ => T

/-- The effect on the table of one external call of the starter or the
status checker: only a put that the store accepted changes it. -/
def applyApiEffect (T : Table) : ApiEffect → Table
  | .put cmd (.ok _) => applyPut T cmd
  | _ => T

/-- The table after the external calls of a request. -/
def tableAfter (T : Table) (trace : List ApiEffect) : Table :=
  trace.foldl applyApiEffect T

/-- A status-checker world whose reads return what table `T` holds. -/
def readerOf (T : Table) : CheckerWorld where
  sendGet := fun key =>
    match key with
    | .str jobId => .ok (T jobId)
    | _ => .error ⟨"ValidationException",
        "The provided key element does not match the schema"⟩

/-- The event the orchestrator receives for a dispatched payload: the
members of the document, with `prompts` and `responses` as arrays. -/
def eventOfPayload (payload : JVal) : Option JobEvent :=
  let list? (v : JVal) : Option (Option (List JVal)) :=
    match v with
    | .arr items => some (some items)
    | .undefined => some none
    | .null => some none
    | _ => none
  match jsonField payload "jobId", list? ((jsonField payload "prompts").getD .undefined),
      list? ((jsonField payload "responses").getD .undefined) with
  | some (.str jobId), some prompts, some responses =>
    some ⟨jobId, (jsonField payload "userId").getD .undefined, prompts, responses,
      (jsonField payload "prompt").getD .undefined⟩
  | _, _, _ => none

/-! ## Sample requests -/

/-- A starter world in which the write and the dispatch succeed. -/
def sampleStarterWorld : StarterWorld where
  randomUUID := "J"
  putItem := fun _ => .ok ()
  invokeLambda := fun _ => .ok ()
  newDate := 1793959200000
  dateNow := 1793959200000
  toISOString := fun _ => "2026-11-06T10:00:00.000Z"
  env := fun _ => none
  errorStack := fun e => .str (e.name ++ ": " ++ e.message)

/-- The submission of the scenario in the specification. -/
def sampleSubmission : StarterEvent :=
  ⟨.str "POST", .ok (.obj [("userId", .str "u1"), ("prompt", .str "Should I rebalance?")])⟩

/-- A submission without question text. -/
def promptlessSubmission : StarterEvent :=
  ⟨.str "POST", .ok (.obj [("userId", .str "u1")])⟩

/-- The empty job table. -/
def emptyTable : Table := fun _ => none

/-- A poll for job `J`. -/
def samplePoll : CheckerEvent :=
  ⟨.str "GET", .obj [("jobId", .str "J")]⟩

/-! ## The starter seen from its body -/

/-- The member `v.p` of a value whose members can be read (`undefined` for a
value on which the read throws). -/
def member (v : JVal) (p : String) : JVal :=
  match getProp v p with
  | .ok x => x
  | .error _ => .undefined

/-- The `PutCommand` the starter sends for a parsed body whose members can be
read (`starterHandler_shape` shows that it is this one). -/
def starterPut (W : StarterWorld) (body : JVal) : PutCmd :=
  ⟨"ai-jobs",
   [("jobId", .str W.randomUUID),
    ("status", .str "PROCESSING"),
    ("userId", member body "userId"),
    ("prompt", member body "prompt"),
    ("prompts", jsOr (member body "prompts") (.arr [])),
    ("responses", jsOr (member body "responses") (.arr [])),
    ("createdAt", .str (W.toISOString W.newDate)),
    ("ttl", .num (Int.ofNat (W.dateNow / 1000 + 86400)))]⟩

/-- The `InvokeCommand` the starter sends for such a body. -/
def starterInvoke (W : StarterWorld) (body : JVal) : InvokeCmd :=
  ⟨processorFunctionName W, "Event",
   jsonObject [("jobId", .str W.randomUUID),
               ("userId", member body "userId"),
               ("prompt", member body "prompt"),
               ("prompts", jsOr (member body "prompts") (.arr [])),
               ("responses", jsOr (member body "responses") (.arr []))]⟩

/-- The response of the `catch` block of the starter (lines 78-89). -/
def errorResponse (W : StarterWorld) (error : JsError) : HttpResponse :=
  ⟨500, corsHeaders "POST,OPTIONS",
   some (jsonObject [("error", .str error.message), ("details", W.errorStack error)])⟩

/-- The response of the starter after a successful dispatch (lines 62-74). -/
def acceptedResponse (W : StarterWorld) : HttpResponse :=
  ⟨202, corsHeaders "POST,OPTIONS",
   some (jsonObject [("jobId", .str W.randomUUID),
                     ("status", .str "PROCESSING"),
                     ("message", .str "Job submitted successfully")])⟩

/-- The sample orchestrator world with a daily-price helper that throws. -/
def brokenPricesWorld : World :=
  { sampleWorld alwaysToolModel with
    getStockPrices := fun _ => .error ⟨"TypeError", "fetch failed"⟩ }

/-- A starter world whose record write throws. -/
def failingPutWorld : StarterWorld :=
  { sampleStarterWorld with
    putItem := fun _ => .error ⟨"ProvisionedThroughputExceededException", "throttled"⟩ }

/-- A starter world whose dispatch throws. -/
def failingInvokeWorld : StarterWorld :=
  { sampleStarterWorld with
    invokeLambda := fun _ => .error ⟨"ResourceNotFoundException", "Function not found"⟩ }

/-- The event the orchestrator receives for the sample submission. -/
def dispatchedEvent : JobEvent :=
  ⟨"J", .str "u1", some [], some [], .str "Should I rebalance?"⟩

/-- The job table after the sample submission and the run it dispatches, in
which the model answers the first call with `"Yes, consider..."`. -/
def scenarioTable : Table :=
  storeAfter
    (tableAfter emptyTable (starterHandler sampleStarterWorld sampleSubmission).trace)
    (handler (sampleWorld (directModel "Yes, consider...")) dispatchedEvent).trace

/-- A run for a submission without identity. -/
def anonymousEvent : JobEvent :=
  ⟨"J", .undefined, none, none, .str "Should I rebalance?"⟩

/-- A model whose every answer has `stop_reason` `"tool_use"` but only a text
block in its content. -/
def malformedModel : Nat → List Message → Except JsError JVal :=
  fun _ _ => .ok (modelResponse "tool_use" [textBlock "Let me look that up."])

/-- A model that asks for two tools in one response on every call. -/
def twoToolsModel : Nat → List Message → Except JsError JVal :=
  fun _ _ => .ok (modelResponse "tool_use"
    [toolUseBlock "toolu_1" "get_stock_prices" ["AAPL"],
     toolUseBlock "toolu_2" "get_stock_prices" ["MSFT"]])

/-- The model answers with text blocks as the API types them: the `text` of
the first block of type `text` of every response, when it has one, is a
string. -/
def TextIsString (W : World) : Prop :=
  ∀ k msgs body content block, W.invokeModel k msgs = .ok body →
    getProp body "content" = .ok content → contentFind content "text" = .ok block →
    optionalText block = .undefined ∨ ∃ s, optionalText block = .str s

/-- The model calls of a trace in order: `loopCount`, conversation, answer. -/
def modelCallsOf (t : List Effect) : List (Nat × List Message × Except JsError JVal) :=
  t.filterMap fun x =>
    match x with
    | .modelCall k m a => some (k, m, a)
    | _ => none

/-- A list of model calls is threaded from `(k, m)`: the first call has
`loopCount = k` and conversation `m`, and every call that has a successor
was answered by a response with some content, the successor being made with
the next `loopCount` on the conversation extended by the two messages of the
tool turn. -/
def Threaded (W : World) :
    Nat → List Message → List (Nat × List Message × Except JsError JVal) → Prop
  | _, _, [] => True
  | k, m, c :: cs =>
    c.1 = k ∧ c.2.1 = m ∧
      (cs = [] ∨ ∃ body content toolUseId r, c.2.2 = .ok body ∧
        getProp body "content" = .ok content ∧
        Threaded W (k + 1) (m ++ toolTurn W content toolUseId r) cs)

/-! ## The daily price lookup

Embedding of `lib/lambdas/stockDailyGet/index.mjs`. -/

/-- The external calls of the daily price lookup: one query of table
`stock-app-data-daily` per symbol, with what the inner `try` block made of
it (the `Items` of the answer, or the error it caught). -/
inductive DailyEffect where
  | query (tableName : String) (symbol : JVal) (answer : Except JsError JVal) : DailyEffect

/-- The request of the daily price lookup: its `httpMethod` and what
`JSON.parse(event.body)` gives. -/
structure DailyEvent where
  httpMethod : JVal
  body : Except JsError JVal

/-- Everything outside the daily price lookup: `queryItems i symbol` is what
the inner `try` block gets for element `i` of `symbols`, the `Items` of the
answer of `dynamo.send(new QueryCommand(..))` or the error thrown there. -/
structure DailyWorld where
  queryItems : Nat → JVal → Except JsError JVal

/-- How a request to the daily price lookup went. -/
structure DailyRun where
  trace : List DailyEffect
  outcome : Except JsError HttpResponse

/-- The call `Array.isArray(v)`. -/
def isArray : JVal → Bool
  | .arr _ => true
  | _ => false

/-- The elements of an array (none for another value). -/
def arrayItems : JVal → List JVal
  | .arr items => items
  | _ => []

/-- The guard `!symbols || !Array.isArray(symbols) || symbols.length === 0`
(line 24). -/
def symbolsRejected (symbols : JVal) : Bool :=
  !truthy symbols || !isArray symbols || (arrayItems symbols).length == 0

/-- The queries of `symbols.map(async (symbol) => ..)` (lines 38-63), in the
order of the array, from element `i` on: each symbol with what its inner
`try` block got. -/
def dailyQueries (W : DailyWorld) : Nat → List JVal → List (JVal × Except JsError JVal)
  | _, [] => []
  | i, symbol :: rest => (symbol, W.queryItems i symbol) :: dailyQueries W (i + 1) rest

/-- The entry the callback returns for one symbol (lines 50-61), as it
stands in the JSON document of the body. -/
def dailyResult (symbol : JVal) (answer : Except JsError JVal) : JVal :=
  match answer with
  | .ok items => jsonObject [("symbol", symbol), ("data", items), ("success", .bool true)]
  | .error error =>
    jsonObject [("symbol", symbol), ("error", .str error.message), ("success", .bool false)]

/-- The exported `handler` of the daily price lookup (lines 7-90).  The
parse of the body and the read of `body.symbols` are outside any `try`.  Every
promise of the map settles with an entry, so `Promise.all` gives the entries
in the order of the array and the outer `catch` (lines 79-89) is not
entered. -/
def dailyGetHandler (W : DailyWorld) (event : DailyEvent) : DailyRun :=
  if strictEqStr event.httpMethod "OPTIONS" then
    ⟨[], .ok ⟨200, corsHeaders "POST,OPTIONS", none⟩⟩
  else
    match event.body with
    | .error e => ⟨[], .error e⟩
    | .ok body =>
      match getProp body "symbols" with
      | .error e => ⟨[], .error e⟩
      | .ok symbols =>
        if symbolsRejected symbols then
          ⟨[], .ok ⟨400, corsHeaders "POST,OPTIONS",
            some (jsonObject [("error", .str "symbols array is required")])⟩⟩
        else
          let answers := dailyQueries W 0 (arrayItems symbols)
          ⟨answers.map fun sa => .query "stock-app-data-daily" sa.1 sa.2,
           .ok ⟨200, corsHeaders "POST,OPTIONS",
             some (jsonObject
               [("results", .arr (answers.map fun sa => dailyResult sa.1 sa.2)),
                ("total", .num (Int.ofNat (arrayItems symbols).length))])⟩⟩

/-- A daily-lookup world in which the query for `MSFT` throws. -/
def sampleDailyWorld : DailyWorld where
  queryItems := fun _ symbol =>
    if strictEqStr symbol "MSFT" then .error ⟨"ResourceNotFoundException", "table not found"⟩
    else .ok (.arr [.obj [("symbol", symbol), ("close", .num 100)]])

/-- A lookup of `AAPL` and `MSFT`. -/
def sampleDailyEvent : DailyEvent :=
  ⟨.str "POST", .ok (.obj [("symbols", .arr [.str "AAPL", .str "MSFT"])])⟩

/-- A starter world whose document client refuses an item that has a member
without value, as the marshalling of the client does when it is created
without `removeUndefinedValues`; the write throws before anything is
stored. -/
def strictPutWorld : StarterWorld :=
  { sampleStarterWorld with
    putItem := fun cmd =>
      if cmd.item.any fun kv => isUndefined kv.2 then
        .error ⟨"Error",
          "Pass options.removeUndefinedValues=true to remove undefined values from map/array/set."⟩
      else .ok () }

/-! ## The deployment

Embedding of the parts of `lib/serverless_backend-stack.ts` that configure the
starter and route requests to the status checker. -/

/-- The function name `mkLambda` gives a function: the template
`${functionName}-v2` (line 74). -/
def mkLambdaName (functionName : String) : String := functionName ++ "-v2"

/-- The object `commonEnv` (lines 47-54); the tables are imported by their
names (lines 23-37), and `polygonApiKey` is an optional property. -/
def commonEnv (polygonApiKey : Option String) : List (String × Option String) :=
  [("POLYGON_API_KEY", polygonApiKey),
   ("MARKET_CACHE_TABLE", some "stock-app-data"),
   ("DAILY_CACHE_TABLE", some "stock-app-data-daily"),
   ("MOVERS_TABLE", some "stock-app-data-movers"),
   ("USER_DATA_TABLE", some "stock-user-data"),
   ("AI_JOBS_TABLE", some "ai-jobs")]

/-- The value of `stockAiInsightSuggestionsFn.functionName` (lines 203-206):
the name of the function that runs the orchestrator. -/
def stockAiInsightSuggestionsFnName : String := mkLambdaName "stock-ai-insight-suggestions"

/-- The environment the stack gives `stockAiJobStarterFn`: `commonEnv`
through `commonProps` (lines 192-194) and the variable added at lines
223-226. -/
def starterEnvironment (polygonApiKey : Option String) : List (String × Option String) :=
  commonEnv polygonApiKey ++
    [("INSIGHT_SUGGESTIONS_FUNCTION_NAME", some stockAiInsightSuggestionsFnName)]

/-- The sample starter world with `process.env` as the stack defines it. -/
def deployedStarterWorld (polygonApiKey : Option String) : StarterWorld :=
  { sampleStarterWorld with
    env := fun name => ((starterEnvironment polygonApiKey).lookup name).bind id }

/-- The event of `GET /ai-insight`, which the stack routes to the status
checker (line 399): the resource has no `{jobId}` part, so the event carries
`pathParameters: null`. -/
def collectionPoll : CheckerEvent := ⟨.str "GET", .null⟩

/-! ## Structure of the trace -/

theorem updatesOf_append (s t : List Effect) :
    updatesOf (s ++ t) = updatesOf s ++ updatesOf t := by
  simp [updatesOf]

theorem modelCallCount_append (s t : List Effect) :
    modelCallCount (s ++ t) = modelCallCount s + modelCallCount t := by
  simp [modelCallCount]

theorem getPortfolioFromDB_trace (W : World) (u : JVal) :
    updatesOf (getPortfolioFromDB W u).1 = [] ∧
    modelCallCount (getPortfolioFromDB W u).1 = 0 := by
  unfold getPortfolioFromDB
  split <;> simp [updatesOf, modelCallCount, updateOf, isModelCall]

theorem toolDispatch_trace (W : World) (toolUse name : JVal) :
    updatesOf (toolDispatch W toolUse name).1 = [] ∧
    modelCallCount (toolDispatch W toolUse name).1 = 0 := by
  unfold toolDispatch
  split
  · split
    · simp [updatesOf, modelCallCount]
    · split <;> simp [updatesOf, modelCallCount, updateOf, isModelCall]
  · simp [updatesOf, modelCallCount]

theorem afterModel_effects (W : World) (messages : List Message) (body : JVal) :
    (afterModel W messages body).1 = [] ∨
    ∃ toolUse name, (afterModel W messages body).1 = (toolDispatch W toolUse name).1 := by
  unfold afterModel
  cases getProp body "stop_reason" with
  | error e => simp
  | ok sr =>
    cases getProp body "content" with
    | error e => simp
    | ok content =>
      by_cases hs : strictEqStr sr "tool_use" = true
      · simp only [hs, if_true]
        cases contentFind content "tool_use" with
        | error e => simp
        | ok tu =>
          dsimp only
          cases getProp tu "name" with
          | error e => simp
          | ok nm =>
            dsimp only
            right
            refine ⟨tu, nm, ?_⟩
            rcases toolDispatch W tu nm with ⟨effs, r⟩
            cases r with
            | error e => simp
            | ok tr =>
              dsimp only
              cases getProp tu "id" <;> simp
      · simp only [hs]
        cases contentFind content "text" <;> simp

theorem afterModel_trace (W : World) (messages : List Message) (body : JVal) :
    updatesOf (afterModel W messages body).1 = [] ∧
    modelCallCount (afterModel W messages body).1 = 0 := by
  rcases afterModel_effects W messages body with h | ⟨tu, nm, h⟩
  · simp [h, updatesOf, modelCallCount]
  · rw [h]
    exact toolDispatch_trace W tu nm

theorem loopIteration_trace (W : World) (k : Nat) (messages : List Message) :
    updatesOf (loopIteration W k messages).1 = [] ∧
    modelCallCount (loopIteration W k messages).1 = 1 := by
  unfold loopIteration
  cases W.invokeModel k messages with
  | error e => simp [updatesOf, modelCallCount, updateOf, isModelCall]
  | ok body =>
    have := afterModel_trace W messages body
    simp only [updatesOf, modelCallCount] at this ⊢
    simp [updateOf, isModelCall, this.1, this.2]

theorem bedrockLoop_trace (W : World) (n k : Nat) (messages : List Message) :
    updatesOf (bedrockLoop W n k messages).trace = [] ∧
    modelCallCount (bedrockLoop W n k messages).trace ≤ n := by
  induction n generalizing k messages with
  | zero => simp [bedrockLoop, updatesOf, modelCallCount]
  | succ n ih =>
    have hi := loopIteration_trace W k messages
    unfold bedrockLoop
    rcases h : loopIteration W k messages with ⟨effects, step⟩
    rw [h] at hi
    dsimp only at hi
    cases step with
    | thrown e => exact ⟨hi.1, by dsimp only; omega⟩
    | final v => exact ⟨hi.1, by dsimp only; omega⟩
    | again m2 =>
      have := ih (k + 1) m2
      dsimp only
      simp only [updatesOf_append, modelCallCount_append, hi.1, hi.2, this.1]
      exact ⟨rfl, by omega⟩

/-- The shape of every run: the portfolio fetch, then (when the fetch
succeeded) the loop over the initial conversation, then the terminal part,
which is the `FAILED` update after a throw, and otherwise the `COMPLETED`
update, followed by the `FAILED` update when the `COMPLETED` one throws. -/
theorem handler_shape (W : World) (event : JobEvent) :
    (∃ e, (getPortfolioFromDB W event.userId).2 = .error e ∧
      handler W event =
        ⟨(getPortfolioFromDB W event.userId).1 ++
          [.update (failedUpdate event.jobId e.message W.failedClock)
            (W.sendUpdate (failedUpdate event.jobId e.message W.failedClock))],
         match W.sendUpdate (failedUpdate event.jobId e.message W.failedClock) with
         | .ok _ => .error e
         | .error e2 => .error e2⟩) ∨
    (∃ holdings e, (getPortfolioFromDB W event.userId).2 = .ok holdings ∧
      (bedrockLoop W MAX_LOOPS 0 (initialMessages W event holdings)).result = .error e ∧
      handler W event =
        ⟨(getPortfolioFromDB W event.userId).1 ++
          (bedrockLoop W MAX_LOOPS 0 (initialMessages W event holdings)).trace ++
          [.update (failedUpdate event.jobId e.message W.failedClock)
            (W.sendUpdate (failedUpdate event.jobId e.message W.failedClock))],
         match W.sendUpdate (failedUpdate event.jobId e.message W.failedClock) with
         | .ok _ => .error e
         | .error e2 => .error e2⟩) ∨
    (∃ holdings v, (getPortfolioFromDB W event.userId).2 = .ok holdings ∧
      (bedrockLoop W MAX_LOOPS 0 (initialMessages W event holdings)).result = .ok v ∧
      handler W event =
        match W.sendUpdate (completedUpdate event.jobId v W.completedClock) with
        | .ok u =>
          ⟨(getPortfolioFromDB W event.userId).1 ++
            (bedrockLoop W MAX_LOOPS 0 (initialMessages W event holdings)).trace ++
            [.update (completedUpdate event.jobId v W.completedClock) (.ok u)], .ok u⟩
        | .error e =>
          ⟨(getPortfolioFromDB W event.userId).1 ++
            (bedrockLoop W MAX_LOOPS 0 (initialMessages W event holdings)).trace ++
            [.update (completedUpdate event.jobId v W.completedClock) (.error e)] ++
            [.update (failedUpdate event.jobId e.message W.failedClock)
              (W.sendUpdate (failedUpdate event.jobId e.message W.failedClock))],
           match W.sendUpdate (failedUpdate event.jobId e.message W.failedClock) with
           | .ok _ => .error e
           | .error e2 => .error e2⟩) := by
  unfold handler tryBlock
  rcases getPortfolioFromDB W event.userId with ⟨fetch, r⟩
  cases r with
  | error e => left; exact ⟨e, rfl, rfl⟩
  | ok holdings =>
    right
    dsimp only
    rcases hl : (bedrockLoop W MAX_LOOPS 0 (initialMessages W event holdings)).result
      with e | v
    · left
      refine ⟨holdings, e, rfl, hl, ?_⟩
      simp only [hl]
    · right
      refine ⟨holdings, v, rfl, hl, ?_⟩
      simp only [hl]
      cases W.sendUpdate (completedUpdate event.jobId v W.completedClock) <;> rfl

/-! ## One pass of the loop -/

theorem toolDispatch_daily (W : World) (toolUse input symbols r : JVal)
    (hin : getProp toolUse "input" = .ok input)
    (hsym : getProp input "symbols" = .ok symbols)
    (hr : W.getStockPrices symbols = .ok r) :
    toolDispatch W toolUse (.str "get_stock_prices") =
      ([.dailyPrices symbols (.ok r)], .ok r) := by
  simp [toolDispatch, strictEqStr, hin, hsym, hr]

theorem toolDispatch_other (W : World) (toolUse name : JVal)
    (hname : strictEqStr name "get_stock_prices" = false) :
    toolDispatch W toolUse name = ([], .ok .undefined) := by
  simp [toolDispatch, hname]

theorem afterModel_tool (W : World) (messages : List Message)
    (body content toolUse name toolUseId symbols : JVal)
    (hreq : ToolRequest body content toolUse name toolUseId symbols)
    (effects : List Effect) (r : JVal)
    (hd : toolDispatch W toolUse name = (effects, .ok r)) :
    afterModel W messages body =
      (effects, .again (messages ++ toolTurn W content toolUseId r)) := by
  obtain ⟨h1, h2, h3, h4, h5, -⟩ := hreq
  simp [afterModel, h1, h2, h3, h4, h5, hd, strictEqStr]

theorem bedrockLoop_again (W : World) (n k : Nat) (messages : List Message)
    (body content toolUse name toolUseId symbols : JVal)
    (hm : W.invokeModel k messages = .ok body)
    (hreq : ToolRequest body content toolUse name toolUseId symbols)
    (effects : List Effect) (r : JVal)
    (hd : toolDispatch W toolUse name = (effects, .ok r)) :
    bedrockLoop W (n + 1) k messages =
      ⟨.modelCall k messages (.ok body) :: effects ++
        (bedrockLoop W n (k + 1) (messages ++ toolTurn W content toolUseId r)).trace,
       (bedrockLoop W n (k + 1) (messages ++ toolTurn W content toolUseId r)).result⟩ := by
  have ha := afterModel_tool W messages body content toolUse name toolUseId symbols
    hreq effects r hd
  simp [bedrockLoop, loopIteration, hm, ha]

theorem bedrockLoop_always_tool (W : World)
    (hmodel : ∀ k msgs, ∃ body content toolUse name toolUseId symbols,
      W.invokeModel k msgs = .ok body ∧
      ToolRequest body content toolUse name toolUseId symbols)
    (htool : ∀ s, ∃ r, W.getStockPrices s = .ok r)
    (n k : Nat) (messages : List Message) :
    (bedrockLoop W n k messages).result = .ok .undefined := by
  induction n generalizing k messages with
  | zero => rfl
  | succ n ih =>
    obtain ⟨body, content, toolUse, name, toolUseId, symbols, hm, hreq⟩ :=
      hmodel k messages
    have hd : ∃ effects r, toolDispatch W toolUse name = (effects, .ok r) := by
      cases hname : strictEqStr name "get_stock_prices" with
      | false => exact ⟨_, _, toolDispatch_other W toolUse name hname⟩
      | true =>
        obtain ⟨input, hin, hsym⟩ := hreq.2.2.2.2.2
        obtain ⟨r, hr⟩ := htool symbols
        refine ⟨[.dailyPrices symbols (.ok r)], r, ?_⟩
        simp [toolDispatch, hname, hin, hsym, hr]
    obtain ⟨effects, r, hd⟩ := hd
    rw [bedrockLoop_again W n k messages body content toolUse name toolUseId symbols
      hm hreq effects r hd]
    exact ih _ _

/-! ## Loop bound and terminal write -/

/-- Every run makes at most `MAX_LOOPS` model calls, whatever the world. -/
theorem handler_model_calls_le (W : World) (event : JobEvent) :
    modelCallCount (handler W event).trace ≤ MAX_LOOPS := by
  have hf := (getPortfolioFromDB_trace W event.userId).2
  have hl := fun h => (bedrockLoop_trace W MAX_LOOPS 0 (initialMessages W event h)).2
  rcases handler_shape W event with ⟨e, -, h⟩ | ⟨holdings, e, -, -, h⟩ |
    ⟨holdings, v, -, -, h⟩
  · rw [h]
    simp only [modelCallCount_append, hf]
    simp [modelCallCount, isModelCall]
  · rw [h]
    have := hl holdings
    simp only [modelCallCount_append, hf]
    simp only [modelCallCount] at this ⊢
    simpa [isModelCall] using this
  · rw [h]
    have := hl holdings
    cases W.sendUpdate (completedUpdate event.jobId v W.completedClock) <;>
    · simp only [modelCallCount_append, hf]
      simp only [modelCallCount] at this ⊢
      simpa [isModelCall] using this

/-- C1 (loop bound).  When the portfolio store, the price helper and the job
store succeed and the model answers every call with a well-formed tool
request, the run makes at most 5 model calls, issues exactly one update,
which sets status `COMPLETED` and result `"Unable to generate response"`, and
the handler returns normally. -/
theorem loop_bound_completed_placeholder (W : World) (event : JobEvent)
    (hfetch : ∀ u, ∃ items, W.queryItems u = .ok items)
    (hmodel : ∀ k msgs, ∃ body content toolUse name toolUseId symbols,
      W.invokeModel k msgs = .ok body ∧
      ToolRequest body content toolUse name toolUseId symbols)
    (htool : ∀ s, ∃ r, W.getStockPrices s = .ok r)
    (hstore : ∀ cmd, W.sendUpdate cmd = .ok ()) :
    modelCallCount (handler W event).trace ≤ 5 ∧
    updatesOf (handler W event).trace =
      [⟨"ai-jobs", event.jobId,
        [("status", .str "COMPLETED"),
         ("result", .str "Unable to generate response"),
         ("completedAt", .str W.completedClock)]⟩] ∧
    (handler W event).outcome = .ok () := by
  refine ⟨handler_model_calls_le W event, ?_⟩
  have hf := (getPortfolioFromDB_trace W event.userId).1
  have hfetch2 : ∃ holdings, (getPortfolioFromDB W event.userId).2 = .ok holdings := by
    unfold getPortfolioFromDB
    split
    · exact ⟨_, rfl⟩
    · exact hfetch _
  obtain ⟨h0, hh0⟩ := hfetch2
  rcases handler_shape W event with ⟨e, he, -⟩ | ⟨holdings, e, -, he, -⟩ |
    ⟨holdings, v, -, hv, h⟩
  · rw [hh0] at he
    cases he
  · rw [bedrockLoop_always_tool W hmodel htool] at he
    cases he
  · rw [bedrockLoop_always_tool W hmodel htool] at hv
    cases hv
    rw [hstore] at h
    rw [h]
    simp [updatesOf_append, hf, (bedrockLoop_trace W MAX_LOOPS 0 _).1]
    simp [updatesOf, updateOf, completedUpdate, jsOr, truthy]

theorem loop_bound_completed_placeholder_witness :
    (∀ k msgs, ∃ body content toolUse name toolUseId symbols,
      (sampleWorld alwaysToolModel).invokeModel k msgs = .ok body ∧
      ToolRequest body content toolUse name toolUseId symbols) ∧
    modelCallCount (handler (sampleWorld alwaysToolModel) sampleEvent).trace ≤ 5 ∧
    updatesOf (handler (sampleWorld alwaysToolModel) sampleEvent).trace =
      [⟨"ai-jobs", "J",
        [("status", .str "COMPLETED"),
         ("result", .str "Unable to generate response"),
         ("completedAt", .str "2026-11-06T10:00:05.000Z")]⟩] ∧
    (handler (sampleWorld alwaysToolModel) sampleEvent).outcome = .ok () :=
  have hm : ∀ k msgs, ∃ body content toolUse name toolUseId symbols,
      (sampleWorld alwaysToolModel).invokeModel k msgs = .ok body ∧
      ToolRequest body content toolUse name toolUseId symbols :=
    fun _ _ => ⟨_, _, _, _, _, _, rfl, rfl, rfl, rfl, rfl, rfl, _, rfl, rfl⟩
  ⟨hm, loop_bound_completed_placeholder (sampleWorld alwaysToolModel) sampleEvent
    (fun _ => ⟨_, rfl⟩) hm (fun _ => ⟨_, rfl⟩) (fun _ => rfl)⟩

/-- C2 (terminal reachability of one run).  When the job store accepts
updates, every run, whatever the portfolio store, the model and the price
helpers answer or throw, ends with exactly one update of the job record; that
update is the last external call, is keyed by the job id, sets status to
`COMPLETED` or `FAILED`, and sets `completedAt`. -/
theorem handler_terminal_reachability (W : World) (event : JobEvent)
    (hstore : ∀ cmd, W.sendUpdate cmd = .ok ()) :
    ∃ before cmd status clock,
      (handler W event).trace = before ++ [.update cmd (.ok ())] ∧
      updatesOf (handler W event).trace = [cmd] ∧
      cmd.jobId = event.jobId ∧
      cmd.sets.lookup "status" = some (.str status) ∧
      (status = "COMPLETED" ∨ status = "FAILED") ∧
      cmd.sets.lookup "completedAt" = some (.str clock) := by
  have hf := (getPortfolioFromDB_trace W event.userId).1
  rcases handler_shape W event with ⟨e, -, h⟩ | ⟨holdings, e, -, -, h⟩ |
    ⟨holdings, v, -, -, h⟩
  · rw [h, hstore]
    refine ⟨_, _, "FAILED", W.failedClock, rfl, ?_, rfl, ?_, Or.inr rfl, ?_⟩
    · simp [updatesOf_append, hf]
      simp [updatesOf, updateOf]
    · simp [failedUpdate, List.lookup]
    · simp [failedUpdate, List.lookup]
  · rw [h, hstore]
    refine ⟨_, _, "FAILED", W.failedClock, rfl, ?_, rfl, ?_, Or.inr rfl, ?_⟩
    · simp [updatesOf_append, hf, (bedrockLoop_trace W MAX_LOOPS 0 _).1]
      simp [updatesOf, updateOf]
    · simp [failedUpdate, List.lookup]
    · simp [failedUpdate, List.lookup]
  · rw [h, hstore]
    refine ⟨_, _, "COMPLETED", W.completedClock, rfl, ?_, rfl, ?_, Or.inl rfl, ?_⟩
    · simp [updatesOf_append, hf, (bedrockLoop_trace W MAX_LOOPS 0 _).1]
      simp [updatesOf, updateOf]
    · simp [completedUpdate, List.lookup]
    · simp [completedUpdate, List.lookup]

theorem handler_terminal_reachability_witness :
    ∃ before cmd status clock,
      (handler (sampleWorld (failingModel ⟨"Error", "throttled"⟩)) sampleEvent).trace =
        before ++ [.update cmd (.ok ())] ∧
      updatesOf (handler (sampleWorld (failingModel ⟨"Error", "throttled"⟩))
        sampleEvent).trace = [cmd] ∧
      cmd.jobId = sampleEvent.jobId ∧
      cmd.sets.lookup "status" = some (.str status) ∧
      (status = "COMPLETED" ∨ status = "FAILED") ∧
      cmd.sets.lookup "completedAt" = some (.str clock) :=
  handler_terminal_reachability (sampleWorld (failingModel ⟨"Error", "throttled"⟩))
    sampleEvent (fun _ => rfl)

/-! ## Locating a model call in a run -/

theorem loopIteration_effects (W : World) (k : Nat) (messages : List Message) :
    ∃ tl, (loopIteration W k messages).1 =
        .modelCall k messages (W.invokeModel k messages) :: tl ∧
      ∀ x ∈ tl, isModelCall x = false := by
  rcases h : W.invokeModel k messages with e | body
  · exact ⟨[], by simp [loopIteration, h], by simp⟩
  · refine ⟨(afterModel W messages body).1, by simp [loopIteration, h], ?_⟩
    have := (afterModel_trace W messages body).2
    simp only [modelCallCount, List.countP_eq_zero] at this
    intro x hx
    simpa using this x hx

/-- A model call found in the trace of the loop starts a pass of the loop:
from that call on, the trace and the result are those of the loop entered
with the call's `loopCount` and conversation. -/
theorem bedrockLoop_suffix (W : World) (k : Nat) (msgs : List Message)
    (ans : Except JsError JVal) (n k0 : Nat) (m0 : List Message)
    (hmem : Effect.modelCall k msgs ans ∈ (bedrockLoop W n k0 m0).trace) :
    ∃ before n2,
      (bedrockLoop W n k0 m0).trace = before ++ (bedrockLoop W (n2 + 1) k msgs).trace ∧
      (bedrockLoop W n k0 m0).result = (bedrockLoop W (n2 + 1) k msgs).result ∧
      ans = W.invokeModel k msgs ∧ k0 + n = k + n2 + 1 ∧ n2 + 1 ≤ n ∧
      modelCallCount before + k0 = k := by
  induction n generalizing k0 m0 with
  | zero => simp [bedrockLoop] at hmem
  | succ n ih =>
    obtain ⟨tl, htl, hno⟩ := loopIteration_effects W k0 m0
    have hnot : Effect.modelCall k msgs ans ∉ tl := fun hx => by
      simpa [isModelCall] using hno _ hx
    rcases hit : loopIteration W k0 m0 with ⟨effects, step⟩
    rw [hit] at htl
    dsimp only at htl
    subst htl
    have hhead : Effect.modelCall k msgs ans ∈
        (Effect.modelCall k0 m0 (W.invokeModel k0 m0) :: tl) →
        k = k0 ∧ msgs = m0 ∧ ans = W.invokeModel k0 m0 := by
      intro hx
      rcases List.mem_cons.1 hx with hx | hx
      · injection hx with h1 h2 h3
        exact ⟨h1, h2, h3⟩
      · exact absurd hx hnot
    have hself : ∀ (h1 : k = k0) (h2 : msgs = m0) (h3 : ans = W.invokeModel k0 m0),
        ∃ before n2,
          (bedrockLoop W (n + 1) k0 m0).trace =
            before ++ (bedrockLoop W (n2 + 1) k msgs).trace ∧
          (bedrockLoop W (n + 1) k0 m0).result = (bedrockLoop W (n2 + 1) k msgs).result ∧
          ans = W.invokeModel k msgs ∧ k0 + (n + 1) = k + n2 + 1 ∧ n2 + 1 ≤ n + 1 ∧
          modelCallCount before + k0 = k := by
      intro h1 h2 h3
      subst h1 h2
      exact ⟨[], n, by simp, rfl, h3, by omega, by omega, by simp [modelCallCount]⟩
    cases step with
    | thrown e =>
      have ht : (bedrockLoop W (n + 1) k0 m0).trace =
          Effect.modelCall k0 m0 (W.invokeModel k0 m0) :: tl := by
        simp [bedrockLoop, hit]
      rw [ht] at hmem
      obtain ⟨h1, h2, h3⟩ := hhead hmem
      exact hself h1 h2 h3
    | final v =>
      have ht : (bedrockLoop W (n + 1) k0 m0).trace =
          Effect.modelCall k0 m0 (W.invokeModel k0 m0) :: tl := by
        simp [bedrockLoop, hit]
      rw [ht] at hmem
      obtain ⟨h1, h2, h3⟩ := hhead hmem
      exact hself h1 h2 h3
    | again m2 =>
      have ht : (bedrockLoop W (n + 1) k0 m0) =
          ⟨(Effect.modelCall k0 m0 (W.invokeModel k0 m0) :: tl) ++
            (bedrockLoop W n (k0 + 1) m2).trace, (bedrockLoop W n (k0 + 1) m2).result⟩ := by
        simp [bedrockLoop, hit]
      have hmem2 := hmem
      rw [ht] at hmem2
      rcases List.mem_append.1 hmem2 with hx | hx
      · obtain ⟨h1, h2, h3⟩ := hhead hx
        exact hself h1 h2 h3
      · obtain ⟨before, n2, e1, e2, e3, e4, e6, e5⟩ := ih (k0 + 1) m2 hx
        refine ⟨(Effect.modelCall k0 m0 (W.invokeModel k0 m0) :: tl) ++ before, n2,
          ?_, ?_, e3, by omega, by omega, ?_⟩
        · rw [ht]
          simp [e1]
        · rw [ht]
          exact e2
        · have htl0 : modelCallCount tl = 0 := by
            simp only [modelCallCount, List.countP_eq_zero]
            intro x hx
            simp [hno x hx]
          rw [modelCallCount_append]
          have hc : modelCallCount (Effect.modelCall k0 m0 (W.invokeModel k0 m0) :: tl) =
              1 := by
            have : modelCallCount (Effect.modelCall k0 m0 (W.invokeModel k0 m0) :: tl) =
                modelCallCount tl + 1 := by
              simp [modelCallCount, isModelCall]
            omega
          omega

theorem fetch_no_modelCall (W : World) (u : JVal) (k : Nat) (msgs : List Message)
    (ans : Except JsError JVal) :
    Effect.modelCall k msgs ans ∉ (getPortfolioFromDB W u).1 := by
  intro hx
  have := (getPortfolioFromDB_trace W u).2
  simp only [modelCallCount, List.countP_eq_zero] at this
  simpa [isModelCall] using this _ hx

/-- A model call of a run was made by the loop, which the handler entered
after a successful portfolio fetch. -/
theorem handler_modelCall_mem (W : World) (event : JobEvent) (k : Nat)
    (msgs : List Message) (ans : Except JsError JVal)
    (hmem : Effect.modelCall k msgs ans ∈ (handler W event).trace) :
    ∃ holdings, (getPortfolioFromDB W event.userId).2 = .ok holdings ∧
      Effect.modelCall k msgs ans ∈
        (bedrockLoop W MAX_LOOPS 0 (initialMessages W event holdings)).trace := by
  have hf := fetch_no_modelCall W event.userId k msgs ans
  rcases handler_shape W event with ⟨e, -, h⟩ | ⟨holdings, e, hh, -, h⟩ |
    ⟨holdings, v, hh, -, h⟩
  · rw [h] at hmem
    simp [hf] at hmem
  · rw [h] at hmem
    refine ⟨holdings, hh, ?_⟩
    simpa [hf] using hmem
  · refine ⟨holdings, hh, ?_⟩
    rcases hs : W.sendUpdate (completedUpdate event.jobId v W.completedClock) with e2 | u
    · rw [h, hs] at hmem
      simpa [hf] using hmem
    · rw [h, hs] at hmem
      simpa [hf] using hmem

theorem bedrockLoop_model_error (W : World) (n k : Nat) (msgs : List Message)
    (e : JsError) (h : W.invokeModel k msgs = .error e) :
    bedrockLoop W (n + 1) k msgs = ⟨[.modelCall k msgs (.error e)], .error e⟩ := by
  simp [bedrockLoop, loopIteration, h]

/-! ## Failures -/

/-- C9 (model failure).  In every run in which a model call throws `e`, that
call is the last step of the loop: the only update of the run follows it
directly and sets status `FAILED`, error `e.message` and `completedAt` (so no
`COMPLETED` update is issued), and once that update has succeeded the handler
rethrows `e`. -/
theorem model_failure_failed_write (W : World) (event : JobEvent) (k : Nat)
    (msgs : List Message) (e : JsError)
    (hcall : Effect.modelCall k msgs (.error e) ∈ (handler W event).trace) :
    ∃ before,
      (handler W event).trace =
        before ++ [.modelCall k msgs (.error e),
          .update (failedUpdate event.jobId e.message W.failedClock)
            (W.sendUpdate (failedUpdate event.jobId e.message W.failedClock))] ∧
      updatesOf before = [] ∧
      updatesOf (handler W event).trace =
        [⟨"ai-jobs", event.jobId,
          [("status", .str "FAILED"), ("error", .str e.message),
           ("completedAt", .str W.failedClock)]⟩] ∧
      (W.sendUpdate (failedUpdate event.jobId e.message W.failedClock) = .ok () →
        (handler W event).outcome = .error e) := by
  obtain ⟨holdings, hh, hmem⟩ := handler_modelCall_mem W event k msgs _ hcall
  obtain ⟨before, n2, e1, e2, e3, -, -, -⟩ :=
    bedrockLoop_suffix W k msgs _ MAX_LOOPS 0 _ hmem
  rw [bedrockLoop_model_error W n2 k msgs e e3.symm] at e1 e2
  dsimp only at e1 e2
  have hf := (getPortfolioFromDB_trace W event.userId).1
  have hl := (bedrockLoop_trace W MAX_LOOPS 0 (initialMessages W event holdings)).1
  have hb : updatesOf before = [] := by
    rw [e1, updatesOf_append] at hl
    exact (List.append_eq_nil.1 hl).1
  rcases handler_shape W event with ⟨e0, h0, -⟩ | ⟨holdings2, e0, hh2, hr, h⟩ |
    ⟨holdings2, v, hh2, hr, -⟩
  · rw [hh] at h0
    cases h0
  · rw [hh] at hh2
    cases hh2
    rw [e2] at hr
    cases hr
    refine ⟨(getPortfolioFromDB W event.userId).1 ++ before, ?_, ?_, ?_, ?_⟩
    · rw [h, e1]
      simp
    · simp [updatesOf_append, hf, hb]
    · rw [h]
      simp only [updatesOf_append, hf, hl]
      simp [updatesOf, updateOf, failedUpdate]
    · intro hok
      rw [h]
      simp only [hok]
  · rw [hh] at hh2
    cases hh2
    rw [e2] at hr
    cases hr

theorem model_failure_failed_write_witness :
    ∃ before,
      (handler (sampleWorld (failingModel ⟨"Error", "throttled"⟩)) sampleEvent).trace =
        before ++ [.modelCall 0
            (initialMessages (sampleWorld (failingModel ⟨"Error", "throttled"⟩)) sampleEvent
              (.arr [.obj [("symbol", .str "AAPL"), ("quantity", .num 10)]]))
            (.error ⟨"Error", "throttled"⟩),
          .update (failedUpdate "J" "throttled" "2026-11-06T10:00:06.000Z") (.ok ())] ∧
      updatesOf before = [] ∧
      updatesOf (handler (sampleWorld (failingModel ⟨"Error", "throttled"⟩))
          sampleEvent).trace =
        [⟨"ai-jobs", "J",
          [("status", .str "FAILED"), ("error", .str "throttled"),
           ("completedAt", .str "2026-11-06T10:00:06.000Z")]⟩] ∧
      ((sampleWorld (failingModel ⟨"Error", "throttled"⟩)).sendUpdate
          (failedUpdate "J" "throttled" "2026-11-06T10:00:06.000Z") = .ok () →
        (handler (sampleWorld (failingModel ⟨"Error", "throttled"⟩)) sampleEvent).outcome =
          .error ⟨"Error", "throttled"⟩) :=
  model_failure_failed_write (sampleWorld (failingModel ⟨"Error", "throttled"⟩))
    sampleEvent 0 _ ⟨"Error", "throttled"⟩
    (by simp [handler, tryBlock, getPortfolioFromDB, sampleWorld, sampleEvent, truthy,
          bedrockLoop, MAX_LOOPS, loopIteration, failingModel])

/-! ## The initial conversation -/

theorem historyFold_succ (P R : List JVal) (m : Nat) :
    (List.range (m + 1)).foldl
      (fun messages i =>
        messages ++ [(⟨"user", P.getD i .undefined⟩ : Message),
                     ⟨"assistant", R.getD i .undefined⟩]) [] =
    (List.range m).foldl
      (fun messages i =>
        messages ++ [(⟨"user", P.getD i .undefined⟩ : Message),
                     ⟨"assistant", R.getD i .undefined⟩]) [] ++
      [⟨"user", P.getD m .undefined⟩, ⟨"assistant", R.getD m .undefined⟩] := by
  rw [List.range_succ, List.foldl_append]
  rfl

theorem historyFold_spec (P R : List JVal) (m : Nat) :
    ((List.range m).foldl
      (fun messages i =>
        messages ++ [(⟨"user", P.getD i .undefined⟩ : Message),
                     ⟨"assistant", R.getD i .undefined⟩]) []).length = 2 * m ∧
    ∀ i, i < m →
      ((List.range m).foldl
        (fun messages i =>
          messages ++ [(⟨"user", P.getD i .undefined⟩ : Message),
                       ⟨"assistant", R.getD i .undefined⟩]) [])[2 * i]? =
        some ⟨"user", P.getD i .undefined⟩ ∧
      ((List.range m).foldl
        (fun messages i =>
          messages ++ [(⟨"user", P.getD i .undefined⟩ : Message),
                       ⟨"assistant", R.getD i .undefined⟩]) [])[2 * i + 1]? =
        some ⟨"assistant", R.getD i .undefined⟩ := by
  induction m with
  | zero => simp
  | succ m ih =>
    obtain ⟨hlen, hget⟩ := ih
    rw [historyFold_succ]
    generalize (List.range m).foldl
      (fun messages i =>
        messages ++ [(⟨"user", P.getD i .undefined⟩ : Message),
                     ⟨"assistant", R.getD i .undefined⟩]) [] = hist at hlen hget ⊢
    refine ⟨by rw [List.length_append, hlen]; simp; omega, ?_⟩
    intro i hi
    by_cases him : i < m
    · rw [List.getElem?_append_left (by omega), List.getElem?_append_left (by omega)]
      exact hget i him
    · have : i = m := by omega
      subst this
      rw [List.getElem?_append_right (by omega), List.getElem?_append_right (by omega)]
      have h1 : 2 * i - hist.length = 0 := by omega
      have h2 : 2 * i + 1 - hist.length = 1 := by omega
      rw [h1, h2]
      exact ⟨rfl, rfl⟩

theorem bedrockLoop_head (W : World) (n k : Nat) (msgs : List Message) :
    ∃ tl, (bedrockLoop W (n + 1) k msgs).trace =
      .modelCall k msgs (W.invokeModel k msgs) :: tl := by
  obtain ⟨tl, htl, -⟩ := loopIteration_effects W k msgs
  rcases hit : loopIteration W k msgs with ⟨effects, step⟩
  rw [hit] at htl
  dsimp only at htl
  subst htl
  cases step with
  | thrown e => exact ⟨tl, by simp [bedrockLoop, hit]⟩
  | final v => exact ⟨tl, by simp [bedrockLoop, hit]⟩
  | again m2 =>
    exact ⟨tl ++ (bedrockLoop W n (k + 1) m2).trace, by simp [bedrockLoop, hit]⟩

/-- After a successful portfolio fetch the first model call is made with
`loopCount = 0` on the initial conversation. -/
theorem handler_first_call (W : World) (event : JobEvent) (holdings : JVal)
    (hfetch : (getPortfolioFromDB W event.userId).2 = .ok holdings) :
    ∃ rest, (handler W event).trace =
      (getPortfolioFromDB W event.userId).1 ++
        .modelCall 0 (initialMessages W event holdings)
          (W.invokeModel 0 (initialMessages W event holdings)) :: rest := by
  obtain ⟨tl, htl⟩ := bedrockLoop_head W 4 0 (initialMessages W event holdings)
  have htl2 : (bedrockLoop W MAX_LOOPS 0 (initialMessages W event holdings)).trace =
      .modelCall 0 (initialMessages W event holdings)
        (W.invokeModel 0 (initialMessages W event holdings)) :: tl := htl
  rcases handler_shape W event with ⟨e, he, -⟩ | ⟨holdings2, e, hh2, -, h⟩ |
    ⟨holdings2, v, hh2, -, h⟩
  · rw [hfetch] at he
    cases he
  · rw [hfetch] at hh2
    cases hh2
    rw [h, htl2]
    exact ⟨_, by simp; rfl⟩
  · rw [hfetch] at hh2
    cases hh2
    rcases hs : W.sendUpdate (completedUpdate event.jobId v W.completedClock) with e2 | u
    · rw [h, hs]
      dsimp only
      rw [htl2]
      exact ⟨_, by simp; rfl⟩
    · rw [h, hs]
      dsimp only
      rw [htl2]
      exact ⟨_, by simp; rfl⟩

/-- C4 (history pairing).  With `P` the earlier prompts and `R` the earlier
responses of the event (empty when absent), the conversation of the first
model call has `2 * min |P| |R| + 1` messages; for every index `i` present in
both lists, message `2 i` is the user message `P[i]` and message `2 i + 1`
the assistant message `R[i]`; the last message is a user message whose text
ends with the new question.  Entries of the longer list past the shorter
length therefore do not occur. -/
theorem history_pairing (W : World) (event : JobEvent) (holdings : JVal)
    (hfetch : (getPortfolioFromDB W event.userId).2 = .ok holdings) :
    ∃ msgs rest question before,
      (handler W event).trace =
        (getPortfolioFromDB W event.userId).1 ++
          .modelCall 0 msgs (W.invokeModel 0 msgs) :: rest ∧
      msgs.length =
        2 * min (event.prompts.getD []).length (event.responses.getD []).length + 1 ∧
      (∀ i p r, (event.prompts.getD [])[i]? = some p →
        (event.responses.getD [])[i]? = some r →
        msgs[2 * i]? = some ⟨"user", p⟩ ∧ msgs[2 * i + 1]? = some ⟨"assistant", r⟩) ∧
      msgs[2 * min (event.prompts.getD []).length (event.responses.getD []).length]? =
        some ⟨"user", .str question⟩ ∧
      question = before ++ templateValue W event.prompt := by
  obtain ⟨rest, hrest⟩ := handler_first_call W event holdings hfetch
  obtain ⟨hlen, hget⟩ := historyFold_spec (event.prompts.getD []) (event.responses.getD [])
    (min (event.prompts.getD []).length (event.responses.getD []).length)
  refine ⟨initialMessages W event holdings, rest, questionText W holdings event.prompt,
    _, hrest, ?_, ?_, ?_, rfl⟩
  · unfold initialMessages historyMessages
    rw [List.length_append, hlen]
    rfl
  · intro i p r hp hr
    have hi1 : i < (event.prompts.getD []).length := (List.getElem?_eq_some_iff.1 hp).1
    have hi2 : i < (event.responses.getD []).length := (List.getElem?_eq_some_iff.1 hr).1
    have hi : i < min (event.prompts.getD []).length (event.responses.getD []).length :=
      lt_min hi1 hi2
    have hpd : (event.prompts.getD []).getD i .undefined = p := by
      simp [List.getD, hp]
    have hrd : (event.responses.getD []).getD i .undefined = r := by
      simp [List.getD, hr]
    obtain ⟨g1, g2⟩ := hget i hi
    rw [hpd] at g1
    rw [hrd] at g2
    unfold initialMessages historyMessages
    rw [List.getElem?_append_left (by omega), List.getElem?_append_left (by omega)]
    exact ⟨g1, g2⟩
  · unfold initialMessages historyMessages
    rw [List.getElem?_append_right (by omega)]
    rw [hlen]
    simp

/-- The example of the specification: prompts `p1, p2, p3` and the single
response `r1` give one pair and then the question. -/
theorem unevenHistory_messages (W : World) (holdings : JVal) :
    initialMessages W unevenHistoryEvent holdings =
      [⟨"user", .str "p1"⟩, ⟨"assistant", .str "r1"⟩,
       ⟨"user", .str (questionText W holdings (.str "Should I rebalance?"))⟩] := by
  rfl

theorem history_pairing_witness :
    ∃ msgs rest question before,
      (handler (sampleWorld (directModel "Yes, consider...")) unevenHistoryEvent).trace =
        (getPortfolioFromDB (sampleWorld (directModel "Yes, consider..."))
            unevenHistoryEvent.userId).1 ++
          .modelCall 0 msgs
            ((sampleWorld (directModel "Yes, consider...")).invokeModel 0 msgs) :: rest ∧
      msgs.length =
        2 * min (unevenHistoryEvent.prompts.getD []).length
              (unevenHistoryEvent.responses.getD []).length + 1 ∧
      (∀ i p r, (unevenHistoryEvent.prompts.getD [])[i]? = some p →
        (unevenHistoryEvent.responses.getD [])[i]? = some r →
        msgs[2 * i]? = some ⟨"user", p⟩ ∧ msgs[2 * i + 1]? = some ⟨"assistant", r⟩) ∧
      msgs[2 * min (unevenHistoryEvent.prompts.getD []).length
              (unevenHistoryEvent.responses.getD []).length]? =
        some ⟨"user", .str question⟩ ∧
      question = before ++
        templateValue (sampleWorld (directModel "Yes, consider...")) unevenHistoryEvent.prompt :=
  history_pairing (sampleWorld (directModel "Yes, consider...")) unevenHistoryEvent
    (.arr [.obj [("symbol", .str "AAPL"), ("quantity", .num 10)]]) rfl

/-! ## The end of a run -/

theorem handler_settle (W : World) (event : JobEvent) (holdings : JVal)
    (hfetch : (getPortfolioFromDB W event.userId).2 = .ok holdings) :
    handler W event =
      ⟨(getPortfolioFromDB W event.userId).1 ++
        (bedrockLoop W MAX_LOOPS 0 (initialMessages W event holdings)).trace ++
        (settle W event.jobId
          (bedrockLoop W MAX_LOOPS 0 (initialMessages W event holdings)).result).trace,
       (settle W event.jobId
          (bedrockLoop W MAX_LOOPS 0 (initialMessages W event holdings)).result).outcome⟩ := by
  rcases handler_shape W event with ⟨e, he, -⟩ | ⟨holdings2, e, hh2, hr, h⟩ |
    ⟨holdings2, v, hh2, hr, h⟩
  · rw [hfetch] at he
    cases he
  · rw [hfetch] at hh2
    cases hh2
    rw [h, hr]
    rfl
  · rw [hfetch] at hh2
    cases hh2
    rw [h, hr]
    rcases hs : W.sendUpdate (completedUpdate event.jobId v W.completedClock) with e2 | u
    · simp [settle, hs]
    · simp [settle, hs]

/-- A run in which the model call `(k, msgs)` occurs: from that call on the
run is the loop entered at `(k, msgs)` followed by the end of the handler. -/
theorem handler_suffix (W : World) (event : JobEvent) (k : Nat)
    (msgs : List Message) (ans : Except JsError JVal)
    (hcall : Effect.modelCall k msgs ans ∈ (handler W event).trace) :
    ∃ before n2,
      (handler W event).trace =
        before ++ (bedrockLoop W (n2 + 1) k msgs).trace ++
          (settle W event.jobId (bedrockLoop W (n2 + 1) k msgs).result).trace ∧
      (handler W event).outcome =
        (settle W event.jobId (bedrockLoop W (n2 + 1) k msgs).result).outcome ∧
      updatesOf before = [] ∧ modelCallCount before = k ∧
      k + n2 + 1 = MAX_LOOPS ∧ ans = W.invokeModel k msgs := by
  obtain ⟨holdings, hh, hmem⟩ := handler_modelCall_mem W event k msgs _ hcall
  obtain ⟨before, n2, e1, e2, e3, e4, -, e5⟩ :=
    bedrockLoop_suffix W k msgs _ MAX_LOOPS 0 _ hmem
  have hf := getPortfolioFromDB_trace W event.userId
  have hl := (bedrockLoop_trace W MAX_LOOPS 0 (initialMessages W event holdings)).1
  have hb : updatesOf before = [] := by
    rw [e1, updatesOf_append] at hl
    exact (List.append_eq_nil.1 hl).1
  refine ⟨(getPortfolioFromDB W event.userId).1 ++ before, n2, ?_, ?_, ?_, ?_,
    by omega, e3⟩
  · rw [handler_settle W event holdings hh, e1, e2]
    simp
  · rw [handler_settle W event holdings hh, e2]
  · simp [updatesOf_append, hf.1, hb]
  · rw [modelCallCount_append, hf.2]
    omega

/-- After a tool pass at `(k, msgs)` that leaves the conversation `msgs2`,
what remains of the run: the next model call on `msgs2` when the loop guard
still holds, and the end of the handler with `finalResponse` undefined when
it does not. -/
theorem after_tool_pass (W : World) (jobId : String) (k n2 : Nat)
    (msgs2 : List Message) (hk : k + n2 + 1 = MAX_LOOPS) :
    (k + 1 < MAX_LOOPS →
      ∃ later, (bedrockLoop W n2 (k + 1) msgs2).trace ++
          (settle W jobId (bedrockLoop W n2 (k + 1) msgs2).result).trace =
        .modelCall (k + 1) msgs2 (W.invokeModel (k + 1) msgs2) :: later) ∧
    (k + 1 = MAX_LOOPS →
      (bedrockLoop W n2 (k + 1) msgs2).trace ++
          (settle W jobId (bedrockLoop W n2 (k + 1) msgs2).result).trace =
        (settle W jobId (.ok .undefined)).trace ∧
      (settle W jobId (bedrockLoop W n2 (k + 1) msgs2).result).outcome =
        (settle W jobId (.ok .undefined)).outcome) := by
  constructor
  · intro hlt
    obtain ⟨n3, rfl⟩ : ∃ n3, n2 = n3 + 1 := ⟨n2 - 1, by omega⟩
    obtain ⟨tl, htl⟩ := bedrockLoop_head W n3 (k + 1) msgs2
    exact ⟨_, by rw [htl]; rfl⟩
  · intro heq
    have : n2 = 0 := by omega
    subst this
    exact ⟨rfl, rfl⟩

/-- C5 (tool round trip).  When a model call of a run is answered by a
well-formed request for `get_stock_prices` with `input.symbols = symbols`
and the daily-price helper answers `r`, the run continues with exactly one
call of that helper, on exactly `symbols`; the next model call, if the loop
guard allows one, is made on the conversation extended by an assistant
message carrying the response content and a user message holding one
`tool_result` block with the request's id and `JSON.stringify(r)`. -/
theorem tool_round_trip (W : World) (event : JobEvent) (k : Nat)
    (msgs : List Message) (body content toolUse toolUseId symbols r : JVal)
    (hcall : Effect.modelCall k msgs (.ok body) ∈ (handler W event).trace)
    (hreq : ToolRequest body content toolUse (.str "get_stock_prices") toolUseId symbols)
    (hprices : W.getStockPrices symbols = .ok r) :
    ∃ before after,
      (handler W event).trace =
        before ++ [.modelCall k msgs (.ok body), .dailyPrices symbols (.ok r)] ++ after ∧
      modelCallCount before = k ∧
      (k + 1 < MAX_LOOPS →
        ∃ later, after =
          .modelCall (k + 1)
            (msgs ++ [⟨"assistant", content⟩,
              ⟨"user", .arr [.obj [("type", .str "tool_result"),
                                   ("tool_use_id", toolUseId),
                                   ("content", jsonStringify W r)]]⟩])
            (W.invokeModel (k + 1)
              (msgs ++ [⟨"assistant", content⟩,
                ⟨"user", .arr [.obj [("type", .str "tool_result"),
                                     ("tool_use_id", toolUseId),
                                     ("content", jsonStringify W r)]]⟩])) :: later) ∧
      (k + 1 = MAX_LOOPS → after = (settle W event.jobId (.ok .undefined)).trace) := by
  obtain ⟨before, n2, h1, -, -, hcount, hk, hans⟩ := handler_suffix W event k msgs _ hcall
  obtain ⟨input, hin, hsym⟩ := hreq.2.2.2.2.2
  have hd := toolDispatch_daily W toolUse input symbols r hin hsym hprices
  have hloop := bedrockLoop_again W n2 k msgs body content toolUse _ toolUseId symbols
    hans.symm hreq _ r hd
  have hrest := after_tool_pass W event.jobId k n2
    (msgs ++ toolTurn W content toolUseId r) hk
  refine ⟨before, (bedrockLoop W n2 (k + 1) (msgs ++ toolTurn W content toolUseId r)).trace ++
    (settle W event.jobId
      (bedrockLoop W n2 (k + 1) (msgs ++ toolTurn W content toolUseId r)).result).trace,
    ?_, hcount, hrest.1, fun h => (hrest.2 h).1⟩
  rw [h1, hloop]
  simp

theorem tool_round_trip_witness :
    ∃ before after,
      (handler (sampleWorld alwaysToolModel) sampleEvent).trace =
        before ++ [.modelCall 0
            (initialMessages (sampleWorld alwaysToolModel) sampleEvent
              (.arr [.obj [("symbol", .str "AAPL"), ("quantity", .num 10)]]))
            (.ok (modelResponse "tool_use"
              [toolUseBlock "toolu_1" "get_stock_prices" ["AAPL", "MSFT"]])),
          .dailyPrices (.arr [.str "AAPL", .str "MSFT"]) (.ok (.arr []))] ++ after ∧
      modelCallCount before = 0 ∧
      (0 + 1 < MAX_LOOPS →
        ∃ later, after =
          .modelCall (0 + 1)
            (initialMessages (sampleWorld alwaysToolModel) sampleEvent
                (.arr [.obj [("symbol", .str "AAPL"), ("quantity", .num 10)]]) ++
              [⟨"assistant",
                .arr [toolUseBlock "toolu_1" "get_stock_prices" ["AAPL", "MSFT"]]⟩,
              ⟨"user", .arr [.obj [("type", .str "tool_result"),
                                   ("tool_use_id", .str "toolu_1"),
                                   ("content",
                                    jsonStringify (sampleWorld alwaysToolModel) (.arr []))]]⟩])
            ((sampleWorld alwaysToolModel).invokeModel (0 + 1)
              (initialMessages (sampleWorld alwaysToolModel) sampleEvent
                  (.arr [.obj [("symbol", .str "AAPL"), ("quantity", .num 10)]]) ++
                [⟨"assistant",
                  .arr [toolUseBlock "toolu_1" "get_stock_prices" ["AAPL", "MSFT"]]⟩,
                ⟨"user", .arr [.obj [("type", .str "tool_result"),
                                     ("tool_use_id", .str "toolu_1"),
                                     ("content",
                                      jsonStringify (sampleWorld alwaysToolModel)
                                        (.arr []))]]⟩])) :: later) ∧
      (0 + 1 = MAX_LOOPS →
        after = (settle (sampleWorld alwaysToolModel) sampleEvent.jobId
          (.ok .undefined)).trace) :=
  tool_round_trip (sampleWorld alwaysToolModel) sampleEvent 0 _ _ _ _ _ _ _
    (by
      obtain ⟨rest, h⟩ := handler_first_call (sampleWorld alwaysToolModel) sampleEvent
        (.arr [.obj [("symbol", .str "AAPL"), ("quantity", .num 10)]]) rfl
      rw [h]
      exact List.mem_append_right _ (List.mem_cons_self _ _))
    ⟨rfl, rfl, rfl, rfl, rfl, _, rfl, rfl⟩ rfl

/-! ## Tool dispatch by name -/

theorem toolNames_eq : toolNames = ["get_stock_prices", "get_intraday_stock_prices"] := by
  rfl

/-- C6, evaluated at a request for the advertised tool
`get_intraday_stock_prices`: the run makes no call of either price helper;
the second model call receives a `tool_result` whose content is `undefined`
(the serialization of a `toolResult` that was never assigned). -/
theorem intraday_request_not_dispatched :
    "get_intraday_stock_prices" ∈ toolNames ∧
    (handler (sampleWorld (toolThenTextModel "get_intraday_stock_prices")) sampleEvent).trace =
      [.queryHoldings (.str "u1")
          (.ok (.arr [.obj [("symbol", .str "AAPL"), ("quantity", .num 10)]])),
       .modelCall 0
          (initialMessages (sampleWorld (toolThenTextModel "get_intraday_stock_prices"))
            sampleEvent (.arr [.obj [("symbol", .str "AAPL"), ("quantity", .num 10)]]))
          (.ok (modelResponse "tool_use"
            [toolUseBlock "toolu_1" "get_intraday_stock_prices" ["AAPL"]])),
       .modelCall 1
          (initialMessages (sampleWorld (toolThenTextModel "get_intraday_stock_prices"))
              sampleEvent (.arr [.obj [("symbol", .str "AAPL"), ("quantity", .num 10)]]) ++
            [⟨"assistant",
              .arr [toolUseBlock "toolu_1" "get_intraday_stock_prices" ["AAPL"]]⟩,
             ⟨"user", .arr [.obj [("type", .str "tool_result"),
                                  ("tool_use_id", .str "toolu_1"),
                                  ("content", .undefined)]]⟩])
          (.ok (modelResponse "end_turn" [textBlock "Done"])),
       .update (completedUpdate "J" (.str "Done") "2026-11-06T10:00:05.000Z") (.ok ())] := by
  refine ⟨by simp [toolNames_eq], ?_⟩
  rfl

/-- C7, refuted at a request for the unregistered tool `get_weather`: the run
makes a second model call, its only update sets status `COMPLETED`, and the
handler returns normally. -/
theorem unknown_tool_not_a_failure :
    "get_weather" ∉ toolNames ∧
    modelCallCount
      (handler (sampleWorld (toolThenTextModel "get_weather")) sampleEvent).trace = 2 ∧
    updatesOf (handler (sampleWorld (toolThenTextModel "get_weather")) sampleEvent).trace =
      [⟨"ai-jobs", "J",
        [("status", .str "COMPLETED"), ("result", .str "Done"),
         ("completedAt", .str "2026-11-06T10:00:05.000Z")]⟩] ∧
    (handler (sampleWorld (toolThenTextModel "get_weather")) sampleEvent).outcome = .ok () := by
  refine ⟨by simp [toolNames_eq], rfl, rfl, rfl⟩

/-- C7 as amended.  When a model call of a run is answered by a well-formed
tool request whose name is not a registered tool name, no error is raised and
no price helper is called: the run goes on directly with the next model call,
on the conversation extended by the assistant message and a `tool_result`
whose content is `undefined`, or, when the loop guard allows no further call,
with the end of the handler for an undefined `finalResponse`. -/
theorem unregistered_tool_continues (W : World) (event : JobEvent) (k : Nat)
    (msgs : List Message) (body content toolUse name toolUseId symbols : JVal)
    (hcall : Effect.modelCall k msgs (.ok body) ∈ (handler W event).trace)
    (hreq : ToolRequest body content toolUse name toolUseId symbols)
    (hname : ∀ s ∈ toolNames, name ≠ .str s) :
    ∃ before after,
      (handler W event).trace = before ++ [.modelCall k msgs (.ok body)] ++ after ∧
      modelCallCount before = k ∧
      (k + 1 < MAX_LOOPS →
        ∃ later, after =
          .modelCall (k + 1)
            (msgs ++ [⟨"assistant", content⟩,
              ⟨"user", .arr [.obj [("type", .str "tool_result"),
                                   ("tool_use_id", toolUseId),
                                   ("content", .undefined)]]⟩])
            (W.invokeModel (k + 1)
              (msgs ++ [⟨"assistant", content⟩,
                ⟨"user", .arr [.obj [("type", .str "tool_result"),
                                     ("tool_use_id", toolUseId),
                                     ("content", .undefined)]]⟩])) :: later) ∧
      (k + 1 = MAX_LOOPS →
        after = (settle W event.jobId (.ok .undefined)).trace ∧
        (handler W event).outcome = (settle W event.jobId (.ok .undefined)).outcome) := by
  obtain ⟨before, n2, h1, h2, -, hcount, hk, hans⟩ := handler_suffix W event k msgs _ hcall
  have hne : strictEqStr name "get_stock_prices" = false := by
    cases name with
    | str t =>
      have := hname "get_stock_prices" (by simp [toolNames_eq])
      simp only [strictEqStr, decide_eq_false_iff_not]
      intro h
      exact this (by rw [h])
    | _ => rfl
  have hd := toolDispatch_other W toolUse name hne
  have hloop := bedrockLoop_again W n2 k msgs body content toolUse name toolUseId symbols
    hans.symm hreq _ _ hd
  have hrest := after_tool_pass W event.jobId k n2
    (msgs ++ toolTurn W content toolUseId .undefined) hk
  refine ⟨before,
    (bedrockLoop W n2 (k + 1) (msgs ++ toolTurn W content toolUseId .undefined)).trace ++
    (settle W event.jobId
      (bedrockLoop W n2 (k + 1) (msgs ++ toolTurn W content toolUseId .undefined)).result).trace,
    ?_, hcount, hrest.1, fun h => ⟨(hrest.2 h).1, ?_⟩⟩
  · rw [h1, hloop]
    simp
  · rw [h2, hloop]
    exact (hrest.2 h).2

theorem unregistered_tool_continues_witness :
    ∃ before after,
      (handler (sampleWorld (toolThenTextModel "get_weather")) sampleEvent).trace =
        before ++ [.modelCall 0
            (initialMessages (sampleWorld (toolThenTextModel "get_weather")) sampleEvent
              (.arr [.obj [("symbol", .str "AAPL"), ("quantity", .num 10)]]))
            (.ok (modelResponse "tool_use" [toolUseBlock "toolu_1" "get_weather" ["AAPL"]]))] ++
          after ∧
      modelCallCount before = 0 ∧
      (0 + 1 < MAX_LOOPS →
        ∃ later, after =
          .modelCall (0 + 1)
            (initialMessages (sampleWorld (toolThenTextModel "get_weather")) sampleEvent
                (.arr [.obj [("symbol", .str "AAPL"), ("quantity", .num 10)]]) ++
              [⟨"assistant", .arr [toolUseBlock "toolu_1" "get_weather" ["AAPL"]]⟩,
               ⟨"user", .arr [.obj [("type", .str "tool_result"),
                                    ("tool_use_id", .str "toolu_1"),
                                    ("content", .undefined)]]⟩])
            ((sampleWorld (toolThenTextModel "get_weather")).invokeModel (0 + 1)
              (initialMessages (sampleWorld (toolThenTextModel "get_weather")) sampleEvent
                  (.arr [.obj [("symbol", .str "AAPL"), ("quantity", .num 10)]]) ++
                [⟨"assistant", .arr [toolUseBlock "toolu_1" "get_weather" ["AAPL"]]⟩,
                 ⟨"user", .arr [.obj [("type", .str "tool_result"),
                                      ("tool_use_id", .str "toolu_1"),
                                      ("content", .undefined)]]⟩])) :: later) ∧
      (0 + 1 = MAX_LOOPS →
        after = (settle (sampleWorld (toolThenTextModel "get_weather")) sampleEvent.jobId
          (.ok .undefined)).trace ∧
        (handler (sampleWorld (toolThenTextModel "get_weather")) sampleEvent).outcome =
          (settle (sampleWorld (toolThenTextModel "get_weather")) sampleEvent.jobId
            (.ok .undefined)).outcome) :=
  unregistered_tool_continues (sampleWorld (toolThenTextModel "get_weather")) sampleEvent
    0 _ _ _ _ (.str "get_weather") _ _
    (by
      obtain ⟨rest, h⟩ := handler_first_call (sampleWorld (toolThenTextModel "get_weather"))
        sampleEvent (.arr [.obj [("symbol", .str "AAPL"), ("quantity", .num 10)]]) rfl
      rw [h]
      exact List.mem_append_right _ (List.mem_cons_self _ _))
    ⟨rfl, rfl, rfl, rfl, rfl, _, rfl, rfl⟩
    (by simp [toolNames_eq])

/-! ## The final answer -/

theorem optionalText_of_getProp (block text : JVal)
    (h : getProp block "text" = .ok text) : optionalText block = text := by
  cases block <;> simp_all [getProp, optionalText]

theorem bedrockLoop_final (W : World) (n k : Nat) (msgs : List Message)
    (body stopReason content block text : JVal)
    (hm : W.invokeModel k msgs = .ok body)
    (hstop : getProp body "stop_reason" = .ok stopReason)
    (hne : strictEqStr stopReason "tool_use" = false)
    (hcontent : getProp body "content" = .ok content)
    (hfind : contentFind content "text" = .ok block)
    (htext : getProp block "text" = .ok text) :
    bedrockLoop W (n + 1) k msgs = ⟨[.modelCall k msgs (.ok body)], .ok text⟩ := by
  have ho := optionalText_of_getProp block text htext
  simp [bedrockLoop, loopIteration, afterModel, hm, hstop, hne, hcontent, hfind, ho]

/-- C8, refuted at a final response whose first text block is the empty
string: the `COMPLETED` update carries the placeholder, not that text. -/
theorem empty_text_gives_placeholder :
    getProp (modelResponse "end_turn" [textBlock ""]) "stop_reason" = .ok (.str "end_turn") ∧
    contentFind (.arr [textBlock ""]) "text" = .ok (textBlock "") ∧
    getProp (textBlock "") "text" = .ok (.str "") ∧
    updatesOf (handler (sampleWorld (directModel "")) sampleEvent).trace =
      [⟨"ai-jobs", "J",
        [("status", .str "COMPLETED"), ("result", .str "Unable to generate response"),
         ("completedAt", .str "2026-11-06T10:00:05.000Z")]⟩] ∧
    JVal.str "Unable to generate response" ≠ JVal.str "" := by
  refine ⟨rfl, rfl, rfl, rfl, ?_⟩
  intro h
  injection h with h
  exact absurd h (by decide)

/-- C8 as amended.  When a model call of a run is answered by a response
whose `stop_reason` is not `"tool_use"` and whose first block of type `text`
has a truthy `text` (for a string: a non-empty one), the loop stops there:
the next external call is the `COMPLETED` update whose result is that text,
nothing but updates follows, and once that update has succeeded the run is
over and the handler returns normally. -/
theorem final_answer_completed (W : World) (event : JobEvent) (k : Nat)
    (msgs : List Message) (body stopReason content block text : JVal)
    (hcall : Effect.modelCall k msgs (.ok body) ∈ (handler W event).trace)
    (hstop : getProp body "stop_reason" = .ok stopReason)
    (hne : strictEqStr stopReason "tool_use" = false)
    (hcontent : getProp body "content" = .ok content)
    (hfind : contentFind content "text" = .ok block)
    (htext : getProp block "text" = .ok text)
    (htruthy : truthy text = true) :
    ∃ before after,
      (handler W event).trace =
        before ++ [.modelCall k msgs (.ok body),
          .update ⟨"ai-jobs", event.jobId,
              [("status", .str "COMPLETED"), ("result", text),
               ("completedAt", .str W.completedClock)]⟩
            (W.sendUpdate (completedUpdate event.jobId text W.completedClock))] ++ after ∧
      modelCallCount before = k ∧ updatesOf before = [] ∧
      (∀ x ∈ after, ∃ cmd answer, x = .update cmd answer) ∧
      (W.sendUpdate (completedUpdate event.jobId text W.completedClock) = .ok () →
        after = [] ∧ (handler W event).outcome = .ok ()) := by
  obtain ⟨before, n2, h1, h2, hup, hcount, -, hans⟩ := handler_suffix W event k msgs _ hcall
  have hloop := bedrockLoop_final W n2 k msgs body stopReason content block text
    hans.symm hstop hne hcontent hfind htext
  have hcmd : completedUpdate event.jobId text W.completedClock =
      ⟨"ai-jobs", event.jobId,
        [("status", .str "COMPLETED"), ("result", text),
         ("completedAt", .str W.completedClock)]⟩ := by
    simp [completedUpdate, jsOr, htruthy]
  rw [hloop] at h1 h2
  rcases hs : W.sendUpdate (completedUpdate event.jobId text W.completedClock) with e | u
  · refine ⟨before, [.update (failedUpdate event.jobId e.message W.failedClock)
      (W.sendUpdate (failedUpdate event.jobId e.message W.failedClock))], ?_, hcount, hup,
      ?_, ?_⟩
    · rw [h1]
      have hs2 := hs
      rw [hcmd] at hs2
      simp [settle, hcmd, hs2]
    · intro x hx
      exact ⟨_, _, List.mem_singleton.1 hx⟩
    · intro h
      cases h
  · refine ⟨before, [], ?_, hcount, hup, by simp, fun _ => ⟨rfl, ?_⟩⟩
    · rw [h1]
      have hs2 := hs
      rw [hcmd] at hs2
      simp [settle, hcmd, hs2]
    · rw [h2]
      simp [settle, hs]

theorem final_answer_completed_witness :
    ∃ before after,
      (handler (sampleWorld (directModel "Yes, consider...")) sampleEvent).trace =
        before ++ [.modelCall 0
            (initialMessages (sampleWorld (directModel "Yes, consider...")) sampleEvent
              (.arr [.obj [("symbol", .str "AAPL"), ("quantity", .num 10)]]))
            (.ok (modelResponse "end_turn" [textBlock "Yes, consider..."])),
          .update ⟨"ai-jobs", sampleEvent.jobId,
              [("status", .str "COMPLETED"), ("result", .str "Yes, consider..."),
               ("completedAt",
                .str (sampleWorld (directModel "Yes, consider...")).completedClock)]⟩
            ((sampleWorld (directModel "Yes, consider...")).sendUpdate
              (completedUpdate sampleEvent.jobId (.str "Yes, consider...")
                (sampleWorld (directModel "Yes, consider...")).completedClock))] ++ after ∧
      modelCallCount before = 0 ∧ updatesOf before = [] ∧
      (∀ x ∈ after, ∃ cmd answer, x = .update cmd answer) ∧
      ((sampleWorld (directModel "Yes, consider...")).sendUpdate
          (completedUpdate sampleEvent.jobId (.str "Yes, consider...")
            (sampleWorld (directModel "Yes, consider...")).completedClock) = .ok () →
        after = [] ∧
        (handler (sampleWorld (directModel "Yes, consider...")) sampleEvent).outcome =
          .ok ()) :=
  final_answer_completed (sampleWorld (directModel "Yes, consider...")) sampleEvent 0 _ _
    (.str "end_turn") _ (textBlock "Yes, consider...") _
    (by
      obtain ⟨rest, h⟩ := handler_first_call (sampleWorld (directModel "Yes, consider..."))
        sampleEvent (.arr [.obj [("symbol", .str "AAPL"), ("quantity", .num 10)]]) rfl
      rw [h]
      exact List.mem_append_right _ (List.mem_cons_self _ _))
    rfl rfl rfl rfl rfl (by decide)

/-! ## Failure of the portfolio fetch -/

/-- C10, refuted at a portfolio store whose query throws: the run makes no
model call, its only update sets status `FAILED` with the error of the
fetch, and the handler rethrows that error. -/
theorem portfolio_failure_is_fatal :
    (handler brokenPortfolioWorld sampleEvent).trace =
      [.queryHoldings (.str "u1") (.error ⟨"Error", "portfolio store unavailable"⟩),
       .update ⟨"ai-jobs", "J",
           [("status", .str "FAILED"), ("error", .str "portfolio store unavailable"),
            ("completedAt", .str "2026-11-06T10:00:06.000Z")]⟩ (.ok ())] ∧
    modelCallCount (handler brokenPortfolioWorld sampleEvent).trace = 0 ∧
    (handler brokenPortfolioWorld sampleEvent).outcome =
      .error ⟨"Error", "portfolio store unavailable"⟩ := by
  exact ⟨rfl, rfl, rfl⟩

/-- C10 as amended.  In every run in which the portfolio query throws `e`
(the user id being truthy, so that the query is made), the conversation is
not built and the model is not called: the failed query is followed directly
by the only update of the run, which sets status `FAILED`, error `e.message`
and `completedAt`, and once that update has succeeded the handler rethrows
`e`. -/
theorem portfolio_failure_failed_write (W : World) (event : JobEvent) (e : JsError)
    (huser : truthy event.userId = true)
    (hquery : W.queryItems event.userId = .error e) :
    (handler W event).trace =
      [.queryHoldings event.userId (.error e),
       .update ⟨"ai-jobs", event.jobId,
           [("status", .str "FAILED"), ("error", .str e.message),
            ("completedAt", .str W.failedClock)]⟩
         (W.sendUpdate (failedUpdate event.jobId e.message W.failedClock))] ∧
    modelCallCount (handler W event).trace = 0 ∧
    (W.sendUpdate (failedUpdate event.jobId e.message W.failedClock) = .ok () →
      (handler W event).outcome = .error e) := by
  have hg : getPortfolioFromDB W event.userId =
      ([.queryHoldings event.userId (.error e)], .error e) := by
    simp [getPortfolioFromDB, huser, hquery]
  have hh : handler W event =
      ⟨[.queryHoldings event.userId (.error e),
         .update (failedUpdate event.jobId e.message W.failedClock)
           (W.sendUpdate (failedUpdate event.jobId e.message W.failedClock))],
       match W.sendUpdate (failedUpdate event.jobId e.message W.failedClock) with
       | .ok _ => .error e
       | .error e2 => .error e2⟩ := by
    simp [handler, tryBlock, hg]
  rw [hh]
  refine ⟨rfl, by simp [modelCallCount, isModelCall], ?_⟩
  intro hok
  simp only [hok]

theorem portfolio_failure_failed_write_witness :
    (handler brokenPortfolioWorld sampleEvent).trace =
      [.queryHoldings sampleEvent.userId (.error ⟨"Error", "portfolio store unavailable"⟩),
       .update ⟨"ai-jobs", sampleEvent.jobId,
           [("status", .str "FAILED"),
            ("error", .str (JsError.mk "Error" "portfolio store unavailable").message),
            ("completedAt", .str brokenPortfolioWorld.failedClock)]⟩
         (brokenPortfolioWorld.sendUpdate
           (failedUpdate sampleEvent.jobId
             (JsError.mk "Error" "portfolio store unavailable").message
             brokenPortfolioWorld.failedClock))] ∧
    modelCallCount (handler brokenPortfolioWorld sampleEvent).trace = 0 ∧
    (brokenPortfolioWorld.sendUpdate
        (failedUpdate sampleEvent.jobId
          (JsError.mk "Error" "portfolio store unavailable").message
          brokenPortfolioWorld.failedClock) = .ok () →
      (handler brokenPortfolioWorld sampleEvent).outcome =
        .error ⟨"Error", "portfolio store unavailable"⟩) :=
  portfolio_failure_failed_write brokenPortfolioWorld sampleEvent
    ⟨"Error", "portfolio store unavailable"⟩ (by decide) rfl

/-! ## The terminal write on the table -/

theorem storeAfter_append (T : Table) (s t : List Effect) :
    storeAfter T (s ++ t) = storeAfter (storeAfter T s) t := by
  simp [storeAfter]

theorem storeAfter_no_update (T : Table) (t : List Effect) (h : updatesOf t = []) :
    storeAfter T t = T := by
  induction t generalizing T with
  | nil => rfl
  | cons x t ih =>
    cases x with
    | update cmd answer => simp [updatesOf, updateOf] at h
    | _ =>
      have ht : updatesOf t = [] := by simpa [updatesOf, updateOf] using h
      simpa [storeAfter, applyEffect] using ih T ht

/-- When the job store accepts updates, a run ends with its only update,
which is one of the two commands of the handler. -/
theorem handler_single_update (W : World) (event : JobEvent)
    (hstore : ∀ cmd, W.sendUpdate cmd = .ok ()) :
    ∃ before cmd,
      (handler W event).trace = before ++ [.update cmd (.ok ())] ∧
      updatesOf before = [] ∧
      ((∃ v, cmd = completedUpdate event.jobId v W.completedClock) ∨
       (∃ m, cmd = failedUpdate event.jobId m W.failedClock)) := by
  have hf := (getPortfolioFromDB_trace W event.userId).1
  rcases handler_shape W event with ⟨e, -, h⟩ | ⟨holdings, e, -, -, h⟩ |
    ⟨holdings, v, -, -, h⟩
  · rw [h, hstore]
    exact ⟨_, _, rfl, hf, Or.inr ⟨_, rfl⟩⟩
  · rw [h, hstore]
    refine ⟨_, _, rfl, ?_, Or.inr ⟨_, rfl⟩⟩
    simp [updatesOf_append, hf, (bedrockLoop_trace W MAX_LOOPS 0 _).1]
  · rw [h, hstore]
    refine ⟨_, _, rfl, ?_, Or.inl ⟨_, rfl⟩⟩
    simp [updatesOf_append, hf, (bedrockLoop_trace W MAX_LOOPS 0 _).1]

/-- C3, refuted at a job that is already `COMPLETED` and is run again with a
model that throws: the record's status becomes `FAILED` and it gains an
error. -/
theorem terminal_record_overwritten :
    readAttr completedTable "J" "status" = some (.str "COMPLETED") ∧
    readAttr completedTable "J" "error" = none ∧
    readAttr
      (storeAfter completedTable
        (handler (sampleWorld (failingModel ⟨"Error", "throttled"⟩)) sampleEvent).trace)
      "J" "status" = some (.str "FAILED") ∧
    readAttr
      (storeAfter completedTable
        (handler (sampleWorld (failingModel ⟨"Error", "throttled"⟩)) sampleEvent).trace)
      "J" "error" = some (.str "throttled") := by
  exact ⟨rfl, rfl, rfl, rfl⟩

theorem applyUpdate_three (T : Table) (table j k1 k2 k3 : String) (v1 v2 v3 : JVal)
    (h12 : k1 ≠ k2) (h13 : k1 ≠ k3) (h23 : k2 ≠ k3) :
    (∀ a v, (a, v) ∈ [(k1, v1), (k2, v2), (k3, v3)] →
      readAttr (applyUpdate T ⟨table, j, [(k1, v1), (k2, v2), (k3, v3)]⟩) j a = some v) ∧
    (∀ item a, T j = some item → (∀ v, (a, v) ∉ [(k1, v1), (k2, v2), (k3, v3)]) →
      readAttr (applyUpdate T ⟨table, j, [(k1, v1), (k2, v2), (k3, v3)]⟩) j a = item a) ∧
    (∀ key, key ≠ j →
      applyUpdate T ⟨table, j, [(k1, v1), (k2, v2), (k3, v3)]⟩ key = T key) := by
  refine ⟨?_, ?_, ?_⟩
  · intro a v hav
    simp only [List.mem_cons, Prod.mk.injEq, List.mem_singleton, List.not_mem_nil,
      or_false] at hav
    rcases hav with ⟨rfl, rfl⟩ | ⟨rfl, rfl⟩ | ⟨rfl, rfl⟩
    · simp [readAttr, applyUpdate, setAttr, h12, h13]
    · simp [readAttr, applyUpdate, setAttr, h23]
    · simp [readAttr, applyUpdate, setAttr]
  · intro item a hitem hnot
    have n1 : a ≠ k1 := fun h => hnot v1 (by simp [h])
    have n2 : a ≠ k2 := fun h => hnot v2 (by simp [h])
    have n3 : a ≠ k3 := fun h => hnot v3 (by simp [h])
    simp [readAttr, applyUpdate, setAttr, hitem, n1, n2, n3]
  · intro key hkey
    simp [applyUpdate, hkey]

/-- C3 as amended.  The terminal write is unconditional.  For every table,
also one in which the job is already `COMPLETED` or `FAILED`, a run for that
job whose update the store accepts leaves the record with exactly the values
its single update assigns (status, completedAt, and result or error);
attributes this update does not assign, among them the other one of result
and error, keep the value they had, and so does every other record. -/
theorem rerun_overwrites_record (W : World) (event : JobEvent) (T : Table)
    (hstore : ∀ cmd, W.sendUpdate cmd = .ok ()) :
    ∃ cmd,
      updatesOf (handler W event).trace = [cmd] ∧ cmd.jobId = event.jobId ∧
      (∀ a v, (a, v) ∈ cmd.sets →
        readAttr (storeAfter T (handler W event).trace) event.jobId a = some v) ∧
      (∀ item a, T event.jobId = some item → (∀ v, (a, v) ∉ cmd.sets) →
        readAttr (storeAfter T (handler W event).trace) event.jobId a = item a) ∧
      (∀ key, key ≠ event.jobId →
        storeAfter T (handler W event).trace key = T key) := by
  obtain ⟨before, cmd, htrace, hbefore, hcmd⟩ := handler_single_update W event hstore
  have hstoreAfter : storeAfter T (handler W event).trace = applyUpdate T cmd := by
    rw [htrace, storeAfter_append, storeAfter_no_update T before hbefore]
    rfl
  have hupd : updatesOf (handler W event).trace = [cmd] := by
    rw [htrace, updatesOf_append, hbefore]
    rfl
  rw [hstoreAfter]
  rcases hcmd with ⟨v, rfl⟩ | ⟨m, rfl⟩
  · exact ⟨_, hupd, rfl,
      applyUpdate_three T _ _ _ _ _ _ _ _ (by decide) (by decide) (by decide)⟩
  · exact ⟨_, hupd, rfl,
      applyUpdate_three T _ _ _ _ _ _ _ _ (by decide) (by decide) (by decide)⟩

theorem rerun_overwrites_record_witness :
    ∃ cmd,
      updatesOf (handler (sampleWorld (failingModel ⟨"Error", "throttled"⟩))
        sampleEvent).trace = [cmd] ∧
      cmd.jobId = sampleEvent.jobId ∧
      (∀ a v, (a, v) ∈ cmd.sets →
        readAttr
          (storeAfter completedTable
            (handler (sampleWorld (failingModel ⟨"Error", "throttled"⟩)) sampleEvent).trace)
          sampleEvent.jobId a = some v) ∧
      (∀ item a, completedTable sampleEvent.jobId = some item → (∀ v, (a, v) ∉ cmd.sets) →
        readAttr
          (storeAfter completedTable
            (handler (sampleWorld (failingModel ⟨"Error", "throttled"⟩)) sampleEvent).trace)
          sampleEvent.jobId a = item a) ∧
      (∀ key, key ≠ sampleEvent.jobId →
        storeAfter completedTable
          (handler (sampleWorld (failingModel ⟨"Error", "throttled"⟩)) sampleEvent).trace key =
          completedTable key) :=
  rerun_overwrites_record (sampleWorld (failingModel ⟨"Error", "throttled"⟩)) sampleEvent
    completedTable (fun _ => rfl)

/-! ## The intraday helper is never called -/

theorem toolDispatch_kinds (W : World) (toolUse name : JVal) :
    ∀ x ∈ (toolDispatch W toolUse name).1, ∃ s a, x = Effect.dailyPrices s a := by
  unfold toolDispatch
  split
  · cases getProp toolUse "input" with
    | error e => simp
    | ok input =>
      dsimp only
      cases getProp input "symbols" with
      | error e => simp
      | ok symbols => simp
  · simp

theorem bedrockLoop_kinds (W : World) (n k : Nat) (messages : List Message) :
    ∀ x ∈ (bedrockLoop W n k messages).trace,
      (∃ j m a, x = Effect.modelCall j m a) ∨ (∃ s a, x = Effect.dailyPrices s a) := by
  induction n generalizing k messages with
  | zero => simp [bedrockLoop]
  | succ n ih =>
    have hiter : ∀ x ∈ (loopIteration W k messages).1,
        (∃ j m a, x = Effect.modelCall j m a) ∨ (∃ s a, x = Effect.dailyPrices s a) := by
      unfold loopIteration
      rcases W.invokeModel k messages with e | body
      · intro x hx
        exact Or.inl ⟨_, _, _, List.mem_singleton.1 hx⟩
      · intro x hx
        rcases List.mem_cons.1 hx with hx | hx
        · exact Or.inl ⟨_, _, _, hx⟩
        · rcases afterModel_effects W messages body with h | ⟨tu, nm, h⟩
          · rw [h] at hx
            cases hx
          · rw [h] at hx
            exact Or.inr (toolDispatch_kinds W tu nm x hx)
    unfold bedrockLoop
    rcases hit : loopIteration W k messages with ⟨effects, step⟩
    rw [hit] at hiter
    cases step with
    | thrown e => exact hiter
    | final v => exact hiter
    | again m2 =>
      intro x hx
      rcases List.mem_append.1 hx with hx | hx
      · exact hiter x hx
      · exact ih (k + 1) m2 x hx

/-- No run, in any world, calls `getIntradayStockPrices`. -/
theorem handler_never_calls_intraday (W : World) (event : JobEvent) (symbols : JVal)
    (answer : Except JsError JVal) :
    Effect.intradayPrices symbols answer ∉ (handler W event).trace := by
  have hfetch : Effect.intradayPrices symbols answer ∉
      (getPortfolioFromDB W event.userId).1 := by
    unfold getPortfolioFromDB
    split <;> simp
  have hloop : ∀ h, Effect.intradayPrices symbols answer ∉
      (bedrockLoop W MAX_LOOPS 0 (initialMessages W event h)).trace := by
    intro h hx
    rcases bedrockLoop_kinds W MAX_LOOPS 0 _ _ hx with ⟨j, m, a, h2⟩ | ⟨s, a, h2⟩ <;>
      cases h2
  rcases handler_shape W event with ⟨e, -, h⟩ | ⟨holdings, e, -, -, h⟩ |
    ⟨holdings, v, -, -, h⟩
  · rw [h]
    simp [hfetch]
  · rw [h]
    simp [hfetch, hloop holdings]
  · rw [h]
    rcases W.sendUpdate (completedUpdate event.jobId v W.completedClock) with e2 | u <;>
      simp [hfetch, hloop holdings]

/-! ## Failure of a tool call -/

theorem toolDispatch_cases (W : World) (toolUse name : JVal) :
    toolDispatch W toolUse name = ([], .ok .undefined) ∨
    (∃ e, toolDispatch W toolUse name = ([], .error e)) ∨
    (∃ s, toolDispatch W toolUse name =
      ([.dailyPrices s (W.getStockPrices s)], W.getStockPrices s)) := by
  unfold toolDispatch
  split
  · rcases getProp toolUse "input" with e | input
    · exact Or.inr (Or.inl ⟨e, rfl⟩)
    · dsimp only
      rcases getProp input "symbols" with e | symbols
      · exact Or.inr (Or.inl ⟨e, rfl⟩)
      · exact Or.inr (Or.inr ⟨symbols, rfl⟩)
  · exact Or.inl rfl

theorem afterModel_daily (W : World) (messages : List Message) (body s : JVal)
    (a : Except JsError JVal)
    (hmem : Effect.dailyPrices s a ∈ (afterModel W messages body).1) :
    (afterModel W messages body).1 = [.dailyPrices s a] ∧ a = W.getStockPrices s ∧
    ∀ e, a = .error e → (afterModel W messages body).2 = .thrown e := by
  revert hmem
  unfold afterModel
  rcases getProp body "stop_reason" with e | sr
  · simp
  · rcases getProp body "content" with e | content
    · simp
    · by_cases hs : strictEqStr sr "tool_use" = true
      · simp only [hs, if_true]
        rcases contentFind content "tool_use" with e | tu
        · simp
        · dsimp only
          rcases getProp tu "name" with e | nm
          · simp
          · dsimp only
            rcases toolDispatch_cases W tu nm with hd | ⟨e, hd⟩ | ⟨s2, hd⟩
            · rw [hd]
              dsimp only
              rcases getProp tu "id" with e | tid <;> simp
            · rw [hd]
              simp
            · rw [hd]
              rcases hans : W.getStockPrices s2 with e2 | r
              · intro hmem
                simp only [List.mem_singleton, Effect.dailyPrices.injEq] at hmem
                obtain ⟨rfl, rfl⟩ := hmem
                refine ⟨rfl, hans.symm, ?_⟩
                intro e he
                cases he
                rfl
              · dsimp only
                rcases getProp tu "id" with e3 | tid
                · intro hmem
                  simp only [List.mem_singleton, Effect.dailyPrices.injEq] at hmem
                  obtain ⟨rfl, rfl⟩ := hmem
                  exact ⟨rfl, hans.symm, fun e he => by cases he⟩
                · intro hmem
                  simp only [List.mem_singleton, Effect.dailyPrices.injEq] at hmem
                  obtain ⟨rfl, rfl⟩ := hmem
                  exact ⟨rfl, hans.symm, fun e he => by cases he⟩
      · simp only [hs]
        rcases contentFind content "text" with e | found <;> simp

theorem loopIteration_daily (W : World) (k : Nat) (messages : List Message) (s : JVal)
    (a : Except JsError JVal)
    (hmem : Effect.dailyPrices s a ∈ (loopIteration W k messages).1) :
    ∃ body, W.invokeModel k messages = .ok body ∧
      (loopIteration W k messages).1 = [.modelCall k messages (.ok body), .dailyPrices s a] ∧
      a = W.getStockPrices s ∧
      ∀ e, a = .error e → (loopIteration W k messages).2 = .thrown e := by
  unfold loopIteration at hmem ⊢
  rcases hm : W.invokeModel k messages with e | body
  · rw [hm] at hmem
    simp at hmem
  · rw [hm] at hmem
    dsimp only at hmem ⊢
    have hmem2 : Effect.dailyPrices s a ∈ (afterModel W messages body).1 := by
      simpa using hmem
    obtain ⟨h1, h2, h3⟩ := afterModel_daily W messages body s a hmem2
    exact ⟨body, rfl, by rw [h1], h2, h3⟩

/-- A failed call of the daily-price helper found in the trace of the loop is
its last step: the model call that asked for it comes right before, nothing
comes after, and the loop ends by throwing the helper's error. -/
theorem bedrockLoop_tool_error (W : World) (s : JVal) (e : JsError) (n k0 : Nat)
    (m0 : List Message)
    (hmem : Effect.dailyPrices s (.error e) ∈ (bedrockLoop W n k0 m0).trace) :
    ∃ before k msgs body,
      (bedrockLoop W n k0 m0).trace =
        before ++ [.modelCall k msgs (.ok body), .dailyPrices s (.error e)] ∧
      (bedrockLoop W n k0 m0).result = .error e ∧
      W.invokeModel k msgs = .ok body ∧ W.getStockPrices s = .error e ∧
      modelCallCount before + k0 = k := by
  induction n generalizing k0 m0 with
  | zero => simp [bedrockLoop] at hmem
  | succ n ih =>
    have hd := loopIteration_daily W k0 m0 s (.error e)
    have hcnt := (loopIteration_trace W k0 m0).2
    rcases hit : loopIteration W k0 m0 with ⟨effects, step⟩
    rw [hit] at hd hcnt
    dsimp only at hd hcnt
    have hhere : Effect.dailyPrices s (.error e) ∈ effects →
        ∃ before k msgs body,
          effects = before ++ [.modelCall k msgs (.ok body), .dailyPrices s (.error e)] ∧
          step = .thrown e ∧
          W.invokeModel k msgs = .ok body ∧ W.getStockPrices s = .error e ∧
          modelCallCount before + k0 = k := by
      intro hx
      obtain ⟨body, h1, h2, h3, h4⟩ := hd hx
      exact ⟨[], k0, m0, body, by simpa using h2, h4 e rfl, h1, h3.symm,
        by simp [modelCallCount]⟩
    cases step with
    | thrown e2 =>
      have ht : bedrockLoop W (n + 1) k0 m0 = ⟨effects, .error e2⟩ := by
        simp [bedrockLoop, hit]
      rw [ht] at hmem ⊢
      obtain ⟨before, k, msgs, body, h1, h2, h3, h4, h5⟩ := hhere hmem
      cases h2
      exact ⟨before, k, msgs, body, h1, rfl, h3, h4, h5⟩
    | final v =>
      have ht : bedrockLoop W (n + 1) k0 m0 = ⟨effects, .ok v⟩ := by
        simp [bedrockLoop, hit]
      rw [ht] at hmem
      obtain ⟨before, k, msgs, body, h1, h2, h3, h4, h5⟩ := hhere hmem
      cases h2
    | again m2 =>
      have ht : bedrockLoop W (n + 1) k0 m0 =
          ⟨effects ++ (bedrockLoop W n (k0 + 1) m2).trace,
           (bedrockLoop W n (k0 + 1) m2).result⟩ := by
        simp [bedrockLoop, hit]
      rw [ht] at hmem ⊢
      rcases List.mem_append.1 hmem with hx | hx
      · obtain ⟨before, k, msgs, body, h1, h2, h3, h4, h5⟩ := hhere hx
        cases h2
      · obtain ⟨before, k, msgs, body, h1, h2, h3, h4, h5⟩ := ih (k0 + 1) m2 hx
        refine ⟨effects ++ before, k, msgs, body, ?_, h2, h3, h4, ?_⟩
        · dsimp only
          rw [h1]
          simp
        · rw [modelCallCount_append, hcnt]
          omega

theorem handler_daily_mem (W : World) (event : JobEvent) (s : JVal)
    (a : Except JsError JVal)
    (hmem : Effect.dailyPrices s a ∈ (handler W event).trace) :
    ∃ holdings, (getPortfolioFromDB W event.userId).2 = .ok holdings ∧
      Effect.dailyPrices s a ∈
        (bedrockLoop W MAX_LOOPS 0 (initialMessages W event holdings)).trace := by
  have hf : Effect.dailyPrices s a ∉ (getPortfolioFromDB W event.userId).1 := by
    unfold getPortfolioFromDB
    split <;> simp
  rcases handler_shape W event with ⟨e, -, h⟩ | ⟨holdings, e, hh, -, h⟩ |
    ⟨holdings, v, hh, -, h⟩
  · rw [h] at hmem
    simp [hf] at hmem
  · rw [h] at hmem
    refine ⟨holdings, hh, ?_⟩
    simpa [hf] using hmem
  · refine ⟨holdings, hh, ?_⟩
    rcases hs : W.sendUpdate (completedUpdate event.jobId v W.completedClock) with e2 | u
    · rw [h, hs] at hmem
      simpa [hf] using hmem
    · rw [h, hs] at hmem
      simpa [hf] using hmem

/-- C11 (tool failure is fatal).  In every run in which a call of the
daily-price helper (the only tool the loop calls) throws `e`, the failed call
is the last step of the loop: it follows the model call that asked for it,
no further model call is made, and the only update of the run follows it
directly and sets status `FAILED`, error `e.message` and `completedAt`; once
that update has succeeded the handler rethrows `e`. -/
theorem tool_failure_failed_write (W : World) (event : JobEvent) (symbols : JVal)
    (e : JsError)
    (hcall : Effect.dailyPrices symbols (.error e) ∈ (handler W event).trace) :
    ∃ before k msgs body,
      (handler W event).trace =
        before ++ [.modelCall k msgs (.ok body), .dailyPrices symbols (.error e),
          .update (failedUpdate event.jobId e.message W.failedClock)
            (W.sendUpdate (failedUpdate event.jobId e.message W.failedClock))] ∧
      modelCallCount before = k ∧ updatesOf before = [] ∧
      modelCallCount (handler W event).trace = k + 1 ∧
      updatesOf (handler W event).trace =
        [⟨"ai-jobs", event.jobId,
          [("status", .str "FAILED"), ("error", .str e.message),
           ("completedAt", .str W.failedClock)]⟩] ∧
      (W.sendUpdate (failedUpdate event.jobId e.message W.failedClock) = .ok () →
        (handler W event).outcome = .error e) := by
  obtain ⟨holdings, hh, hmem⟩ := handler_daily_mem W event symbols _ hcall
  obtain ⟨before, k, msgs, body, h1, h2, -, -, h5⟩ :=
    bedrockLoop_tool_error W symbols e MAX_LOOPS 0 _ hmem
  have hf := getPortfolioFromDB_trace W event.userId
  have hl := (bedrockLoop_trace W MAX_LOOPS 0 (initialMessages W event holdings)).1
  have hb : updatesOf before = [] := by
    rw [h1, updatesOf_append] at hl
    exact (List.append_eq_nil.1 hl).1
  have hs := handler_settle W event holdings hh
  rw [h1, h2] at hs
  have hk : modelCallCount ((getPortfolioFromDB W event.userId).1 ++ before) = k := by
    rw [modelCallCount_append, hf.2]
    omega
  refine ⟨(getPortfolioFromDB W event.userId).1 ++ before, k, msgs, body, ?_, hk, ?_, ?_,
    ?_, ?_⟩
  · rw [hs]
    simp [settle]
  · simp [updatesOf_append, hf.1, hb]
  · rw [hs]
    simp only [settle, modelCallCount_append, hf.2]
    have : modelCallCount before = k := by omega
    rw [this]
    simp [modelCallCount, isModelCall]
  · rw [hs]
    simp only [settle, updatesOf_append, hf.1, hb]
    simp [updatesOf, updateOf, failedUpdate]
  · intro hok
    rw [hs]
    simp [settle, hok]

theorem tool_failure_failed_write_witness :
    ∃ before k msgs body,
      (handler brokenPricesWorld sampleEvent).trace =
        before ++ [.modelCall k msgs (.ok body),
          .dailyPrices (.arr [.str "AAPL", .str "MSFT"]) (.error ⟨"TypeError", "fetch failed"⟩),
          .update (failedUpdate sampleEvent.jobId
              (JsError.mk "TypeError" "fetch failed").message brokenPricesWorld.failedClock)
            (brokenPricesWorld.sendUpdate
              (failedUpdate sampleEvent.jobId
                (JsError.mk "TypeError" "fetch failed").message
                brokenPricesWorld.failedClock))] ∧
      modelCallCount before = k ∧ updatesOf before = [] ∧
      modelCallCount (handler brokenPricesWorld sampleEvent).trace = k + 1 ∧
      updatesOf (handler brokenPricesWorld sampleEvent).trace =
        [⟨"ai-jobs", sampleEvent.jobId,
          [("status", .str "FAILED"),
           ("error", .str (JsError.mk "TypeError" "fetch failed").message),
           ("completedAt", .str brokenPricesWorld.failedClock)]⟩] ∧
      (brokenPricesWorld.sendUpdate
          (failedUpdate sampleEvent.jobId (JsError.mk "TypeError" "fetch failed").message
            brokenPricesWorld.failedClock) = .ok () →
        (handler brokenPricesWorld sampleEvent).outcome =
          .error ⟨"TypeError", "fetch failed"⟩) :=
  tool_failure_failed_write brokenPricesWorld sampleEvent _ ⟨"TypeError", "fetch failed"⟩
    (by
      have h : (handler brokenPricesWorld sampleEvent).trace =
          [.queryHoldings (.str "u1")
              (.ok (.arr [.obj [("symbol", .str "AAPL"), ("quantity", .num 10)]])),
           .modelCall 0
              (initialMessages brokenPricesWorld sampleEvent
                (.arr [.obj [("symbol", .str "AAPL"), ("quantity", .num 10)]]))
              (.ok (modelResponse "tool_use"
                [toolUseBlock "toolu_1" "get_stock_prices" ["AAPL", "MSFT"]])),
           .dailyPrices (.arr [.str "AAPL", .str "MSFT"])
              (.error ⟨"TypeError", "fetch failed"⟩),
           .update (failedUpdate "J" "fetch failed" "2026-11-06T10:00:06.000Z")
              (.ok ())] := rfl
      rw [h]
      simp)

/-! ## The starter -/

theorem starter_reads (W : StarterWorld) (body u : JVal)
    (hu : getProp body "userId" = .ok u) :
    starterItem W W.randomUUID body = .ok (starterPut W body).item ∧
    starterPayload W.randomUUID body = .ok (starterInvoke W body).payload := by
  cases body <;>
    first
    | (simp [getProp] at hu; done)
    | exact ⟨rfl, rfl⟩

theorem starter_reads_error (W : StarterWorld) (body : JVal) (e : JsError)
    (hu : getProp body "userId" = .error e) :
    starterItem W W.randomUUID body = .error e := by
  cases body <;>
    first
    | (simp [getProp] at hu; done)
    | (simp only [getProp] at hu
       cases hu
       rfl)

/-- The shape of every request to the starter: the answer to `OPTIONS`; the
500 response without any external call when the body cannot be parsed or its
members cannot be read; otherwise the write, the dispatch after a successful
write, and the 202 response after a successful dispatch, with the 500
response as soon as one of the two throws. -/
theorem starterHandler_shape (W : StarterWorld) (event : StarterEvent) :
    (strictEqStr event.httpMethod "OPTIONS" = true ∧
      starterHandler W event = ⟨[], ⟨200, corsHeaders "POST,OPTIONS", none⟩⟩) ∨
    (strictEqStr event.httpMethod "OPTIONS" = false ∧
      ∃ e, (event.body = .error e ∨
          ∃ body, event.body = .ok body ∧ getProp body "userId" = .error e) ∧
        starterHandler W event = ⟨[], errorResponse W e⟩) ∨
    (strictEqStr event.httpMethod "OPTIONS" = false ∧
      ∃ body u, event.body = .ok body ∧ getProp body "userId" = .ok u ∧
        starterHandler W event =
          match W.putItem (starterPut W body) with
          | .error e => ⟨[.put (starterPut W body) (.error e)], errorResponse W e⟩
          | .ok a =>
            match W.invokeLambda (starterInvoke W body) with
            | .error e =>
              ⟨[.put (starterPut W body) (.ok a), .invoke (starterInvoke W body) (.error e)],
               errorResponse W e⟩
            | .ok b =>
              ⟨[.put (starterPut W body) (.ok a), .invoke (starterInvoke W body) (.ok b)],
               acceptedResponse W⟩) := by
  rcases hm : strictEqStr event.httpMethod "OPTIONS" with _ | _
  · right
    rcases hb : event.body with e | body
    · left
      refine ⟨rfl, e, Or.inl rfl, ?_⟩
      simp [starterHandler, hm, starterTry, hb, errorResponse]
    · rcases hu : getProp body "userId" with e | u
      · left
        refine ⟨rfl, e, Or.inr ⟨body, rfl, hu⟩, ?_⟩
        simp [starterHandler, hm, starterTry, hb, starter_reads_error W body e hu,
          errorResponse]
      · right
        refine ⟨rfl, body, u, rfl, hu, ?_⟩
        obtain ⟨h1, h2⟩ := starter_reads W body u hu
        have hput : (⟨"ai-jobs", (starterPut W body).item⟩ : PutCmd) = starterPut W body := rfl
        have hinv : (⟨processorFunctionName W, "Event", (starterInvoke W body).payload⟩ :
            InvokeCmd) = starterInvoke W body := rfl
        simp only [starterHandler, hm, starterTry, hb, h1, h2, hput, hinv]
        rcases W.putItem (starterPut W body) with e | a
        · simp [errorResponse]
        · dsimp only
          rcases W.invokeLambda (starterInvoke W body) with e | b
          · simp [errorResponse]
          · simp [acceptedResponse]
  · left
    exact ⟨rfl, by simp [starterHandler, hm]⟩

/-- A record write found in the trace of the starter is the write of
`starterPut` for the parsed body, made on a request that is not `OPTIONS`. -/
theorem starter_put_mem (W : StarterWorld) (event : StarterEvent) (cmd : PutCmd)
    (answer : Except JsError Unit)
    (hput : ApiEffect.put cmd answer ∈ (starterHandler W event).trace) :
    ∃ body u, event.body = .ok body ∧ getProp body "userId" = .ok u ∧
      cmd = starterPut W body ∧ answer = W.putItem (starterPut W body) ∧
      ∃ rest, (starterHandler W event).trace = .put cmd answer :: rest := by
  rcases starterHandler_shape W event with ⟨-, h⟩ | ⟨-, e, -, h⟩ | ⟨-, body, u, hb, hu, h⟩
  · rw [h] at hput
    simp at hput
  · rw [h] at hput
    simp at hput
  · refine ⟨body, u, hb, hu, ?_⟩
    rcases hp : W.putItem (starterPut W body) with e | a
    · rw [h, hp] at hput ⊢
      simp only [List.mem_singleton, ApiEffect.put.injEq] at hput
      obtain ⟨rfl, rfl⟩ := hput
      exact ⟨rfl, rfl, [], rfl⟩
    · rcases hi : W.invokeLambda (starterInvoke W body) with e | b
      · rw [h, hp] at hput ⊢
        dsimp only at hput ⊢
        rw [hi] at hput ⊢
        simp only [List.mem_cons, ApiEffect.put.injEq, List.mem_singleton, reduceCtorEq,
          or_false, List.not_mem_nil] at hput
        obtain ⟨rfl, rfl⟩ := hput
        exact ⟨rfl, rfl, _, rfl⟩
      · rw [h, hp] at hput ⊢
        dsimp only at hput ⊢
        rw [hi] at hput ⊢
        simp only [List.mem_cons, ApiEffect.put.injEq, List.mem_singleton, reduceCtorEq,
          or_false, List.not_mem_nil] at hput
        obtain ⟨rfl, rfl⟩ := hput
        exact ⟨rfl, rfl, _, rfl⟩

/-- C13 (job creation record).  The record the starter writes, when both
clock readings are `now`: its key is the generated job id, its status is
`"PROCESSING"`, `userId` and `prompt` are those of the parsed body,
`prompts` and `responses` are the arrays of the body and `[]` when the body
has none, `createdAt` is the ISO text of `now`, `ttl` is
`floor(now / 1000) + 86400`, and it has no `result`, `error` or
`completedAt`. -/
theorem starter_record (W : StarterWorld) (event : StarterEvent) (cmd : PutCmd)
    (answer : Except JsError Unit) (now : Nat)
    (hput : ApiEffect.put cmd answer ∈ (starterHandler W event).trace)
    (hnew : W.newDate = now) (hnow : W.dateNow = now) :
    ∃ body, event.body = .ok body ∧
      cmd.tableName = "ai-jobs" ∧
      cmd.item =
        [("jobId", .str W.randomUUID),
         ("status", .str "PROCESSING"),
         ("userId", member body "userId"),
         ("prompt", member body "prompt"),
         ("prompts", jsOr (member body "prompts") (.arr [])),
         ("responses", jsOr (member body "responses") (.arr [])),
         ("createdAt", .str (W.toISOString now)),
         ("ttl", .num (Int.ofNat (now / 1000 + 86400)))] ∧
      (∀ P, member body "prompts" = .arr P → cmd.item.lookup "prompts" = some (.arr P)) ∧
      (member body "prompts" = .undefined → cmd.item.lookup "prompts" = some (.arr [])) ∧
      (∀ R, member body "responses" = .arr R →
        cmd.item.lookup "responses" = some (.arr R)) ∧
      (member body "responses" = .undefined →
        cmd.item.lookup "responses" = some (.arr [])) ∧
      cmd.item.lookup "result" = none ∧ cmd.item.lookup "error" = none ∧
      cmd.item.lookup "completedAt" = none ∧
      (∀ T, applyPut T cmd W.randomUUID = some (storedItem cmd.item)) ∧
      86400 = 24 * 60 * 60 := by
  obtain ⟨body, u, hb, -, rfl, -, -⟩ := starter_put_mem W event cmd answer hput
  subst hnew
  refine ⟨body, hb, rfl, ?_, ?_, ?_, ?_, ?_, rfl, rfl, rfl, ?_, rfl⟩
  · simp [starterPut, hnow]
  · intro P hP
    simp [starterPut, hP, jsOr, truthy, List.lookup]
  · intro hP
    simp [starterPut, hP, jsOr, truthy, List.lookup]
  · intro R hR
    simp [starterPut, hR, jsOr, truthy, List.lookup]
  · intro hR
    simp [starterPut, hR, jsOr, truthy, List.lookup]
  · intro T
    simp [applyPut, starterPut, List.lookup]

theorem starter_record_witness :
    ∃ body, sampleSubmission.body = .ok body ∧
      (starterPut sampleStarterWorld
        (.obj [("userId", .str "u1"), ("prompt", .str "Should I rebalance?")])).tableName =
        "ai-jobs" ∧
      (starterPut sampleStarterWorld
        (.obj [("userId", .str "u1"), ("prompt", .str "Should I rebalance?")])).item =
        [("jobId", .str sampleStarterWorld.randomUUID),
         ("status", .str "PROCESSING"),
         ("userId", member body "userId"),
         ("prompt", member body "prompt"),
         ("prompts", jsOr (member body "prompts") (.arr [])),
         ("responses", jsOr (member body "responses") (.arr [])),
         ("createdAt", .str (sampleStarterWorld.toISOString 1793959200000)),
         ("ttl", .num (Int.ofNat (1793959200000 / 1000 + 86400)))] ∧
      (∀ P, member body "prompts" = .arr P →
        (starterPut sampleStarterWorld
          (.obj [("userId", .str "u1"), ("prompt", .str "Should I rebalance?")])).item.lookup
          "prompts" = some (.arr P)) ∧
      (member body "prompts" = .undefined →
        (starterPut sampleStarterWorld
          (.obj [("userId", .str "u1"), ("prompt", .str "Should I rebalance?")])).item.lookup
          "prompts" = some (.arr [])) ∧
      (∀ R, member body "responses" = .arr R →
        (starterPut sampleStarterWorld
          (.obj [("userId", .str "u1"), ("prompt", .str "Should I rebalance?")])).item.lookup
          "responses" = some (.arr R)) ∧
      (member body "responses" = .undefined →
        (starterPut sampleStarterWorld
          (.obj [("userId", .str "u1"), ("prompt", .str "Should I rebalance?")])).item.lookup
          "responses" = some (.arr [])) ∧
      (starterPut sampleStarterWorld
        (.obj [("userId", .str "u1"), ("prompt", .str "Should I rebalance?")])).item.lookup
        "result" = none ∧
      (starterPut sampleStarterWorld
        (.obj [("userId", .str "u1"), ("prompt", .str "Should I rebalance?")])).item.lookup
        "error" = none ∧
      (starterPut sampleStarterWorld
        (.obj [("userId", .str "u1"), ("prompt", .str "Should I rebalance?")])).item.lookup
        "completedAt" = none ∧
      (∀ T, applyPut T
          (starterPut sampleStarterWorld
            (.obj [("userId", .str "u1"), ("prompt", .str "Should I rebalance?")]))
          sampleStarterWorld.randomUUID =
        some (storedItem (starterPut sampleStarterWorld
          (.obj [("userId", .str "u1"), ("prompt", .str "Should I rebalance?")])).item)) ∧
      86400 = 24 * 60 * 60 :=
  starter_record sampleStarterWorld sampleSubmission _ (.ok ()) 1793959200000
    (List.mem_cons_self _ _) rfl rfl

/-- The three ways a request to the starter that made the record write can
go on, each told apart by the answers to the write and to the dispatch. -/
theorem starter_after_put (W : StarterWorld) (event : StarterEvent) (cmd : PutCmd)
    (answer : Except JsError Unit)
    (hput : ApiEffect.put cmd answer ∈ (starterHandler W event).trace) :
    ∃ body, event.body = .ok body ∧ cmd = starterPut W body ∧
      ((∃ e, answer = .error e ∧
          starterHandler W event = ⟨[.put cmd (.error e)], errorResponse W e⟩) ∨
       (∃ e, answer = .ok () ∧ W.invokeLambda (starterInvoke W body) = .error e ∧
          starterHandler W event =
            ⟨[.put cmd (.ok ()), .invoke (starterInvoke W body) (.error e)],
             errorResponse W e⟩) ∨
       (answer = .ok () ∧ W.invokeLambda (starterInvoke W body) = .ok () ∧
          starterHandler W event =
            ⟨[.put cmd (.ok ()), .invoke (starterInvoke W body) (.ok ())],
             acceptedResponse W⟩)) := by
  obtain ⟨body, u, hb, hu, rfl, rfl, -⟩ := starter_put_mem W event cmd answer hput
  refine ⟨body, hb, rfl, ?_⟩
  rcases starterHandler_shape W event with ⟨hm, h⟩ | ⟨-, e, h1, h⟩ |
    ⟨-, body2, u2, hb2, -, h⟩
  · rw [h] at hput
    simp at hput
  · rw [h] at hput
    simp at hput
  · rw [hb] at hb2
    cases hb2
    rcases hp : W.putItem (starterPut W body) with e | a
    · left
      rw [hp] at h
      exact ⟨e, rfl, h⟩
    · right
      rw [hp] at h
      dsimp only at h
      rcases hi : W.invokeLambda (starterInvoke W body) with e | b
      · left
        rw [hi] at h
        exact ⟨e, rfl, rfl, h⟩
      · right
        rw [hi] at h
        exact ⟨rfl, rfl, h⟩

/-- C14 (submit response and side effects).  A request to the starter whose
record write and dispatch both succeed makes exactly these two external
calls, the dispatch with invocation type `"Event"`, and answers 202 with a
body whose status is `"PROCESSING"` and whose `jobId` is the key of the
written record and the `jobId` of the dispatched payload. -/
theorem starter_accepts (W : StarterWorld) (event : StarterEvent) (cmd : PutCmd)
    (icmd : InvokeCmd)
    (hput : ApiEffect.put cmd (.ok ()) ∈ (starterHandler W event).trace)
    (hinv : ApiEffect.invoke icmd (.ok ()) ∈ (starterHandler W event).trace) :
    (starterHandler W event).trace = [.put cmd (.ok ()), .invoke icmd (.ok ())] ∧
    icmd.invocationType = "Event" ∧
    (starterHandler W event).response.statusCode = 202 ∧
    ∃ doc jobId, (starterHandler W event).response.body = some doc ∧
      jsonField doc "status" = some (.str "PROCESSING") ∧
      jsonField doc "jobId" = some (.str jobId) ∧
      cmd.item.lookup "jobId" = some (.str jobId) ∧
      jsonField icmd.payload "jobId" = some (.str jobId) ∧
      jobId = W.randomUUID := by
  obtain ⟨body, -, rfl, h | h | h⟩ := starter_after_put W event _ _ hput
  · obtain ⟨e, he, -⟩ := h
    cases he
  · obtain ⟨e, -, -, h⟩ := h
    rw [h] at hinv
    simp at hinv
  · obtain ⟨-, -, h⟩ := h
    rw [h] at hinv
    simp only [List.mem_cons, reduceCtorEq, ApiEffect.invoke.injEq, List.mem_singleton,
      false_or, List.not_mem_nil, or_false, and_true] at hinv
    subst hinv
    rw [h]
    refine ⟨rfl, rfl, rfl, _, W.randomUUID, rfl, ?_, ?_, ?_, ?_, rfl⟩
    · simp [jsonObject, jsonField, isUndefined, List.lookup]
    · simp [jsonObject, jsonField, isUndefined, List.lookup]
    · simp [starterPut, List.lookup]
    · simp [starterInvoke, jsonObject, jsonField, isUndefined, List.lookup]

theorem starter_accepts_witness :
    (starterHandler sampleStarterWorld sampleSubmission).trace =
      [.put (starterPut sampleStarterWorld
          (.obj [("userId", .str "u1"), ("prompt", .str "Should I rebalance?")])) (.ok ()),
       .invoke (starterInvoke sampleStarterWorld
          (.obj [("userId", .str "u1"), ("prompt", .str "Should I rebalance?")])) (.ok ())] ∧
    (starterInvoke sampleStarterWorld
      (.obj [("userId", .str "u1"), ("prompt", .str "Should I rebalance?")])).invocationType =
      "Event" ∧
    (starterHandler sampleStarterWorld sampleSubmission).response.statusCode = 202 ∧
    ∃ doc jobId, (starterHandler sampleStarterWorld sampleSubmission).response.body = some doc ∧
      jsonField doc "status" = some (.str "PROCESSING") ∧
      jsonField doc "jobId" = some (.str jobId) ∧
      (starterPut sampleStarterWorld
        (.obj [("userId", .str "u1"), ("prompt", .str "Should I rebalance?")])).item.lookup
        "jobId" = some (.str jobId) ∧
      jsonField (starterInvoke sampleStarterWorld
        (.obj [("userId", .str "u1"), ("prompt", .str "Should I rebalance?")])).payload
        "jobId" = some (.str jobId) ∧
      jobId = sampleStarterWorld.randomUUID :=
  starter_accepts sampleStarterWorld sampleSubmission _ _
    (List.mem_cons_self _ _) (List.mem_cons_of_mem _ (List.mem_cons_self _ _))

/-- C15, refuted at a submission without question text: the starter writes
the record, dispatches the run and answers 202.  Where the document client
refuses the item because `prompt` has no value, the answer is the 500 of the
`catch` block, again not a 4xx status code. -/
theorem promptless_submission_accepted :
    promptlessSubmission.body = .ok (.obj [("userId", .str "u1")]) ∧
    getProp (.obj [("userId", .str "u1")]) "prompt" = .ok .undefined ∧
    (starterHandler sampleStarterWorld promptlessSubmission).trace =
      [.put (starterPut sampleStarterWorld (.obj [("userId", .str "u1")])) (.ok ()),
       .invoke (starterInvoke sampleStarterWorld (.obj [("userId", .str "u1")])) (.ok ())] ∧
    (starterHandler sampleStarterWorld promptlessSubmission).response.statusCode = 202 ∧
    (starterHandler strictPutWorld promptlessSubmission).response.statusCode = 500 := by
  exact ⟨rfl, rfl, rfl, rfl, rfl⟩

/-- C15 as amended.  The starter does not validate the question text.  For
every request other than `OPTIONS` whose parsed body has no `prompt`, it
attempts the record write as for any other body, with no value for `prompt`
in the item; it answers 202 when the write and the dispatch succeed and 500
when one of them throws, hence never with a 4xx status code. -/
theorem promptless_submission_not_rejected (W : StarterWorld) (event : StarterEvent)
    (body : JVal)
    (hmethod : strictEqStr event.httpMethod "OPTIONS" = false)
    (hbody : event.body = .ok body)
    (hprompt : getProp body "prompt" = .ok .undefined) :
    (∃ rest, (starterHandler W event).trace =
      .put (starterPut W body) (W.putItem (starterPut W body)) :: rest) ∧
    (starterPut W body).item.lookup "prompt" = some .undefined ∧
    ((starterHandler W event).response.statusCode = 202 ∨
      (starterHandler W event).response.statusCode = 500) ∧
    (W.putItem (starterPut W body) = .ok () →
      W.invokeLambda (starterInvoke W body) = .ok () →
      (starterHandler W event).response.statusCode = 202 ∧
      (starterHandler W event).trace =
        [.put (starterPut W body) (.ok ()), .invoke (starterInvoke W body) (.ok ())]) := by
  have hmem : member body "prompt" = .undefined := by simp [member, hprompt]
  have hlook : (starterPut W body).item.lookup "prompt" = some .undefined := by
    simp [starterPut, hmem, List.lookup]
  rcases starterHandler_shape W event with ⟨hm, -⟩ | ⟨-, e, h1, -⟩ |
    ⟨-, body2, u2, hb2, -, h⟩
  · rw [hmethod] at hm
    cases hm
  · rcases h1 with h1 | ⟨body2, hb2, hu2⟩
    · rw [hbody] at h1
      cases h1
    · rw [hbody] at hb2
      cases hb2
      cases body <;> simp [getProp] at hprompt hu2
  · rw [hbody] at hb2
    cases hb2
    rcases hp : W.putItem (starterPut W body) with e | a
    · rw [hp] at h
      rw [h]
      exact ⟨⟨[], rfl⟩, hlook, Or.inr rfl, fun h0 => by cases h0⟩
    · rw [hp] at h
      dsimp only at h
      rcases hi : W.invokeLambda (starterInvoke W body) with e | b
      · rw [hi] at h
        rw [h]
        exact ⟨⟨_, rfl⟩, hlook, Or.inr rfl, fun _ h0 => by cases h0⟩
      · rw [hi] at h
        rw [h]
        exact ⟨⟨_, rfl⟩, hlook, Or.inl rfl, fun _ _ => ⟨rfl, rfl⟩⟩

theorem promptless_submission_not_rejected_witness :
    (∃ rest, (starterHandler sampleStarterWorld promptlessSubmission).trace =
      .put (starterPut sampleStarterWorld (.obj [("userId", .str "u1")]))
        (sampleStarterWorld.putItem
          (starterPut sampleStarterWorld (.obj [("userId", .str "u1")]))) :: rest) ∧
    (starterPut sampleStarterWorld (.obj [("userId", .str "u1")])).item.lookup "prompt" =
      some .undefined ∧
    ((starterHandler sampleStarterWorld promptlessSubmission).response.statusCode = 202 ∨
      (starterHandler sampleStarterWorld promptlessSubmission).response.statusCode = 500) ∧
    (sampleStarterWorld.putItem
        (starterPut sampleStarterWorld (.obj [("userId", .str "u1")])) = .ok () →
      sampleStarterWorld.invokeLambda
        (starterInvoke sampleStarterWorld (.obj [("userId", .str "u1")])) = .ok () →
      (starterHandler sampleStarterWorld promptlessSubmission).response.statusCode = 202 ∧
      (starterHandler sampleStarterWorld promptlessSubmission).trace =
        [.put (starterPut sampleStarterWorld (.obj [("userId", .str "u1")])) (.ok ()),
         .invoke (starterInvoke sampleStarterWorld (.obj [("userId", .str "u1")]))
           (.ok ())]) :=
  promptless_submission_not_rejected sampleStarterWorld promptlessSubmission
    (.obj [("userId", .str "u1")]) rfl rfl rfl

theorem errorResponse_fields (W : StarterWorld) (e : JsError) :
    (errorResponse W e).statusCode = 500 ∧
    ∃ doc, (errorResponse W e).body = some doc ∧
      jsonField doc "error" = some (.str e.message) := by
  refine ⟨rfl, _, rfl, ?_⟩
  simp [jsonObject, jsonField, isUndefined, List.lookup]

/-- C16 (creation failure).  When the record write of a request to the
starter throws `e`, that write is the only external call (no run is
dispatched) and the response has status code 500 and a body whose `error`
is `e.message`. -/
theorem creation_failure (W : StarterWorld) (event : StarterEvent) (cmd : PutCmd)
    (e : JsError)
    (hput : ApiEffect.put cmd (.error e) ∈ (starterHandler W event).trace) :
    (starterHandler W event).trace = [.put cmd (.error e)] ∧
    (∀ icmd answer, ApiEffect.invoke icmd answer ∉ (starterHandler W event).trace) ∧
    (starterHandler W event).response.statusCode = 500 ∧
    ∃ doc, (starterHandler W event).response.body = some doc ∧
      jsonField doc "error" = some (.str e.message) := by
  obtain ⟨body, -, rfl, h | h | h⟩ := starter_after_put W event _ _ hput
  · obtain ⟨e2, he, h⟩ := h
    cases he
    rw [h]
    exact ⟨rfl, by simp, errorResponse_fields W e⟩
  · obtain ⟨e2, he, -⟩ := h
    cases he
  · cases h.1

theorem creation_failure_witness :
    (starterHandler failingPutWorld sampleSubmission).trace =
      [.put (starterPut failingPutWorld
          (.obj [("userId", .str "u1"), ("prompt", .str "Should I rebalance?")]))
        (.error ⟨"ProvisionedThroughputExceededException", "throttled"⟩)] ∧
    (∀ icmd answer,
      ApiEffect.invoke icmd answer ∉ (starterHandler failingPutWorld sampleSubmission).trace) ∧
    (starterHandler failingPutWorld sampleSubmission).response.statusCode = 500 ∧
    ∃ doc, (starterHandler failingPutWorld sampleSubmission).response.body = some doc ∧
      jsonField doc "error" =
        some (.str (JsError.mk "ProvisionedThroughputExceededException" "throttled").message) :=
  creation_failure failingPutWorld sampleSubmission _
    ⟨"ProvisionedThroughputExceededException", "throttled"⟩ (List.mem_cons_self _ _)

theorem tableAfter_put_only (T : Table) (cmd : PutCmd) (icmd : InvokeCmd)
    (answer : Except JsError Unit) :
    tableAfter T [.put cmd (.ok ()), .invoke icmd answer] = applyPut T cmd := by
  rfl

theorem starterPut_status (W : StarterWorld) (body : JVal) (T : Table) :
    readAttr (applyPut T (starterPut W body)) W.randomUUID "status" =
      some (.str "PROCESSING") := by
  simp [readAttr, applyPut, starterPut, storedItem, List.lookup]

/-- C17 (dispatch failure leaves the job `PROCESSING`).  When the record
write of a request to the starter succeeds and the dispatch then throws `e`,
these two are the only external calls: nothing is written or deleted
afterwards, so the table holds the new record with status `"PROCESSING"`;
the response has status code 500 and carries `e.message`. -/
theorem dispatch_failure_leaves_processing (W : StarterWorld) (event : StarterEvent)
    (cmd : PutCmd) (icmd : InvokeCmd) (e : JsError)
    (hput : ApiEffect.put cmd (.ok ()) ∈ (starterHandler W event).trace)
    (hinv : ApiEffect.invoke icmd (.error e) ∈ (starterHandler W event).trace) :
    (starterHandler W event).trace = [.put cmd (.ok ()), .invoke icmd (.error e)] ∧
    (∀ T, tableAfter T (starterHandler W event).trace = applyPut T cmd ∧
      readAttr (tableAfter T (starterHandler W event).trace) W.randomUUID "status" =
        some (.str "PROCESSING")) ∧
    (starterHandler W event).response.statusCode = 500 ∧
    ∃ doc, (starterHandler W event).response.body = some doc ∧
      jsonField doc "error" = some (.str e.message) := by
  obtain ⟨body, -, rfl, h | h | h⟩ := starter_after_put W event _ _ hput
  · obtain ⟨e2, he, -⟩ := h
    cases he
  · obtain ⟨e2, -, -, h⟩ := h
    rw [h] at hinv
    simp only [List.mem_cons, reduceCtorEq, ApiEffect.invoke.injEq, List.mem_singleton,
      false_or, List.not_mem_nil, or_false, Except.error.injEq] at hinv
    obtain ⟨rfl, rfl⟩ := hinv
    rw [h]
    refine ⟨rfl, ?_, errorResponse_fields W e⟩
    intro T
    rw [tableAfter_put_only]
    exact ⟨rfl, starterPut_status W body T⟩
  · obtain ⟨-, -, h⟩ := h
    rw [h] at hinv
    simp at hinv

theorem dispatch_failure_leaves_processing_witness :
    (starterHandler failingInvokeWorld sampleSubmission).trace =
      [.put (starterPut failingInvokeWorld
          (.obj [("userId", .str "u1"), ("prompt", .str "Should I rebalance?")])) (.ok ()),
       .invoke (starterInvoke failingInvokeWorld
          (.obj [("userId", .str "u1"), ("prompt", .str "Should I rebalance?")]))
        (.error ⟨"ResourceNotFoundException", "Function not found"⟩)] ∧
    (∀ T, tableAfter T (starterHandler failingInvokeWorld sampleSubmission).trace =
        applyPut T (starterPut failingInvokeWorld
          (.obj [("userId", .str "u1"), ("prompt", .str "Should I rebalance?")])) ∧
      readAttr (tableAfter T (starterHandler failingInvokeWorld sampleSubmission).trace)
        failingInvokeWorld.randomUUID "status" = some (.str "PROCESSING")) ∧
    (starterHandler failingInvokeWorld sampleSubmission).response.statusCode = 500 ∧
    ∃ doc, (starterHandler failingInvokeWorld sampleSubmission).response.body = some doc ∧
      jsonField doc "error" =
        some (.str (JsError.mk "ResourceNotFoundException" "Function not found").message) :=
  dispatch_failure_leaves_processing failingInvokeWorld sampleSubmission _ _
    ⟨"ResourceNotFoundException", "Function not found"⟩
    (List.mem_cons_self _ _) (List.mem_cons_of_mem _ (List.mem_cons_self _ _))

/-! ## The status checker -/

theorem jsonObject_field (members : List (String × JVal)) (k : String) (v : JVal)
    (hv : members.lookup k = some v) (hdef : isUndefined v = false) :
    jsonField (jsonObject members) k = some v := by
  induction members with
  | nil => simp at hv
  | cons kv rest ih =>
    obtain ⟨k0, v0⟩ := kv
    simp only [jsonObject, jsonField] at ih ⊢
    by_cases hk : k = k0
    · subst hk
      simp only [List.lookup, beq_self_eq_true] at hv
      cases hv
      simp [List.filter, hdef, List.lookup]
    · have hne : (k == k0) = false := by simpa using hk
      simp only [List.lookup, hne] at hv
      cases hu : isUndefined v0 with
      | true => simpa [List.filter, hu] using ih hv
      | false => simpa [List.filter, hu, List.lookup, hne] using ih hv

theorem jsonObject_absent (members : List (String × JVal)) (k : String)
    (h : ∀ v, (k, v) ∈ members → isUndefined v = true) :
    k ∉ jsonKeys (jsonObject members) := by
  intro hk
  simp only [jsonObject, jsonKeys, List.mem_map, List.mem_filter, Prod.exists] at hk
  obtain ⟨a, b, ⟨hmem, hdef⟩, rfl⟩ := hk
  rw [h b hmem] at hdef
  simp at hdef

theorem tableAfter_get (T : Table) (table : String) (key : JVal)
    (answer : Except JsError (Option Item)) :
    tableAfter T [.get table key answer] = T := by
  rfl

/-- C18 (poll of an unknown id).  When the read for the requested job id
finds no item, the status checker makes that read and no other external
call, leaves the table as it is, and answers 404 with the body
`{"error":"Job not found"}`. -/
theorem poll_unknown_id (W : CheckerWorld) (event : CheckerEvent) (jobId : JVal)
    (hmethod : strictEqStr event.httpMethod "OPTIONS" = false)
    (hid : getProp event.pathParameters "jobId" = .ok jobId)
    (hnone : W.sendGet jobId = .ok none) :
    statusHandler W event =
      ⟨[.get "ai-jobs" jobId (.ok none)],
       .ok ⟨404, corsHeaders "GET,OPTIONS",
         some (.obj [("error", .str "Job not found")])⟩⟩ ∧
    ∀ T, tableAfter T (statusHandler W event).trace = T := by
  have h : statusHandler W event =
      ⟨[.get "ai-jobs" jobId (.ok none)],
       .ok ⟨404, corsHeaders "GET,OPTIONS",
         some (.obj [("error", .str "Job not found")])⟩⟩ := by
    simp [statusHandler, hmethod, hid, hnone, jsonObject, isUndefined]
  refine ⟨h, fun T => ?_⟩
  rw [h]
  rfl

theorem poll_unknown_id_witness :
    statusHandler (readerOf emptyTable) samplePoll =
      ⟨[.get "ai-jobs" (.str "J") (.ok none)],
       .ok ⟨404, corsHeaders "GET,OPTIONS",
         some (.obj [("error", .str "Job not found")])⟩⟩ ∧
    ∀ T, tableAfter T (statusHandler (readerOf emptyTable) samplePoll).trace = T :=
  poll_unknown_id (readerOf emptyTable) samplePoll (.str "J") rfl rfl rfl

/-- The six attributes a poll reports. -/
theorem poll_members_lookup (r : Item) (f : String)
    (hf : f ∈ ["jobId", "status", "result", "error", "createdAt", "completedAt"]) :
    List.lookup f
      [("jobId", itemAttr r "jobId"), ("status", itemAttr r "status"),
       ("result", itemAttr r "result"), ("error", itemAttr r "error"),
       ("createdAt", itemAttr r "createdAt"), ("completedAt", itemAttr r "completedAt")] =
      some (itemAttr r f) ∧
    ∀ v, (f, v) ∈
      [("jobId", itemAttr r "jobId"), ("status", itemAttr r "status"),
       ("result", itemAttr r "result"), ("error", itemAttr r "error"),
       ("createdAt", itemAttr r "createdAt"), ("completedAt", itemAttr r "completedAt")] →
      v = itemAttr r f := by
  simp only [List.mem_cons, List.mem_singleton, List.not_mem_nil, or_false] at hf
  rcases hf with rfl | rfl | rfl | rfl | rfl | rfl <;>
    exact ⟨by simp [List.lookup], by
      intro v hv
      simp only [List.mem_cons, Prod.mk.injEq, List.mem_singleton, List.not_mem_nil,
        or_false] at hv
      rcases hv with ⟨h, rfl⟩ | ⟨h, rfl⟩ | ⟨h, rfl⟩ | ⟨h, rfl⟩ | ⟨h, rfl⟩ | ⟨h, rfl⟩ <;>
        first
        | rfl
        | exact absurd h (by decide)⟩

/-- C19 (poll is a pure snapshot read).  When the read for the requested job
id finds the record `r`, whatever its status, the status checker makes that
read and no other external call, leaves the table as it is, and answers 200
with a body that has, for each of `jobId`, `status`, `result`, `error`,
`createdAt` and `completedAt`, the value `r` has for it, no member for one
that `r` lacks, and no other member. -/
theorem poll_snapshot (W : CheckerWorld) (event : CheckerEvent) (jobId : JVal) (r : Item)
    (hmethod : strictEqStr event.httpMethod "OPTIONS" = false)
    (hid : getProp event.pathParameters "jobId" = .ok jobId)
    (hsome : W.sendGet jobId = .ok (some r)) :
    ∃ doc,
      statusHandler W event =
        ⟨[.get "ai-jobs" jobId (.ok (some r))],
         .ok ⟨200, corsHeaders "GET,OPTIONS", some doc⟩⟩ ∧
      (∀ f ∈ ["jobId", "status", "result", "error", "createdAt", "completedAt"],
        (∀ v, r f = some v → v ≠ .undefined → jsonField doc f = some v) ∧
        (r f = none → f ∉ jsonKeys doc)) ∧
      (∀ f ∈ jsonKeys doc,
        f ∈ ["jobId", "status", "result", "error", "createdAt", "completedAt"]) ∧
      ∀ T, tableAfter T (statusHandler W event).trace = T := by
  have h : statusHandler W event =
      ⟨[.get "ai-jobs" jobId (.ok (some r))],
       .ok ⟨200, corsHeaders "GET,OPTIONS",
         some (jsonObject
           [("jobId", itemAttr r "jobId"), ("status", itemAttr r "status"),
            ("result", itemAttr r "result"), ("error", itemAttr r "error"),
            ("createdAt", itemAttr r "createdAt"),
            ("completedAt", itemAttr r "completedAt")])⟩⟩ := by
    simp [statusHandler, hmethod, hid, hsome]
  refine ⟨_, h, ?_, ?_, fun T => ?_⟩
  · intro f hf
    obtain ⟨hl, hu⟩ := poll_members_lookup r f hf
    constructor
    · intro v hv hne
      have hattr : itemAttr r f = v := by simp [itemAttr, hv]
      rw [hattr] at hl
      refine jsonObject_field _ f v hl ?_
      cases v <;> first | rfl | exact absurd rfl hne
    · intro hnone
      refine jsonObject_absent _ f ?_
      intro v hv
      rw [hu v hv]
      simp [itemAttr, hnone, isUndefined]
  · intro f hf
    simp only [jsonObject, jsonKeys, List.mem_map, List.mem_filter, Prod.exists] at hf
    obtain ⟨a, b, ⟨hmem, -⟩, rfl⟩ := hf
    simp only [List.mem_cons, Prod.mk.injEq, List.mem_singleton, List.not_mem_nil,
      or_false] at hmem
    rcases hmem with ⟨rfl, -⟩ | ⟨rfl, -⟩ | ⟨rfl, -⟩ | ⟨rfl, -⟩ | ⟨rfl, -⟩ | ⟨rfl, -⟩ <;> simp
  · rw [h]
    rfl

theorem poll_snapshot_witness :
    ∃ doc,
      statusHandler (readerOf completedTable) samplePoll =
        ⟨[.get "ai-jobs" (.str "J") (.ok (completedTable "J"))],
         .ok ⟨200, corsHeaders "GET,OPTIONS", some doc⟩⟩ ∧
      (∀ f ∈ ["jobId", "status", "result", "error", "createdAt", "completedAt"],
        (∀ v, itemOfList
            [("jobId", .str "J"), ("status", .str "COMPLETED"),
             ("userId", .str "u1"), ("prompt", .str "Should I rebalance?"),
             ("result", .str "Yes, consider..."),
             ("createdAt", .str "2026-11-06T10:00:00.000Z"),
             ("completedAt", .str "2026-11-06T10:00:05.000Z")] f = some v →
          v ≠ .undefined → jsonField doc f = some v) ∧
        (itemOfList
            [("jobId", .str "J"), ("status", .str "COMPLETED"),
             ("userId", .str "u1"), ("prompt", .str "Should I rebalance?"),
             ("result", .str "Yes, consider..."),
             ("createdAt", .str "2026-11-06T10:00:00.000Z"),
             ("completedAt", .str "2026-11-06T10:00:05.000Z")] f = none →
          f ∉ jsonKeys doc)) ∧
      (∀ f ∈ jsonKeys doc,
        f ∈ ["jobId", "status", "result", "error", "createdAt", "completedAt"]) ∧
      ∀ T, tableAfter T (statusHandler (readerOf completedTable) samplePoll).trace = T :=
  poll_snapshot (readerOf completedTable) samplePoll (.str "J") _ rfl rfl rfl

/-! ## A job from creation to its terminal state -/

/-- The table after a run of the orchestrator: unchanged when no update was
accepted, and otherwise changed by the one update that was. -/
theorem storeAfter_handler_cases (W : World) (event : JobEvent) (T : Table) :
    storeAfter T (handler W event).trace = T ∨
    (∃ v, storeAfter T (handler W event).trace =
      applyUpdate T (completedUpdate event.jobId v W.completedClock)) ∨
    (∃ m, storeAfter T (handler W event).trace =
      applyUpdate T (failedUpdate event.jobId m W.failedClock)) := by
  have hf := (getPortfolioFromDB_trace W event.userId).1
  have hl := fun h => (bedrockLoop_trace W MAX_LOOPS 0 (initialMessages W event h)).1
  have hfail : ∀ (A : List Effect) (m : String), updatesOf A = [] →
      storeAfter T (A ++ [.update (failedUpdate event.jobId m W.failedClock)
        (W.sendUpdate (failedUpdate event.jobId m W.failedClock))]) = T ∨
      storeAfter T (A ++ [.update (failedUpdate event.jobId m W.failedClock)
        (W.sendUpdate (failedUpdate event.jobId m W.failedClock))]) =
        applyUpdate T (failedUpdate event.jobId m W.failedClock) := by
    intro A m hA
    rw [storeAfter_append, storeAfter_no_update T A hA]
    rcases W.sendUpdate (failedUpdate event.jobId m W.failedClock) with e | u
    · exact Or.inl rfl
    · exact Or.inr rfl
  rcases handler_shape W event with ⟨e, -, h⟩ | ⟨holdings, e, -, -, h⟩ |
    ⟨holdings, v, -, -, h⟩
  · rw [h]
    rcases hfail _ e.message hf with h1 | h1
    · exact Or.inl h1
    · exact Or.inr (Or.inr ⟨_, h1⟩)
  · rw [h]
    have hA : updatesOf ((getPortfolioFromDB W event.userId).1 ++
        (bedrockLoop W MAX_LOOPS 0 (initialMessages W event holdings)).trace) = [] := by
      simp [updatesOf_append, hf, hl holdings]
    rcases hfail _ e.message hA with h1 | h1
    · exact Or.inl h1
    · exact Or.inr (Or.inr ⟨_, h1⟩)
  · have hA : updatesOf ((getPortfolioFromDB W event.userId).1 ++
        (bedrockLoop W MAX_LOOPS 0 (initialMessages W event holdings)).trace) = [] := by
      simp [updatesOf_append, hf, hl holdings]
    rcases hs : W.sendUpdate (completedUpdate event.jobId v W.completedClock) with e | u
    · rw [h, hs]
      dsimp only
      have hA2 : updatesOf (((getPortfolioFromDB W event.userId).1 ++
          (bedrockLoop W MAX_LOOPS 0 (initialMessages W event holdings)).trace) ++
          [.update (completedUpdate event.jobId v W.completedClock) (.error e)]) = [] →
          False := by
        simp [updatesOf_append, updatesOf, updateOf]
      have hT : storeAfter T (((getPortfolioFromDB W event.userId).1 ++
          (bedrockLoop W MAX_LOOPS 0 (initialMessages W event holdings)).trace) ++
          [.update (completedUpdate event.jobId v W.completedClock) (.error e)]) = T := by
        rw [storeAfter_append, storeAfter_no_update T _ hA]
        rfl
      rw [storeAfter_append, hT]
      rcases W.sendUpdate (failedUpdate event.jobId e.message W.failedClock) with e2 | u
      · exact Or.inl rfl
      · exact Or.inr (Or.inr ⟨_, rfl⟩)
    · rw [h, hs]
      dsimp only
      rw [storeAfter_append, storeAfter_no_update T _ hA]
      exact Or.inr (Or.inl ⟨_, rfl⟩)

theorem jsOr_defined (v : JVal) : ∃ w, jsOr v (.str "Unable to generate response") = w ∧
    isUndefined w = false := by
  refine ⟨_, rfl, ?_⟩
  unfold jsOr
  by_cases h : truthy v = true
  · rw [if_pos h]
    cases v <;> first | rfl | (simp [truthy] at h)
  · rw [if_neg h]
    rfl

theorem starter_table (W : StarterWorld) (event : StarterEvent) (cmd : PutCmd) (T : Table)
    (hput : ApiEffect.put cmd (.ok ()) ∈ (starterHandler W event).trace) :
    ∃ body, event.body = .ok body ∧ cmd = starterPut W body ∧
      tableAfter T (starterHandler W event).trace = applyPut T (starterPut W body) ∧
      applyPut T (starterPut W body) W.randomUUID =
        some (storedItem (starterPut W body).item) := by
  obtain ⟨body, hb, rfl, h | h | h⟩ := starter_after_put W event _ _ hput
  · obtain ⟨e, he, -⟩ := h
    cases he
  · obtain ⟨e, -, -, h⟩ := h
    refine ⟨body, hb, rfl, by rw [h]; rfl, ?_⟩
    simp [applyPut, starterPut, List.lookup]
  · obtain ⟨-, -, h⟩ := h
    refine ⟨body, hb, rfl, by rw [h]; rfl, ?_⟩
    simp [applyPut, starterPut, List.lookup]

theorem starter_item_attrs (W : StarterWorld) (body : JVal) :
    storedItem (starterPut W body).item "status" = some (.str "PROCESSING") ∧
    storedItem (starterPut W body).item "result" = none ∧
    storedItem (starterPut W body).item "error" = none ∧
    storedItem (starterPut W body).item "jobId" = some (.str W.randomUUID) := by
  simp [storedItem, starterPut, List.lookup]

/-- C12 (result/error exclusivity).  For a record the starter has written
and a run of the orchestrator for its job id: right after the write the
record has status `"PROCESSING"` and neither result nor error; after the run
it has a result and no error exactly when its status is `"COMPLETED"`, and
an error and no result exactly when its status is `"FAILED"`. -/
theorem result_error_exclusive (SW : StarterWorld) (sevent : StarterEvent) (cmd : PutCmd)
    (OW : World) (oevent : JobEvent) (T0 T1 T2 : Table)
    (hput : ApiEffect.put cmd (.ok ()) ∈ (starterHandler SW sevent).trace)
    (hjob : oevent.jobId = SW.randomUUID)
    (hT1 : T1 = tableAfter T0 (starterHandler SW sevent).trace)
    (hT2 : T2 = storeAfter T1 (handler OW oevent).trace) :
    (readAttr T1 SW.randomUUID "status" = some (.str "PROCESSING") ∧
      readAttr T1 SW.randomUUID "result" = none ∧
      readAttr T1 SW.randomUUID "error" = none) ∧
    (((readAttr T2 SW.randomUUID "result").isSome = true ∧
        readAttr T2 SW.randomUUID "error" = none) ↔
      readAttr T2 SW.randomUUID "status" = some (.str "COMPLETED")) ∧
    (((readAttr T2 SW.randomUUID "error").isSome = true ∧
        readAttr T2 SW.randomUUID "result" = none) ↔
      readAttr T2 SW.randomUUID "status" = some (.str "FAILED")) := by
  obtain ⟨body, -, -, ht, hrec⟩ := starter_table SW sevent cmd T0 hput
  obtain ⟨a1, a2, a3, -⟩ := starter_item_attrs SW body
  rw [ht] at hT1
  have hrec1 : T1 SW.randomUUID = some (storedItem (starterPut SW body).item) := by
    rw [hT1]
    exact hrec
  have r1 : readAttr T1 SW.randomUUID "status" = some (.str "PROCESSING") := by
    simp [readAttr, hrec1, a1]
  have r2 : readAttr T1 SW.randomUUID "result" = none := by
    simp [readAttr, hrec1, a2]
  have r3 : readAttr T1 SW.randomUUID "error" = none := by
    simp [readAttr, hrec1, a3]
  refine ⟨⟨r1, r2, r3⟩, ?_⟩
  rcases storeAfter_handler_cases OW oevent T1 with h | ⟨v, h⟩ | ⟨m, h⟩
  · rw [← hT2] at h
    rw [h, r1, r2, r3]
    simp
  · rw [← hT2, hjob] at h
    obtain ⟨s1, s2, -⟩ := applyUpdate_three T1 "ai-jobs" SW.randomUUID "status" "result"
      "completedAt" (.str "COMPLETED") (jsOr v (.str "Unable to generate response"))
      (.str OW.completedClock) (by decide) (by decide) (by decide)
    have e1 := s1 "status" (.str "COMPLETED") (List.mem_cons_self _ _)
    have e2 := s1 "result" _ (List.mem_cons_of_mem _ (List.mem_cons_self _ _))
    have e3 := s2 _ "error" hrec1 (by simp)
    have hc : applyUpdate T1 (completedUpdate SW.randomUUID v OW.completedClock) =
        applyUpdate T1 ⟨"ai-jobs", SW.randomUUID,
          [("status", .str "COMPLETED"),
           ("result", jsOr v (.str "Unable to generate response")),
           ("completedAt", .str OW.completedClock)]⟩ := rfl
    rw [h, hc, e1, e2, e3, a3]
    simp
  · rw [← hT2, hjob] at h
    obtain ⟨s1, s2, -⟩ := applyUpdate_three T1 "ai-jobs" SW.randomUUID "status" "error"
      "completedAt" (.str "FAILED") (.str m) (.str OW.failedClock)
      (by decide) (by decide) (by decide)
    have e1 := s1 "status" (.str "FAILED") (List.mem_cons_self _ _)
    have e2 := s1 "error" _ (List.mem_cons_of_mem _ (List.mem_cons_self _ _))
    have e3 := s2 _ "result" hrec1 (by simp)
    have hc : applyUpdate T1 (failedUpdate SW.randomUUID m OW.failedClock) =
        applyUpdate T1 ⟨"ai-jobs", SW.randomUUID,
          [("status", .str "FAILED"), ("error", .str m),
           ("completedAt", .str OW.failedClock)]⟩ := rfl
    rw [h, hc, e1, e2, e3, a2]
    simp

theorem result_error_exclusive_witness :
    (readAttr (tableAfter emptyTable (starterHandler sampleStarterWorld sampleSubmission).trace)
        sampleStarterWorld.randomUUID "status" = some (.str "PROCESSING") ∧
      readAttr (tableAfter emptyTable (starterHandler sampleStarterWorld sampleSubmission).trace)
        sampleStarterWorld.randomUUID "result" = none ∧
      readAttr (tableAfter emptyTable (starterHandler sampleStarterWorld sampleSubmission).trace)
        sampleStarterWorld.randomUUID "error" = none) ∧
    (((readAttr
          (storeAfter
            (tableAfter emptyTable (starterHandler sampleStarterWorld sampleSubmission).trace)
            (handler (sampleWorld (directModel "Yes, consider...")) sampleEvent).trace)
          sampleStarterWorld.randomUUID "result").isSome = true ∧
        readAttr
          (storeAfter
            (tableAfter emptyTable (starterHandler sampleStarterWorld sampleSubmission).trace)
            (handler (sampleWorld (directModel "Yes, consider...")) sampleEvent).trace)
          sampleStarterWorld.randomUUID "error" = none) ↔
      readAttr
        (storeAfter
          (tableAfter emptyTable (starterHandler sampleStarterWorld sampleSubmission).trace)
          (handler (sampleWorld (directModel "Yes, consider...")) sampleEvent).trace)
        sampleStarterWorld.randomUUID "status" = some (.str "COMPLETED")) ∧
    (((readAttr
          (storeAfter
            (tableAfter emptyTable (starterHandler sampleStarterWorld sampleSubmission).trace)
            (handler (sampleWorld (directModel "Yes, consider...")) sampleEvent).trace)
          sampleStarterWorld.randomUUID "error").isSome = true ∧
        readAttr
          (storeAfter
            (tableAfter emptyTable (starterHandler sampleStarterWorld sampleSubmission).trace)
            (handler (sampleWorld (directModel "Yes, consider...")) sampleEvent).trace)
          sampleStarterWorld.randomUUID "result" = none) ↔
      readAttr
        (storeAfter
          (tableAfter emptyTable (starterHandler sampleStarterWorld sampleSubmission).trace)
          (handler (sampleWorld (directModel "Yes, consider...")) sampleEvent).trace)
        sampleStarterWorld.randomUUID "status" = some (.str "FAILED")) :=
  result_error_exclusive sampleStarterWorld sampleSubmission _
    (sampleWorld (directModel "Yes, consider...")) sampleEvent emptyTable _ _
    (List.mem_cons_self _ _) rfl rfl rfl

/-- A dispatch found in the trace of the starter is the dispatch of
`starterInvoke` for the parsed body, made right after a successful write. -/
theorem starter_invoke_mem (W : StarterWorld) (event : StarterEvent) (icmd : InvokeCmd)
    (answer : Except JsError Unit)
    (hinv : ApiEffect.invoke icmd answer ∈ (starterHandler W event).trace) :
    ∃ body, event.body = .ok body ∧ icmd = starterInvoke W body ∧
      (starterHandler W event).trace =
        [.put (starterPut W body) (.ok ()), .invoke icmd answer] ∧
      (answer = .ok () → (starterHandler W event).response = acceptedResponse W) := by
  rcases starterHandler_shape W event with ⟨-, h⟩ | ⟨-, e, -, h⟩ | ⟨-, body, u, hb, -, h⟩
  · rw [h] at hinv
    simp at hinv
  · rw [h] at hinv
    simp at hinv
  · refine ⟨body, hb, ?_⟩
    rcases hp : W.putItem (starterPut W body) with e | a
    · rw [h, hp] at hinv
      simp at hinv
    · rw [hp] at h
      dsimp only at h
      rcases hi : W.invokeLambda (starterInvoke W body) with e | b
      · rw [hi] at h
        rw [h] at hinv ⊢
        simp only [List.mem_cons, reduceCtorEq, ApiEffect.invoke.injEq, List.mem_singleton,
          false_or, List.not_mem_nil, or_false] at hinv
        obtain ⟨rfl, rfl⟩ := hinv
        exact ⟨rfl, rfl, fun h0 => by cases h0⟩
      · rw [hi] at h
        rw [h] at hinv ⊢
        simp only [List.mem_cons, reduceCtorEq, ApiEffect.invoke.injEq, List.mem_singleton,
          false_or, List.not_mem_nil, or_false] at hinv
        obtain ⟨rfl, rfl⟩ := hinv
        exact ⟨rfl, rfl, fun _ => rfl⟩

theorem eventOfPayload_jobId (W : StarterWorld) (body : JVal) (ev : JobEvent)
    (h : eventOfPayload (starterInvoke W body).payload = some ev) :
    ev.jobId = W.randomUUID := by
  have hj : jsonField (starterInvoke W body).payload "jobId" = some (.str W.randomUUID) := by
    simp [starterInvoke, jsonObject, jsonField, isUndefined, List.lookup]
  unfold eventOfPayload at h
  rw [hj] at h
  dsimp only at h
  split at h
  · rename_i jobId prompts responses h1 h2 h3
    cases h1
    cases h
    rfl
  · cases h

theorem statusHandler_found (W : CheckerWorld) (event : CheckerEvent) (jobId : JVal)
    (r : Item)
    (hmethod : strictEqStr event.httpMethod "OPTIONS" = false)
    (hid : getProp event.pathParameters "jobId" = .ok jobId)
    (hsome : W.sendGet jobId = .ok (some r)) :
    statusHandler W event =
      ⟨[.get "ai-jobs" jobId (.ok (some r))],
       .ok ⟨200, corsHeaders "GET,OPTIONS",
         some (jsonObject
           [("jobId", itemAttr r "jobId"), ("status", itemAttr r "status"),
            ("result", itemAttr r "result"), ("error", itemAttr r "error"),
            ("createdAt", itemAttr r "createdAt"),
            ("completedAt", itemAttr r "completedAt")])⟩⟩ := by
  simp [statusHandler, hmethod, hid, hsome]

theorem poll_reports (r : Item) (f : String) (v : JVal)
    (hf : f ∈ ["jobId", "status", "result", "error", "createdAt", "completedAt"])
    (hv : r f = some v) (hdef : isUndefined v = false) :
    jsonField (jsonObject
      [("jobId", itemAttr r "jobId"), ("status", itemAttr r "status"),
       ("result", itemAttr r "result"), ("error", itemAttr r "error"),
       ("createdAt", itemAttr r "createdAt"),
       ("completedAt", itemAttr r "completedAt")]) f = some v := by
  obtain ⟨hl, -⟩ := poll_members_lookup r f hf
  have hattr : itemAttr r f = v := by simp [itemAttr, hv]
  rw [hattr] at hl
  exact jsonObject_field _ f v hl hdef

theorem poll_omits (r : Item) (f : String)
    (hf : f ∈ ["jobId", "status", "result", "error", "createdAt", "completedAt"])
    (hnone : r f = none) :
    f ∉ jsonKeys (jsonObject
      [("jobId", itemAttr r "jobId"), ("status", itemAttr r "status"),
       ("result", itemAttr r "result"), ("error", itemAttr r "error"),
       ("createdAt", itemAttr r "createdAt"),
       ("completedAt", itemAttr r "completedAt")]) := by
  obtain ⟨-, hu⟩ := poll_members_lookup r f hf
  refine jsonObject_absent _ f ?_
  intro v hv
  rw [hu v hv]
  simp [itemAttr, hnone, isUndefined]

/-- The run of the orchestrator whose first model call is answered by a
final response with a non-empty first text: the fetch, that one model call
and the accepted `COMPLETED` update carrying the text. -/
theorem handler_direct_answer (W : World) (event : JobEvent)
    (holdings body stopReason content block : JVal) (t : String)
    (hfetch : (getPortfolioFromDB W event.userId).2 = .ok holdings)
    (hmodel : W.invokeModel 0 (initialMessages W event holdings) = .ok body)
    (hstop : getProp body "stop_reason" = .ok stopReason)
    (hne : strictEqStr stopReason "tool_use" = false)
    (hcontent : getProp body "content" = .ok content)
    (hfind : contentFind content "text" = .ok block)
    (htext : getProp block "text" = .ok (.str t))
    (ht : t ≠ "")
    (hupdate : W.sendUpdate (completedUpdate event.jobId (.str t) W.completedClock) = .ok ())
    (T : Table) :
    storeAfter T (handler W event).trace =
      applyUpdate T ⟨"ai-jobs", event.jobId,
        [("status", .str "COMPLETED"), ("result", .str t),
         ("completedAt", .str W.completedClock)]⟩ ∧
    (handler W event).outcome = .ok () := by
  have hloop : bedrockLoop W MAX_LOOPS 0 (initialMessages W event holdings) =
      ⟨[.modelCall 0 (initialMessages W event holdings) (.ok body)], .ok (.str t)⟩ :=
    bedrockLoop_final W 4 0 _ body stopReason content block (.str t) hmodel hstop hne
      hcontent hfind htext
  have hcmd : completedUpdate event.jobId (.str t) W.completedClock =
      ⟨"ai-jobs", event.jobId,
        [("status", .str "COMPLETED"), ("result", .str t),
         ("completedAt", .str W.completedClock)]⟩ := by
    simp [completedUpdate, jsOr, truthy, ht]
  have hs := handler_settle W event holdings hfetch
  rw [hloop] at hs
  have hset : settle W event.jobId (.ok (.str t)) =
      ⟨[.update (completedUpdate event.jobId (.str t) W.completedClock) (.ok ())], .ok ()⟩ := by
    simp only [settle, hupdate]
  rw [hset] at hs
  have hf := (getPortfolioFromDB_trace W event.userId).1
  rw [hs]
  refine ⟨?_, rfl⟩
  dsimp only
  rw [storeAfter_append, storeAfter_no_update T _ (by
    simp [updatesOf_append, hf]
    simp [updatesOf, updateOf]), ← hcmd]
  rfl

/-- C20 (end-to-end success).  A submission is accepted and its run
dispatched; the run is made on the dispatched payload, its portfolio fetch
returns holdings, the model answers the first call with a final response
whose first text is the non-empty `t`, and the job store accepts the update.
Then the submission was answered 202 with the job id, and a poll of that job
id on the resulting table answers 200 with status `"COMPLETED"`, result `t`
and no error. -/
theorem end_to_end_success (SW : StarterWorld) (sevent : StarterEvent) (icmd : InvokeCmd)
    (OW : World) (oevent : JobEvent) (holdings body stopReason content block : JVal)
    (t : String) (CW : CheckerWorld) (cevent : CheckerEvent) (T0 T1 T2 : Table)
    (hinv : ApiEffect.invoke icmd (.ok ()) ∈ (starterHandler SW sevent).trace)
    (hevent : eventOfPayload icmd.payload = some oevent)
    (hfetch : (getPortfolioFromDB OW oevent.userId).2 = .ok holdings)
    (hmodel : OW.invokeModel 0 (initialMessages OW oevent holdings) = .ok body)
    (hstop : getProp body "stop_reason" = .ok stopReason)
    (hne : strictEqStr stopReason "tool_use" = false)
    (hcontent : getProp body "content" = .ok content)
    (hfind : contentFind content "text" = .ok block)
    (htext : getProp block "text" = .ok (.str t))
    (ht : t ≠ "")
    (hupdate :
      OW.sendUpdate (completedUpdate oevent.jobId (.str t) OW.completedClock) = .ok ())
    (hT1 : T1 = tableAfter T0 (starterHandler SW sevent).trace)
    (hT2 : T2 = storeAfter T1 (handler OW oevent).trace)
    (hmethod : strictEqStr cevent.httpMethod "OPTIONS" = false)
    (hid : getProp cevent.pathParameters "jobId" = .ok (.str SW.randomUUID))
    (hread : CW.sendGet (.str SW.randomUUID) = .ok (T2 SW.randomUUID)) :
    (starterHandler SW sevent).response.statusCode = 202 ∧
    (∃ sdoc, (starterHandler SW sevent).response.body = some sdoc ∧
      jsonField sdoc "jobId" = some (.str SW.randomUUID) ∧
      jsonField sdoc "status" = some (.str "PROCESSING")) ∧
    ∃ doc,
      (statusHandler CW cevent).outcome =
        .ok ⟨200, corsHeaders "GET,OPTIONS", some doc⟩ ∧
      jsonField doc "jobId" = some (.str SW.randomUUID) ∧
      jsonField doc "status" = some (.str "COMPLETED") ∧
      jsonField doc "result" = some (.str t) ∧
      "error" ∉ jsonKeys doc := by
  obtain ⟨sbody, -, rfl, htrace, hresp⟩ := starter_invoke_mem SW sevent icmd _ hinv
  have hjob := eventOfPayload_jobId SW sbody oevent hevent
  have hputmem : ApiEffect.put (starterPut SW sbody) (.ok ()) ∈
      (starterHandler SW sevent).trace := by
    rw [htrace]
    exact List.mem_cons_self _ _
  obtain ⟨sbody2, -, hcmd, htable, hrec⟩ := starter_table SW sevent _ T0 hputmem
  rw [← hcmd] at htable hrec
  obtain ⟨-, -, a3, a4⟩ := starter_item_attrs SW sbody
  have hrec1 : T1 SW.randomUUID = some (storedItem (starterPut SW sbody).item) := by
    rw [hT1, htable]
    exact hrec
  obtain ⟨hstore, -⟩ := handler_direct_answer OW oevent holdings body stopReason content
    block t hfetch hmodel hstop hne hcontent hfind htext ht hupdate T1
  rw [← hT2, hjob] at hstore
  obtain ⟨s1, s2, -⟩ := applyUpdate_three T1 "ai-jobs" SW.randomUUID "status" "result"
    "completedAt" (.str "COMPLETED") (.str t) (.str OW.completedClock)
    (by decide) (by decide) (by decide)
  rw [← hstore] at s1 s2
  have e1 := s1 "status" (.str "COMPLETED") (List.mem_cons_self _ _)
  have e2 := s1 "result" (.str t) (List.mem_cons_of_mem _ (List.mem_cons_self _ _))
  have e3 := s2 _ "error" hrec1 (by simp)
  have e4 := s2 _ "jobId" hrec1 (by simp)
  rw [a3] at e3
  rw [a4] at e4
  obtain ⟨item2, hitem2⟩ : ∃ item2, T2 SW.randomUUID = some item2 := by
    rw [hstore]
    simp [applyUpdate]
  simp only [readAttr, hitem2, Option.some_bind] at e1 e2 e3 e4
  rw [hitem2] at hread
  have hrun := statusHandler_found CW cevent _ item2 hmethod hid hread
  refine ⟨?_, ?_, _, by rw [hrun], ?_, ?_, ?_, ?_⟩
  · rw [hresp rfl]
    rfl
  · rw [hresp rfl]
    refine ⟨_, rfl, ?_, ?_⟩ <;>
      simp [jsonObject, jsonField, isUndefined, List.lookup]
  · exact poll_reports item2 "jobId" _ (by simp) e4 rfl
  · exact poll_reports item2 "status" _ (by simp) e1 rfl
  · exact poll_reports item2 "result" _ (by simp) e2 rfl
  · exact poll_omits item2 "error" (by simp) e3

theorem end_to_end_success_witness :
    (starterHandler sampleStarterWorld sampleSubmission).response.statusCode = 202 ∧
    (∃ sdoc, (starterHandler sampleStarterWorld sampleSubmission).response.body = some sdoc ∧
      jsonField sdoc "jobId" = some (.str sampleStarterWorld.randomUUID) ∧
      jsonField sdoc "status" = some (.str "PROCESSING")) ∧
    ∃ doc,
      (statusHandler (readerOf scenarioTable) samplePoll).outcome =
        .ok ⟨200, corsHeaders "GET,OPTIONS", some doc⟩ ∧
      jsonField doc "jobId" = some (.str sampleStarterWorld.randomUUID) ∧
      jsonField doc "status" = some (.str "COMPLETED") ∧
      jsonField doc "result" = some (.str "Yes, consider...") ∧
      "error" ∉ jsonKeys doc :=
  end_to_end_success sampleStarterWorld sampleSubmission
    (starterInvoke sampleStarterWorld
      (.obj [("userId", .str "u1"), ("prompt", .str "Should I rebalance?")]))
    (sampleWorld (directModel "Yes, consider...")) dispatchedEvent
    (.arr [.obj [("symbol", .str "AAPL"), ("quantity", .num 10)]])
    (modelResponse "end_turn" [textBlock "Yes, consider..."]) (.str "end_turn")
    (.arr [textBlock "Yes, consider..."]) (textBlock "Yes, consider...") "Yes, consider..."
    (readerOf scenarioTable) samplePoll emptyTable
    (tableAfter emptyTable (starterHandler sampleStarterWorld sampleSubmission).trace)
    scenarioTable
    (List.mem_cons_of_mem _ (List.mem_cons_self _ _)) rfl rfl rfl rfl rfl rfl rfl rfl
    (by decide) rfl rfl rfl rfl rfl rfl

/-! ## The portfolio context without identity -/

theorem handler_no_query (W : World) (event : JobEvent)
    (hfetch : (getPortfolioFromDB W event.userId).1 = []) (u : JVal)
    (a : Except JsError JVal) :
    Effect.queryHoldings u a ∉ (handler W event).trace := by
  have hloop : ∀ h, Effect.queryHoldings u a ∉
      (bedrockLoop W MAX_LOOPS 0 (initialMessages W event h)).trace := by
    intro h hx
    rcases bedrockLoop_kinds W MAX_LOOPS 0 _ _ hx with ⟨j, m, b, h2⟩ | ⟨s, b, h2⟩ <;>
      cases h2
  rcases handler_shape W event with ⟨e, -, h⟩ | ⟨holdings, e, -, -, h⟩ |
    ⟨holdings, v, -, -, h⟩
  · rw [h, hfetch]
    simp
  · rw [h, hfetch]
    simp [hloop holdings]
  · rw [h, hfetch]
    rcases W.sendUpdate (completedUpdate event.jobId v W.completedClock) with e2 | b <;>
      simp [hloop holdings]

/-- C21, refuted at a run without user id: the context `getPortfolioFromDB`
returns is a one-element array, neither empty nor absent. -/
theorem anonymous_portfolio_not_empty :
    truthy anonymousEvent.userId = false ∧
    (getPortfolioFromDB (sampleWorld (directModel "Yes, consider...")) anonymousEvent.userId).2 =
      .ok (.arr [.str "this user is not signed in."]) ∧
    JVal.arr [.str "this user is not signed in."] ≠ .arr [] ∧
    JVal.arr [.str "this user is not signed in."] ≠ .undefined ∧
    JVal.arr [.str "this user is not signed in."] ≠ .null := by
  refine ⟨rfl, rfl, ?_, ?_, ?_⟩ <;> intro h <;> cases h

/-- C21 as amended.  For every run whose user id is absent or empty (falsy),
`getPortfolioFromDB` does not query the portfolio store and returns the fixed
array `["this user is not signed in."]`, which holds no holdings entry (its
only element is a string); the run makes no portfolio query and its first
model call is made on the conversation built from that array. -/
theorem anonymous_portfolio_sentinel (W : World) (event : JobEvent)
    (huser : truthy event.userId = false) :
    getPortfolioFromDB W event.userId =
      ([], .ok (.arr [.str "this user is not signed in."])) ∧
    (∀ u a, Effect.queryHoldings u a ∉ (handler W event).trace) ∧
    (∀ x ∈ [JVal.str "this user is not signed in."], ∀ fields, x ≠ .obj fields) ∧
    ∃ rest, (handler W event).trace =
      .modelCall 0 (initialMessages W event (.arr [.str "this user is not signed in."]))
        (W.invokeModel 0
          (initialMessages W event (.arr [.str "this user is not signed in."]))) :: rest := by
  have hg : getPortfolioFromDB W event.userId =
      ([], .ok (.arr [.str "this user is not signed in."])) := by
    simp [getPortfolioFromDB, huser]
  refine ⟨hg, ?_, ?_, ?_⟩
  · intro u a
    exact handler_no_query W event (by rw [hg]) u a
  · intro x hx fields h
    rw [List.mem_singleton.1 hx] at h
    cases h
  · obtain ⟨rest, h⟩ := handler_first_call W event _ (by rw [hg])
    rw [hg] at h
    exact ⟨rest, h⟩

theorem anonymous_portfolio_sentinel_witness :
    getPortfolioFromDB (sampleWorld (directModel "Yes, consider...")) anonymousEvent.userId =
      ([], .ok (.arr [.str "this user is not signed in."])) ∧
    (∀ u a, Effect.queryHoldings u a ∉
      (handler (sampleWorld (directModel "Yes, consider...")) anonymousEvent).trace) ∧
    (∀ x ∈ [JVal.str "this user is not signed in."], ∀ fields, x ≠ .obj fields) ∧
    ∃ rest, (handler (sampleWorld (directModel "Yes, consider...")) anonymousEvent).trace =
      .modelCall 0
        (initialMessages (sampleWorld (directModel "Yes, consider...")) anonymousEvent
          (.arr [.str "this user is not signed in."]))
        ((sampleWorld (directModel "Yes, consider...")).invokeModel 0
          (initialMessages (sampleWorld (directModel "Yes, consider...")) anonymousEvent
            (.arr [.str "this user is not signed in."]))) :: rest :=
  anonymous_portfolio_sentinel (sampleWorld (directModel "Yes, consider...")) anonymousEvent rfl

/-! ## A tool request without a tool block -/

theorem bedrockLoop_malformed (W : World) (n k : Nat) (msgs : List Message)
    (body content : JVal)
    (hm : W.invokeModel k msgs = .ok body)
    (hstop : getProp body "stop_reason" = .ok (.str "tool_use"))
    (hcontent : getProp body "content" = .ok content)
    (hfind : contentFind content "tool_use" = .ok .undefined) :
    bedrockLoop W (n + 1) k msgs =
      ⟨[.modelCall k msgs (.ok body)], .error (typeErrorRead "undefined" "name")⟩ := by
  have hname : getProp .undefined "name" = .error (typeErrorRead "undefined" "name") := rfl
  simp [bedrockLoop, loopIteration, afterModel, hm, hstop, hcontent, hfind, strictEqStr,
    hname]

/-- C28 (malformed tool request).  When a model call of a run is answered by
a response whose `stop_reason` is `"tool_use"` and whose content has no block
of type `tool_use`, the read of the missing block's `name` throws: that model
call is the last step of the loop (no price helper is called, no message is
appended, no further model call is made) and the only update of the run
follows it directly, with status `FAILED` and the message of that
`TypeError`; once the update has succeeded the handler rethrows the error. -/
theorem malformed_tool_request_fails (W : World) (event : JobEvent) (k : Nat)
    (msgs : List Message) (body content : JVal)
    (hcall : Effect.modelCall k msgs (.ok body) ∈ (handler W event).trace)
    (hstop : getProp body "stop_reason" = .ok (.str "tool_use"))
    (hcontent : getProp body "content" = .ok content)
    (hfind : contentFind content "tool_use" = .ok .undefined) :
    ∃ before,
      (handler W event).trace =
        before ++ [.modelCall k msgs (.ok body),
          .update ⟨"ai-jobs", event.jobId,
              [("status", .str "FAILED"),
               ("error", .str "Cannot read properties of undefined (reading 'name')"),
               ("completedAt", .str W.failedClock)]⟩
            (W.sendUpdate (failedUpdate event.jobId
              (typeErrorRead "undefined" "name").message W.failedClock))] ∧
      modelCallCount before = k ∧ updatesOf before = [] ∧
      modelCallCount (handler W event).trace = k + 1 ∧
      (W.sendUpdate (failedUpdate event.jobId
          (typeErrorRead "undefined" "name").message W.failedClock) = .ok () →
        (handler W event).outcome = .error (typeErrorRead "undefined" "name")) := by
  obtain ⟨before, n2, h1, h2, hup, hcount, -, hans⟩ := handler_suffix W event k msgs _ hcall
  have hloop := bedrockLoop_malformed W n2 k msgs body content hans.symm hstop hcontent hfind
  rw [hloop] at h1 h2
  refine ⟨before, ?_, hcount, hup, ?_, ?_⟩
  · rw [h1]
    simp only [settle, List.append_assoc, List.singleton_append]
    rfl
  · rw [h1]
    simp only [settle, modelCallCount_append, hcount]
    simp [modelCallCount, isModelCall]
  · intro hok
    rw [h2]
    simp only [settle, hok]

theorem malformed_tool_request_fails_witness :
    ∃ before,
      (handler (sampleWorld malformedModel) sampleEvent).trace =
        before ++ [.modelCall 0
            (initialMessages (sampleWorld malformedModel) sampleEvent
              (.arr [.obj [("symbol", .str "AAPL"), ("quantity", .num 10)]]))
            (.ok (modelResponse "tool_use" [textBlock "Let me look that up."])),
          .update ⟨"ai-jobs", sampleEvent.jobId,
              [("status", .str "FAILED"),
               ("error", .str "Cannot read properties of undefined (reading 'name')"),
               ("completedAt", .str (sampleWorld malformedModel).failedClock)]⟩
            ((sampleWorld malformedModel).sendUpdate (failedUpdate sampleEvent.jobId
              (typeErrorRead "undefined" "name").message
              (sampleWorld malformedModel).failedClock))] ∧
      modelCallCount before = 0 ∧ updatesOf before = [] ∧
      modelCallCount (handler (sampleWorld malformedModel) sampleEvent).trace = 0 + 1 ∧
      ((sampleWorld malformedModel).sendUpdate (failedUpdate sampleEvent.jobId
          (typeErrorRead "undefined" "name").message
          (sampleWorld malformedModel).failedClock) = .ok () →
        (handler (sampleWorld malformedModel) sampleEvent).outcome =
          .error (typeErrorRead "undefined" "name")) :=
  malformed_tool_request_fails (sampleWorld malformedModel) sampleEvent 0 _ _
    (.arr [textBlock "Let me look that up."])
    (by
      obtain ⟨rest, h⟩ := handler_first_call (sampleWorld malformedModel) sampleEvent
        (.arr [.obj [("symbol", .str "AAPL"), ("quantity", .num 10)]]) rfl
      rw [h]
      exact List.mem_append_right _ (List.mem_cons_self _ _))
    rfl rfl rfl

/-! ## Several tool blocks in one response -/

theorem findByType_first (pre post : List JVal) (first : JVal) (ty : String)
    (hpre : ∀ b ∈ pre, ∃ t, getProp b "type" = .ok t ∧ strictEqStr t ty = false)
    (hfirst : ∃ t, getProp first "type" = .ok t ∧ strictEqStr t ty = true) :
    findByType (pre ++ first :: post) ty = .ok first := by
  induction pre with
  | nil =>
    obtain ⟨t, h1, h2⟩ := hfirst
    simp [findByType, h1, h2]
  | cons b pre ih =>
    obtain ⟨t, h1, h2⟩ := hpre b (List.mem_cons_self _ _)
    have := ih (fun x hx => hpre x (List.mem_cons_of_mem _ hx))
    simp [findByType, h1, h2, this]

/-- C23 (only the first tool call is honored).  When a model call of a run is
answered with `stop_reason` `"tool_use"` and a content in which `first` is
the first block of type `tool_use` (whatever blocks follow it), the pass
dispatches on the name and input of `first` alone: it makes no price-helper
call or exactly one, on the symbols of `first`; and when that dispatch ends
with result `r`, the conversation of the next model call is extended by the
assistant message and one user message holding exactly one `tool_result`
block, whose `tool_use_id` is the id of `first`. -/
theorem first_tool_call_honored (W : World) (event : JobEvent) (k : Nat)
    (msgs : List Message) (body first name toolUseId symbols r : JVal)
    (pre post : List JVal) (tools : List Effect)
    (hcall : Effect.modelCall k msgs (.ok body) ∈ (handler W event).trace)
    (hstop : getProp body "stop_reason" = .ok (.str "tool_use"))
    (hcontent : getProp body "content" = .ok (.arr (pre ++ first :: post)))
    (hpre : ∀ b ∈ pre, ∃ t, getProp b "type" = .ok t ∧ strictEqStr t "tool_use" = false)
    (htype : getProp first "type" = .ok (.str "tool_use"))
    (hname : getProp first "name" = .ok name)
    (hid : getProp first "id" = .ok toolUseId)
    (hinput : ∃ input, getProp first "input" = .ok input ∧
      getProp input "symbols" = .ok symbols)
    (hd : toolDispatch W first name = (tools, .ok r)) :
    (tools = [] ∨ tools = [.dailyPrices symbols (.ok r)]) ∧
    ∃ before after,
      (handler W event).trace =
        before ++ .modelCall k msgs (.ok body) :: tools ++ after ∧
      modelCallCount before = k ∧
      (k + 1 < MAX_LOOPS →
        ∃ later, after =
          .modelCall (k + 1)
            (msgs ++ [⟨"assistant", .arr (pre ++ first :: post)⟩,
              ⟨"user", .arr [.obj [("type", .str "tool_result"),
                                   ("tool_use_id", toolUseId),
                                   ("content", jsonStringify W r)]]⟩])
            (W.invokeModel (k + 1)
              (msgs ++ [⟨"assistant", .arr (pre ++ first :: post)⟩,
                ⟨"user", .arr [.obj [("type", .str "tool_result"),
                                     ("tool_use_id", toolUseId),
                                     ("content", jsonStringify W r)]]⟩])) :: later) ∧
      (k + 1 = MAX_LOOPS → after = (settle W event.jobId (.ok .undefined)).trace) := by
  have hfind : contentFind (.arr (pre ++ first :: post)) "tool_use" = .ok first :=
    findByType_first pre post first "tool_use" hpre ⟨_, htype, rfl⟩
  have hreq : ToolRequest body (.arr (pre ++ first :: post)) first name toolUseId symbols :=
    ⟨hstop, hcontent, hfind, hname, hid, hinput⟩
  have htools : tools = [] ∨ tools = [.dailyPrices symbols (.ok r)] := by
    obtain ⟨input, hin, hsym⟩ := hinput
    cases hn : strictEqStr name "get_stock_prices" with
    | false =>
      rw [toolDispatch_other W first name hn] at hd
      cases hd
      exact Or.inl rfl
    | true =>
      simp only [toolDispatch, hn, if_true, hin, hsym, Prod.mk.injEq] at hd
      obtain ⟨h1, h2⟩ := hd
      right
      rw [← h1, h2]
  refine ⟨htools, ?_⟩
  obtain ⟨before, n2, h1, -, -, hcount, hk, hans⟩ := handler_suffix W event k msgs _ hcall
  have hloop := bedrockLoop_again W n2 k msgs body _ first name toolUseId symbols
    hans.symm hreq tools r hd
  have hrest := after_tool_pass W event.jobId k n2
    (msgs ++ toolTurn W (.arr (pre ++ first :: post)) toolUseId r) hk
  refine ⟨before,
    (bedrockLoop W n2 (k + 1)
      (msgs ++ toolTurn W (.arr (pre ++ first :: post)) toolUseId r)).trace ++
    (settle W event.jobId
      (bedrockLoop W n2 (k + 1)
        (msgs ++ toolTurn W (.arr (pre ++ first :: post)) toolUseId r)).result).trace,
    ?_, hcount, hrest.1, fun h => (hrest.2 h).1⟩
  rw [h1, hloop]
  simp

theorem first_tool_call_honored_witness :
    ([Effect.dailyPrices (.arr [.str "AAPL"]) (.ok (.arr []))] = [] ∨
      [Effect.dailyPrices (.arr [.str "AAPL"]) (.ok (.arr []))] =
        [.dailyPrices (.arr [.str "AAPL"]) (.ok (.arr []))]) ∧
    ∃ before after,
      (handler (sampleWorld twoToolsModel) sampleEvent).trace =
        before ++ .modelCall 0
            (initialMessages (sampleWorld twoToolsModel) sampleEvent
              (.arr [.obj [("symbol", .str "AAPL"), ("quantity", .num 10)]]))
            (.ok (modelResponse "tool_use"
              [toolUseBlock "toolu_1" "get_stock_prices" ["AAPL"],
               toolUseBlock "toolu_2" "get_stock_prices" ["MSFT"]])) ::
          [Effect.dailyPrices (.arr [.str "AAPL"]) (.ok (.arr []))] ++ after ∧
      modelCallCount before = 0 ∧
      (0 + 1 < MAX_LOOPS →
        ∃ later, after =
          .modelCall (0 + 1)
            (initialMessages (sampleWorld twoToolsModel) sampleEvent
                (.arr [.obj [("symbol", .str "AAPL"), ("quantity", .num 10)]]) ++
              [⟨"assistant",
                .arr ([] ++ toolUseBlock "toolu_1" "get_stock_prices" ["AAPL"] ::
                  [toolUseBlock "toolu_2" "get_stock_prices" ["MSFT"]])⟩,
               ⟨"user", .arr [.obj [("type", .str "tool_result"),
                                    ("tool_use_id", .str "toolu_1"),
                                    ("content",
                                     jsonStringify (sampleWorld twoToolsModel) (.arr []))]]⟩])
            ((sampleWorld twoToolsModel).invokeModel (0 + 1)
              (initialMessages (sampleWorld twoToolsModel) sampleEvent
                  (.arr [.obj [("symbol", .str "AAPL"), ("quantity", .num 10)]]) ++
                [⟨"assistant",
                  .arr ([] ++ toolUseBlock "toolu_1" "get_stock_prices" ["AAPL"] ::
                    [toolUseBlock "toolu_2" "get_stock_prices" ["MSFT"]])⟩,
                 ⟨"user", .arr [.obj [("type", .str "tool_result"),
                                      ("tool_use_id", .str "toolu_1"),
                                      ("content",
                                       jsonStringify (sampleWorld twoToolsModel)
                                         (.arr []))]]⟩])) :: later) ∧
      (0 + 1 = MAX_LOOPS →
        after = (settle (sampleWorld twoToolsModel) sampleEvent.jobId (.ok .undefined)).trace) :=
  first_tool_call_honored (sampleWorld twoToolsModel) sampleEvent 0 _ _
    (toolUseBlock "toolu_1" "get_stock_prices" ["AAPL"]) (.str "get_stock_prices")
    (.str "toolu_1") (.arr [.str "AAPL"]) (.arr [])
    [] [toolUseBlock "toolu_2" "get_stock_prices" ["MSFT"]]
    [.dailyPrices (.arr [.str "AAPL"]) (.ok (.arr []))]
    (by
      obtain ⟨rest, h⟩ := handler_first_call (sampleWorld twoToolsModel) sampleEvent
        (.arr [.obj [("symbol", .str "AAPL"), ("quantity", .num 10)]]) rfl
      rw [h]
      exact List.mem_append_right _ (List.mem_cons_self _ _))
    rfl rfl (by simp) rfl rfl rfl ⟨_, rfl, rfl⟩ rfl

/-! ## Frame of the terminal write -/

/-- C24 (frame of the terminal write).  For every table that holds a record
for the job and every run for it, whatever the store answers: every other
record is unchanged; in the job's record every attribute other than
`status`, `completedAt`, `result` and `error` is unchanged, in particular
`jobId`, `userId`, `prompt`, `prompts`, `responses`, `createdAt` and `ttl`;
and at most one of `result` and `error` is changed. -/
theorem terminal_write_frame (W : World) (event : JobEvent) (T : Table) (item : Item)
    (hrec : T event.jobId = some item) :
    (∀ key, key ≠ event.jobId → storeAfter T (handler W event).trace key = T key) ∧
    (∀ a, a ∉ ["status", "completedAt", "result", "error"] →
      readAttr (storeAfter T (handler W event).trace) event.jobId a = item a) ∧
    (∀ a ∈ ["jobId", "userId", "prompt", "prompts", "responses", "createdAt", "ttl"],
      readAttr (storeAfter T (handler W event).trace) event.jobId a = item a) ∧
    (readAttr (storeAfter T (handler W event).trace) event.jobId "result" = item "result" ∨
      readAttr (storeAfter T (handler W event).trace) event.jobId "error" = item "error") := by
  have hsame : ∀ a, readAttr T event.jobId a = item a := by
    intro a
    simp [readAttr, hrec]
  have hmain :
      (∀ key, key ≠ event.jobId → storeAfter T (handler W event).trace key = T key) ∧
      (∀ a, a ∉ ["status", "completedAt", "result", "error"] →
        readAttr (storeAfter T (handler W event).trace) event.jobId a = item a) ∧
      (readAttr (storeAfter T (handler W event).trace) event.jobId "result" =
          item "result" ∨
        readAttr (storeAfter T (handler W event).trace) event.jobId "error" =
          item "error") := by
    rcases storeAfter_handler_cases W event T with h | ⟨v, h⟩ | ⟨m, h⟩
    · rw [h]
      exact ⟨fun _ _ => rfl, fun a _ => hsame a, Or.inl (hsame _)⟩
    · obtain ⟨-, s2, s3⟩ := applyUpdate_three T "ai-jobs" event.jobId "status" "result"
        "completedAt" (.str "COMPLETED") (jsOr v (.str "Unable to generate response"))
        (.str W.completedClock) (by decide) (by decide) (by decide)
      have hc : applyUpdate T (completedUpdate event.jobId v W.completedClock) =
          applyUpdate T ⟨"ai-jobs", event.jobId,
            [("status", .str "COMPLETED"),
             ("result", jsOr v (.str "Unable to generate response")),
             ("completedAt", .str W.completedClock)]⟩ := rfl
      rw [h, hc]
      refine ⟨s3, ?_, Or.inr (s2 item "error" hrec (by simp))⟩
      intro a ha
      refine s2 item a hrec ?_
      intro x hx
      simp only [List.mem_cons, Prod.mk.injEq, List.mem_singleton, List.not_mem_nil,
        or_false] at hx ha
      rcases hx with ⟨rfl, -⟩ | ⟨rfl, -⟩ | ⟨rfl, -⟩ <;> simp at ha
    · obtain ⟨-, s2, s3⟩ := applyUpdate_three T "ai-jobs" event.jobId "status" "error"
        "completedAt" (.str "FAILED") (.str m) (.str W.failedClock)
        (by decide) (by decide) (by decide)
      have hc : applyUpdate T (failedUpdate event.jobId m W.failedClock) =
          applyUpdate T ⟨"ai-jobs", event.jobId,
            [("status", .str "FAILED"), ("error", .str m),
             ("completedAt", .str W.failedClock)]⟩ := rfl
      rw [h, hc]
      refine ⟨s3, ?_, Or.inl (s2 item "result" hrec (by simp))⟩
      intro a ha
      refine s2 item a hrec ?_
      intro x hx
      simp only [List.mem_cons, Prod.mk.injEq, List.mem_singleton, List.not_mem_nil,
        or_false] at hx ha
      rcases hx with ⟨rfl, -⟩ | ⟨rfl, -⟩ | ⟨rfl, -⟩ <;> simp at ha
  obtain ⟨h1, h2, h3⟩ := hmain
  refine ⟨h1, h2, ?_, h3⟩
  intro a ha
  refine h2 a ?_
  simp only [List.mem_cons, List.mem_singleton, List.not_mem_nil, or_false] at ha ⊢
  rcases ha with rfl | rfl | rfl | rfl | rfl | rfl | rfl <;> decide

theorem terminal_write_frame_witness :
    (∀ key, key ≠ sampleEvent.jobId →
      storeAfter completedTable
        (handler (sampleWorld (failingModel ⟨"Error", "throttled"⟩)) sampleEvent).trace key =
        completedTable key) ∧
    (∀ a, a ∉ ["status", "completedAt", "result", "error"] →
      readAttr
        (storeAfter completedTable
          (handler (sampleWorld (failingModel ⟨"Error", "throttled"⟩)) sampleEvent).trace)
        sampleEvent.jobId a =
        itemOfList
          [("jobId", .str "J"), ("status", .str "COMPLETED"),
           ("userId", .str "u1"), ("prompt", .str "Should I rebalance?"),
           ("result", .str "Yes, consider..."),
           ("createdAt", .str "2026-11-06T10:00:00.000Z"),
           ("completedAt", .str "2026-11-06T10:00:05.000Z")] a) ∧
    (∀ a ∈ ["jobId", "userId", "prompt", "prompts", "responses", "createdAt", "ttl"],
      readAttr
        (storeAfter completedTable
          (handler (sampleWorld (failingModel ⟨"Error", "throttled"⟩)) sampleEvent).trace)
        sampleEvent.jobId a =
        itemOfList
          [("jobId", .str "J"), ("status", .str "COMPLETED"),
           ("userId", .str "u1"), ("prompt", .str "Should I rebalance?"),
           ("result", .str "Yes, consider..."),
           ("createdAt", .str "2026-11-06T10:00:00.000Z"),
           ("completedAt", .str "2026-11-06T10:00:05.000Z")] a) ∧
    (readAttr
        (storeAfter completedTable
          (handler (sampleWorld (failingModel ⟨"Error", "throttled"⟩)) sampleEvent).trace)
        sampleEvent.jobId "result" =
        itemOfList
          [("jobId", .str "J"), ("status", .str "COMPLETED"),
           ("userId", .str "u1"), ("prompt", .str "Should I rebalance?"),
           ("result", .str "Yes, consider..."),
           ("createdAt", .str "2026-11-06T10:00:00.000Z"),
           ("completedAt", .str "2026-11-06T10:00:05.000Z")] "result" ∨
      readAttr
        (storeAfter completedTable
          (handler (sampleWorld (failingModel ⟨"Error", "throttled"⟩)) sampleEvent).trace)
        sampleEvent.jobId "error" =
        itemOfList
          [("jobId", .str "J"), ("status", .str "COMPLETED"),
           ("userId", .str "u1"), ("prompt", .str "Should I rebalance?"),
           ("result", .str "Yes, consider..."),
           ("createdAt", .str "2026-11-06T10:00:00.000Z"),
           ("completedAt", .str "2026-11-06T10:00:05.000Z")] "error") :=
  terminal_write_frame (sampleWorld (failingModel ⟨"Error", "throttled"⟩)) sampleEvent
    completedTable _ rfl

/-! ## The result of a COMPLETED write -/

theorem afterModel_final_inv (W : World) (messages : List Message) (body v : JVal)
    (h : (afterModel W messages body).2 = .final v) :
    ∃ content block, getProp body "content" = .ok content ∧
      contentFind content "text" = .ok block ∧ v = optionalText block := by
  revert h
  unfold afterModel
  rcases getProp body "stop_reason" with e | sr
  · simp
  · rcases hc : getProp body "content" with e | content
    · simp
    · by_cases hs : strictEqStr sr "tool_use" = true
      · simp only [hs, if_true]
        rcases contentFind content "tool_use" with e | tu
        · simp
        · dsimp only
          rcases getProp tu "name" with e | nm
          · simp
          · dsimp only
            rcases toolDispatch W tu nm with ⟨effs, r⟩
            rcases r with e | tr
            · simp
            · dsimp only
              rcases getProp tu "id" with e | tid <;> simp
      · simp only [hs]
        rcases hf : contentFind content "text" with e | found
        · simp
        · intro h
          simp only [Bool.false_eq_true, if_false, Step.final.injEq] at h
          exact ⟨content, found, rfl, hf, h.symm⟩

/-- The `finalResponse` the loop ends with is `undefined` or the `text` read
from the first text block of some model response of the run. -/
theorem bedrockLoop_result_ok (W : World) (n k : Nat) (msgs : List Message) (v : JVal)
    (h : (bedrockLoop W n k msgs).result = .ok v) :
    v = .undefined ∨
    ∃ j m body content block, W.invokeModel j m = .ok body ∧
      getProp body "content" = .ok content ∧ contentFind content "text" = .ok block ∧
      v = optionalText block := by
  induction n generalizing k msgs with
  | zero =>
    simp only [bedrockLoop, Except.ok.injEq] at h
    exact Or.inl h.symm
  | succ n ih =>
    rcases hit : loopIteration W k msgs with ⟨effects, step⟩
    cases step with
    | thrown e =>
      simp [bedrockLoop, hit] at h
    | again m2 =>
      have ht : (bedrockLoop W (n + 1) k msgs).result =
          (bedrockLoop W n (k + 1) m2).result := by
        simp [bedrockLoop, hit]
      rw [ht] at h
      exact ih _ _ h
    | final w =>
      have ht : (bedrockLoop W (n + 1) k msgs).result = .ok w := by
        simp [bedrockLoop, hit]
      rw [ht] at h
      cases h
      right
      unfold loopIteration at hit
      rcases hm : W.invokeModel k msgs with e | body
      · rw [hm] at hit
        simp at hit
      · rw [hm] at hit
        simp only [Prod.mk.injEq] at hit
        obtain ⟨content, block, h1, h2, h3⟩ :=
          afterModel_final_inv W msgs body v hit.2
        exact ⟨k, msgs, body, content, block, hm, h1, h2, h3⟩

/-- An update with status `COMPLETED` found in a run is the `COMPLETED`
update for the `finalResponse` with which the loop of that run ended. -/
theorem handler_completed_update (W : World) (event : JobEvent) (cmd : UpdateCmd)
    (a : Except JsError Unit)
    (hmem : Effect.update cmd a ∈ (handler W event).trace)
    (hstatus : cmd.sets.lookup "status" = some (.str "COMPLETED")) :
    ∃ holdings v,
      (bedrockLoop W MAX_LOOPS 0 (initialMessages W event holdings)).result = .ok v ∧
      cmd = completedUpdate event.jobId v W.completedClock := by
  have hf : ∀ x ∈ (getPortfolioFromDB W event.userId).1, x ≠ Effect.update cmd a := by
    intro x hx h
    have := (getPortfolioFromDB_trace W event.userId).1
    rw [h] at hx
    have hmem2 : cmd ∈ updatesOf (getPortfolioFromDB W event.userId).1 := by
      simp only [updatesOf, List.mem_filterMap]
      exact ⟨_, hx, rfl⟩
    rw [this] at hmem2
    cases hmem2
  have hl : ∀ h, Effect.update cmd a ∉
      (bedrockLoop W MAX_LOOPS 0 (initialMessages W event h)).trace := by
    intro h hx
    rcases bedrockLoop_kinds W MAX_LOOPS 0 _ _ hx with ⟨j, m, b, h2⟩ | ⟨s, b, h2⟩ <;>
      cases h2
  have hnf : ∀ m (b : Except JsError Unit),
      Effect.update cmd a ≠ Effect.update (failedUpdate event.jobId m W.failedClock) b := by
    intro m b h
    injection h with h1 h2
    rw [h1] at hstatus
    simp [failedUpdate, List.lookup] at hstatus
  have hfetch : Effect.update cmd a ∉ (getPortfolioFromDB W event.userId).1 :=
    fun hx => hf _ hx rfl
  rcases handler_shape W event with ⟨e, -, h⟩ | ⟨holdings, e, -, -, h⟩ |
    ⟨holdings, v, -, hr, h⟩
  · rw [h] at hmem
    simp only [List.mem_append, List.mem_singleton] at hmem
    rcases hmem with hx | hx
    · exact absurd hx hfetch
    · exact absurd hx (hnf _ _)
  · rw [h] at hmem
    simp only [List.mem_append, List.mem_singleton] at hmem
    rcases hmem with (hx | hx) | hx
    · exact absurd hx hfetch
    · exact absurd hx (hl holdings)
    · exact absurd hx (hnf _ _)
  · refine ⟨holdings, v, hr, ?_⟩
    rcases hs : W.sendUpdate (completedUpdate event.jobId v W.completedClock) with e2 | u
    · rw [h, hs] at hmem
      simp only [List.mem_append, List.mem_singleton] at hmem
      rcases hmem with ((hx | hx) | hx) | hx
      · exact absurd hx hfetch
      · exact absurd hx (hl holdings)
      · injection hx
      · exact absurd hx (hnf _ _)
    · rw [h, hs] at hmem
      simp only [List.mem_append, List.mem_singleton] at hmem
      rcases hmem with (hx | hx) | hx
      · exact absurd hx hfetch
      · exact absurd hx (hl holdings)
      · injection hx

theorem bedrockLoop_final_any (W : World) (n k : Nat) (msgs : List Message)
    (body stopReason content block : JVal)
    (hm : W.invokeModel k msgs = .ok body)
    (hstop : getProp body "stop_reason" = .ok stopReason)
    (hne : strictEqStr stopReason "tool_use" = false)
    (hcontent : getProp body "content" = .ok content)
    (hfind : contentFind content "text" = .ok block) :
    bedrockLoop W (n + 1) k msgs =
      ⟨[.modelCall k msgs (.ok body)], .ok (optionalText block)⟩ := by
  simp [bedrockLoop, loopIteration, afterModel, hm, hstop, hne, hcontent, hfind]

theorem settle_placeholder (W : World) (jobId : String) (v : JVal)
    (hv : truthy v = false) :
    Effect.update ⟨"ai-jobs", jobId,
        [("status", .str "COMPLETED"), ("result", .str "Unable to generate response"),
         ("completedAt", .str W.completedClock)]⟩
      (W.sendUpdate ⟨"ai-jobs", jobId,
        [("status", .str "COMPLETED"), ("result", .str "Unable to generate response"),
         ("completedAt", .str W.completedClock)]⟩) ∈ (settle W jobId (.ok v)).trace := by
  have hcmd : completedUpdate jobId v W.completedClock =
      ⟨"ai-jobs", jobId,
        [("status", .str "COMPLETED"), ("result", .str "Unable to generate response"),
         ("completedAt", .str W.completedClock)]⟩ := by
    simp [completedUpdate, jsOr, hv]
  simp only [settle, hcmd]
  rcases W.sendUpdate ⟨"ai-jobs", jobId,
        [("status", .str "COMPLETED"), ("result", .str "Unable to generate response"),
         ("completedAt", .str W.completedClock)]⟩ with e | u
  · exact List.mem_cons_self _ _
  · exact List.mem_cons_self _ _

/-- C27 (a `COMPLETED` result is never empty).  When the model types the
`text` of its text blocks as strings, every update with status `COMPLETED`
that a run issues carries a non-empty string as result.  The update issued
is the one with result `"Unable to generate response"` when a final response
has no block of type `text` or an empty first text, and when the fifth model
call is again answered by a tool request (the loop runs out). -/
theorem completed_result_nonempty (W : World) (event : JobEvent)
    (htyped : TextIsString W) :
    (∀ cmd a, Effect.update cmd a ∈ (handler W event).trace →
      cmd.sets.lookup "status" = some (.str "COMPLETED") →
      ∃ s, cmd.sets.lookup "result" = some (.str s) ∧ s ≠ "") ∧
    (∀ k msgs body stopReason content block,
      Effect.modelCall k msgs (.ok body) ∈ (handler W event).trace →
      getProp body "stop_reason" = .ok stopReason →
      strictEqStr stopReason "tool_use" = false →
      getProp body "content" = .ok content →
      contentFind content "text" = .ok block →
      (block = .undefined ∨ getProp block "text" = .ok (.str "")) →
      Effect.update ⟨"ai-jobs", event.jobId,
          [("status", .str "COMPLETED"), ("result", .str "Unable to generate response"),
           ("completedAt", .str W.completedClock)]⟩
        (W.sendUpdate ⟨"ai-jobs", event.jobId,
          [("status", .str "COMPLETED"), ("result", .str "Unable to generate response"),
           ("completedAt", .str W.completedClock)]⟩) ∈ (handler W event).trace) ∧
    (∀ msgs body content toolUse name toolUseId symbols tools r,
      Effect.modelCall 4 msgs (.ok body) ∈ (handler W event).trace →
      ToolRequest body content toolUse name toolUseId symbols →
      toolDispatch W toolUse name = (tools, .ok r) →
      Effect.update ⟨"ai-jobs", event.jobId,
          [("status", .str "COMPLETED"), ("result", .str "Unable to generate response"),
           ("completedAt", .str W.completedClock)]⟩
        (W.sendUpdate ⟨"ai-jobs", event.jobId,
          [("status", .str "COMPLETED"), ("result", .str "Unable to generate response"),
           ("completedAt", .str W.completedClock)]⟩) ∈ (handler W event).trace) := by
  refine ⟨?_, ?_, ?_⟩
  · intro cmd a hmem hstatus
    obtain ⟨holdings, v, hr, rfl⟩ := handler_completed_update W event cmd a hmem hstatus
    have hres : (completedUpdate event.jobId v W.completedClock).sets.lookup "result" =
        some (jsOr v (.str "Unable to generate response")) := by
      simp [completedUpdate, List.lookup]
    rw [hres]
    have hshape : v = .undefined ∨ ∃ s, v = .str s := by
      rcases bedrockLoop_result_ok W MAX_LOOPS 0 _ v hr with h | ⟨j, m, body, content, block,
        h1, h2, h3, h4⟩
      · exact Or.inl h
      · rw [h4]
        exact htyped j m body content block h1 h2 h3
    rcases hshape with rfl | ⟨s, rfl⟩
    · exact ⟨"Unable to generate response", by simp [jsOr, truthy], by decide⟩
    · by_cases hs : s = ""
      · subst hs
        exact ⟨"Unable to generate response", by simp [jsOr, truthy], by decide⟩
      · exact ⟨s, by simp [jsOr, truthy, hs], hs⟩
  · intro k msgs body stopReason content block hcall hstop hne hcontent hfind hblock
    obtain ⟨before, n2, h1, -, -, -, -, hans⟩ := handler_suffix W event k msgs _ hcall
    have hloop := bedrockLoop_final_any W n2 k msgs body stopReason content block
      hans.symm hstop hne hcontent hfind
    have hfalsy : truthy (optionalText block) = false := by
      rcases hblock with rfl | ht
      · rfl
      · rw [optionalText_of_getProp block _ ht]
        rfl
    rw [h1, hloop]
    exact List.mem_append_right _ (settle_placeholder W event.jobId _ hfalsy)
  · intro msgs body content toolUse name toolUseId symbols tools r hcall hreq hd
    obtain ⟨before, n2, h1, -, -, -, hk, hans⟩ := handler_suffix W event 4 msgs _ hcall
    have hn2 : n2 = 0 := by
      have : MAX_LOOPS = 5 := rfl
      omega
    subst hn2
    have hloop := bedrockLoop_again W 0 4 msgs body content toolUse name toolUseId symbols
      hans.symm hreq tools r hd
    rw [h1, hloop]
    exact List.mem_append_right _ (settle_placeholder W event.jobId _ rfl)

theorem directModel_textIsString (text : String) :
    TextIsString (sampleWorld (directModel text)) := by
  intro k msgs body content block h1 h2 h3
  simp only [sampleWorld, directModel, Except.ok.injEq] at h1
  subst h1
  simp only [getProp, modelResponse, List.lookup, Option.getD, Except.ok.injEq] at h2
  have h2b : content = .arr [textBlock text] := by
    revert h2
    simp
    exact fun h => h.symm
  subst h2b
  have h3b : block = textBlock text := by
    have : contentFind (.arr [textBlock text]) "text" = .ok (textBlock text) := rfl
    rw [this] at h3
    cases h3
    rfl
  subst h3b
  exact Or.inr ⟨text, rfl⟩

theorem completed_result_nonempty_witness :
    (∀ cmd a, Effect.update cmd a ∈ (handler (sampleWorld (directModel "")) sampleEvent).trace →
      cmd.sets.lookup "status" = some (.str "COMPLETED") →
      ∃ s, cmd.sets.lookup "result" = some (.str s) ∧ s ≠ "") ∧
    (∀ k msgs body stopReason content block,
      Effect.modelCall k msgs (.ok body) ∈
        (handler (sampleWorld (directModel "")) sampleEvent).trace →
      getProp body "stop_reason" = .ok stopReason →
      strictEqStr stopReason "tool_use" = false →
      getProp body "content" = .ok content →
      contentFind content "text" = .ok block →
      (block = .undefined ∨ getProp block "text" = .ok (.str "")) →
      Effect.update ⟨"ai-jobs", sampleEvent.jobId,
          [("status", .str "COMPLETED"), ("result", .str "Unable to generate response"),
           ("completedAt", .str (sampleWorld (directModel "")).completedClock)]⟩
        ((sampleWorld (directModel "")).sendUpdate ⟨"ai-jobs", sampleEvent.jobId,
          [("status", .str "COMPLETED"), ("result", .str "Unable to generate response"),
           ("completedAt", .str (sampleWorld (directModel "")).completedClock)]⟩) ∈
        (handler (sampleWorld (directModel "")) sampleEvent).trace) ∧
    (∀ msgs body content toolUse name toolUseId symbols tools r,
      Effect.modelCall 4 msgs (.ok body) ∈
        (handler (sampleWorld (directModel "")) sampleEvent).trace →
      ToolRequest body content toolUse name toolUseId symbols →
      toolDispatch (sampleWorld (directModel "")) toolUse name = (tools, .ok r) →
      Effect.update ⟨"ai-jobs", sampleEvent.jobId,
          [("status", .str "COMPLETED"), ("result", .str "Unable to generate response"),
           ("completedAt", .str (sampleWorld (directModel "")).completedClock)]⟩
        ((sampleWorld (directModel "")).sendUpdate ⟨"ai-jobs", sampleEvent.jobId,
          [("status", .str "COMPLETED"), ("result", .str "Unable to generate response"),
           ("completedAt", .str (sampleWorld (directModel "")).completedClock)]⟩) ∈
        (handler (sampleWorld (directModel "")) sampleEvent).trace) :=
  completed_result_nonempty (sampleWorld (directModel "")) sampleEvent
    (directModel_textIsString "")

/-! ## The conversation from one model call to the next -/

theorem afterModel_again_inv (W : World) (messages m2 : List Message) (body : JVal)
    (h : (afterModel W messages body).2 = .again m2) :
    ∃ content toolUseId r, getProp body "content" = .ok content ∧
      m2 = messages ++ toolTurn W content toolUseId r := by
  revert h
  unfold afterModel
  rcases getProp body "stop_reason" with e | sr
  · simp
  · rcases hc : getProp body "content" with e | content
    · simp
    · by_cases hs : strictEqStr sr "tool_use" = true
      · simp only [hs, if_true]
        rcases contentFind content "tool_use" with e | tu
        · simp
        · dsimp only
          rcases getProp tu "name" with e | nm
          · simp
          · dsimp only
            rcases toolDispatch W tu nm with ⟨effs, r⟩
            rcases r with e | tr
            · simp
            · dsimp only
              rcases getProp tu "id" with e | tid
              · simp
              · intro h
                simp only [Step.again.injEq] at h
                exact ⟨content, tid, tr, rfl, h.symm⟩
      · simp only [hs]
        rcases contentFind content "text" with e | found <;> simp

theorem modelCallsOf_append (s t : List Effect) :
    modelCallsOf (s ++ t) = modelCallsOf s ++ modelCallsOf t := by
  simp [modelCallsOf]

theorem modelCallsOf_none (t : List Effect) (h : ∀ x ∈ t, isModelCall x = false) :
    modelCallsOf t = [] := by
  induction t with
  | nil => rfl
  | cons x t ih =>
    have hx := h x (List.mem_cons_self _ _)
    have ht := ih (fun y hy => h y (List.mem_cons_of_mem _ hy))
    cases x <;> simp_all [modelCallsOf, isModelCall]

theorem mem_modelCallsOf (t : List Effect) (k : Nat) (m : List Message)
    (a : Except JsError JVal) :
    (k, m, a) ∈ modelCallsOf t ↔ Effect.modelCall k m a ∈ t := by
  simp only [modelCallsOf, List.mem_filterMap]
  constructor
  · rintro ⟨x, hx, h⟩
    cases x <;> simp at h
    obtain ⟨rfl, rfl, rfl⟩ := h
    exact hx
  · intro h
    exact ⟨_, h, rfl⟩

/-- The model calls of the loop entered at `(k, msgs)` are threaded from
`(k, msgs)`. -/
theorem bedrockLoop_threaded (W : World) (n k : Nat) (msgs : List Message) :
    Threaded W k msgs (modelCallsOf (bedrockLoop W n k msgs).trace) := by
  induction n generalizing k msgs with
  | zero => simp [bedrockLoop, modelCallsOf, Threaded]
  | succ n ih =>
    obtain ⟨tl, htl, hno⟩ := loopIteration_effects W k msgs
    have hcalls : modelCallsOf (Effect.modelCall k msgs (W.invokeModel k msgs) :: tl) =
        [(k, msgs, W.invokeModel k msgs)] := by
      have := modelCallsOf_none tl hno
      simp only [modelCallsOf] at this ⊢
      simp [this]
    rcases hit : loopIteration W k msgs with ⟨effects, step⟩
    rw [hit] at htl
    dsimp only at htl
    subst htl
    cases step with
    | thrown e =>
      have ht : (bedrockLoop W (n + 1) k msgs).trace =
          Effect.modelCall k msgs (W.invokeModel k msgs) :: tl := by
        simp [bedrockLoop, hit]
      rw [ht, hcalls]
      exact ⟨rfl, rfl, Or.inl rfl⟩
    | final v =>
      have ht : (bedrockLoop W (n + 1) k msgs).trace =
          Effect.modelCall k msgs (W.invokeModel k msgs) :: tl := by
        simp [bedrockLoop, hit]
      rw [ht, hcalls]
      exact ⟨rfl, rfl, Or.inl rfl⟩
    | again m2 =>
      have ht : (bedrockLoop W (n + 1) k msgs).trace =
          (Effect.modelCall k msgs (W.invokeModel k msgs) :: tl) ++
            (bedrockLoop W n (k + 1) m2).trace := by
        simp [bedrockLoop, hit]
      rw [ht, modelCallsOf_append, hcalls]
      refine ⟨rfl, rfl, Or.inr ?_⟩
      unfold loopIteration at hit
      rcases hm : W.invokeModel k msgs with e | body
      · rw [hm] at hit
        simp at hit
      · rw [hm] at hit
        simp only [Prod.mk.injEq] at hit
        obtain ⟨content, tid, r, h1, h2⟩ := afterModel_again_inv W msgs m2 body hit.2
        refine ⟨body, content, tid, r, rfl, h1, ?_⟩
        rw [← h2]
        exact ih (k + 1) m2

theorem threaded_ge (W : World) (cs : List (Nat × List Message × Except JsError JVal))
    (k : Nat) (m : List Message) (h : Threaded W k m cs) :
    ∀ c ∈ cs, k ≤ c.1 := by
  induction cs generalizing k m with
  | nil => simp
  | cons c0 cs ih =>
    obtain ⟨h1, -, h3⟩ := h
    intro c hc
    rcases List.mem_cons.1 hc with rfl | hc
    · omega
    · rcases h3 with rfl | ⟨body, content, tid, r, -, -, ht⟩
      · cases hc
      · have := ih (k + 1) _ ht c hc
        omega

theorem threaded_at (W : World) (cs : List (Nat × List Message × Except JsError JVal))
    (k : Nat) (m : List Message) (h : Threaded W k m cs) :
    ∀ c ∈ cs, c.1 = k → c.2.1 = m := by
  cases cs with
  | nil => simp
  | cons c0 cs =>
    obtain ⟨h1, h2, h3⟩ := h
    intro c hc hk
    rcases List.mem_cons.1 hc with rfl | hc
    · exact h2
    · rcases h3 with rfl | ⟨body, content, tid, r, -, -, ht⟩
      · cases hc
      · have := threaded_ge W cs (k + 1) _ ht c hc
        omega

theorem threaded_next (W : World) (cs : List (Nat × List Message × Except JsError JVal))
    (k : Nat) (m : List Message) (h : Threaded W k m cs) :
    ∀ c ∈ cs, ∀ c2 ∈ cs, c2.1 = c.1 + 1 →
      ∃ body content toolUseId r, c.2.2 = .ok body ∧ getProp body "content" = .ok content ∧
        c2.2.1 = c.2.1 ++ toolTurn W content toolUseId r := by
  induction cs generalizing k m with
  | nil => simp
  | cons c0 cs ih =>
    obtain ⟨h1, h2, h3⟩ := h
    intro c hc c2 hc2 hnext
    rcases List.mem_cons.1 hc with rfl | hc
    · rcases List.mem_cons.1 hc2 with rfl | hc2
      · omega
      · rcases h3 with rfl | ⟨body, content, tid, r, hb, hcont, ht⟩
        · cases hc2
        · refine ⟨body, content, tid, r, hb, hcont, ?_⟩
          rw [h2]
          exact threaded_at W cs (k + 1) _ ht c2 hc2 (by omega)
    · rcases h3 with rfl | ⟨body, content, tid, r, hb, hcont, ht⟩
      · cases hc
      · have hge := threaded_ge W cs (k + 1) _ ht c hc
        rcases List.mem_cons.1 hc2 with rfl | hc2
        · omega
        · exact ih (k + 1) _ ht c hc c2 hc2 hnext

theorem threaded_length (W : World) (cs : List (Nat × List Message × Except JsError JVal))
    (k : Nat) (m : List Message) (h : Threaded W k m cs) :
    ∀ c ∈ cs, c.2.1.length + 2 * k = m.length + 2 * c.1 := by
  induction cs generalizing k m with
  | nil => simp
  | cons c0 cs ih =>
    obtain ⟨h1, h2, h3⟩ := h
    intro c hc
    rcases List.mem_cons.1 hc with rfl | hc
    · rw [h1, h2]
    · rcases h3 with rfl | ⟨body, content, tid, r, -, -, ht⟩
      · cases hc
      · have := ih (k + 1) _ ht c hc
        simp only [List.length_append, toolTurn, List.length_cons, List.length_nil] at this
        omega

theorem initialMessages_length (W : World) (event : JobEvent) (holdings : JVal) :
    (initialMessages W event holdings).length =
      2 * min (event.prompts.getD []).length (event.responses.getD []).length + 1 := by
  obtain ⟨hlen, -⟩ := historyFold_spec (event.prompts.getD []) (event.responses.getD [])
    (min (event.prompts.getD []).length (event.responses.getD []).length)
  unfold initialMessages historyMessages
  rw [List.length_append, hlen]
  rfl

/-- C25 (the conversation is append-only).  Model calls are numbered by
`loopCount`, from 0.  For every run in which the calls `k` and `k + 1` are
made: call `k` was answered by a response, and the conversation of call
`k + 1` is that of call `k` followed by exactly two messages, an assistant
message carrying the whole content of that response and a user message with
one `tool_result` block holding the serialized result of the pass; call `k`
carries `2 * min |prompts| |responses| + 1 + 2 * k` messages; and call `k`
occurs in the trace before call `k + 1`. -/
theorem conversation_append_only (W : World) (event : JobEvent) (k : Nat)
    (msgs msgs2 : List Message) (a a2 : Except JsError JVal)
    (hk : Effect.modelCall k msgs a ∈ (handler W event).trace)
    (hk1 : Effect.modelCall (k + 1) msgs2 a2 ∈ (handler W event).trace) :
    (∃ body content toolUseId r, a = .ok body ∧ getProp body "content" = .ok content ∧
      msgs2 = msgs ++ [⟨"assistant", content⟩,
        ⟨"user", .arr [.obj [("type", .str "tool_result"),
                             ("tool_use_id", toolUseId),
                             ("content", jsonStringify W r)]]⟩]) ∧
    msgs.length =
      2 * min (event.prompts.getD []).length (event.responses.getD []).length + 1 + 2 * k ∧
    msgs2.length =
      2 * min (event.prompts.getD []).length (event.responses.getD []).length + 1 +
        2 * (k + 1) ∧
    ∃ before after,
      (handler W event).trace = before ++ .modelCall (k + 1) msgs2 a2 :: after ∧
      Effect.modelCall k msgs a ∈ before := by
  obtain ⟨holdings, hh, hmem⟩ := handler_modelCall_mem W event k msgs a hk
  obtain ⟨holdings2, hh2, hmem2⟩ := handler_modelCall_mem W event (k + 1) msgs2 a2 hk1
  rw [hh] at hh2
  cases hh2
  have hthr := bedrockLoop_threaded W MAX_LOOPS 0 (initialMessages W event holdings)
  have c1 := (mem_modelCallsOf _ k msgs a).2 hmem
  have c2 := (mem_modelCallsOf _ (k + 1) msgs2 a2).2 hmem2
  have hlen0 := initialMessages_length W event holdings
  have l1 := threaded_length W _ 0 _ hthr _ c1
  have l2 := threaded_length W _ 0 _ hthr _ c2
  dsimp only at l1 l2
  refine ⟨?_, by omega, by omega, ?_⟩
  · obtain ⟨body, content, tid, r, h1, h2, h3⟩ :=
      threaded_next W _ 0 _ hthr _ c1 _ c2 rfl
    exact ⟨body, content, tid, r, h1, h2, h3⟩
  · obtain ⟨before, n2, e1, e2, e3, -, -, -⟩ :=
      bedrockLoop_suffix W (k + 1) msgs2 a2 MAX_LOOPS 0 _ hmem2
    obtain ⟨tl, htl⟩ := bedrockLoop_head W n2 (k + 1) msgs2
    have hin : Effect.modelCall k msgs a ∈ before := by
      rw [e1] at hmem
      rcases List.mem_append.1 hmem with hx | hx
      · exact hx
      · have := threaded_ge W _ (k + 1) msgs2
          (bedrockLoop_threaded W (n2 + 1) (k + 1) msgs2) _
          ((mem_modelCallsOf _ k msgs a).2 hx)
        dsimp only at this
        omega
    have hs := handler_settle W event holdings hh
    refine ⟨(getPortfolioFromDB W event.userId).1 ++ before,
      tl ++ (settle W event.jobId
        (bedrockLoop W MAX_LOOPS 0 (initialMessages W event holdings)).result).trace,
      ?_, List.mem_append_right _ hin⟩
    rw [hs]
    dsimp only
    rw [e1, htl, e3]
    simp

theorem conversation_append_only_witness :
    (∃ body content toolUseId r,
      (Except.ok (modelResponse "tool_use"
        [toolUseBlock "toolu_1" "get_stock_prices" ["AAPL", "MSFT"]]) :
          Except JsError JVal) = .ok body ∧
      getProp body "content" = .ok content ∧
      initialMessages (sampleWorld alwaysToolModel) sampleEvent
          (.arr [.obj [("symbol", .str "AAPL"), ("quantity", .num 10)]]) ++
        toolTurn (sampleWorld alwaysToolModel)
          (.arr [toolUseBlock "toolu_1" "get_stock_prices" ["AAPL", "MSFT"]])
          (.str "toolu_1") (.arr []) =
        initialMessages (sampleWorld alwaysToolModel) sampleEvent
            (.arr [.obj [("symbol", .str "AAPL"), ("quantity", .num 10)]]) ++
          [⟨"assistant", content⟩,
           ⟨"user", .arr [.obj [("type", .str "tool_result"),
                                ("tool_use_id", toolUseId),
                                ("content",
                                 jsonStringify (sampleWorld alwaysToolModel) r)]]⟩]) ∧
    (initialMessages (sampleWorld alwaysToolModel) sampleEvent
        (.arr [.obj [("symbol", .str "AAPL"), ("quantity", .num 10)]])).length =
      2 * min (sampleEvent.prompts.getD []).length (sampleEvent.responses.getD []).length +
        1 + 2 * 0 ∧
    (initialMessages (sampleWorld alwaysToolModel) sampleEvent
          (.arr [.obj [("symbol", .str "AAPL"), ("quantity", .num 10)]]) ++
        toolTurn (sampleWorld alwaysToolModel)
          (.arr [toolUseBlock "toolu_1" "get_stock_prices" ["AAPL", "MSFT"]])
          (.str "toolu_1") (.arr [])).length =
      2 * min (sampleEvent.prompts.getD []).length (sampleEvent.responses.getD []).length +
        1 + 2 * (0 + 1) ∧
    ∃ before after,
      (handler (sampleWorld alwaysToolModel) sampleEvent).trace =
        before ++ .modelCall (0 + 1)
          (initialMessages (sampleWorld alwaysToolModel) sampleEvent
              (.arr [.obj [("symbol", .str "AAPL"), ("quantity", .num 10)]]) ++
            toolTurn (sampleWorld alwaysToolModel)
              (.arr [toolUseBlock "toolu_1" "get_stock_prices" ["AAPL", "MSFT"]])
              (.str "toolu_1") (.arr []))
          (.ok (modelResponse "tool_use"
            [toolUseBlock "toolu_1" "get_stock_prices" ["AAPL", "MSFT"]])) :: after ∧
      Effect.modelCall 0
        (initialMessages (sampleWorld alwaysToolModel) sampleEvent
          (.arr [.obj [("symbol", .str "AAPL"), ("quantity", .num 10)]]))
        (.ok (modelResponse "tool_use"
          [toolUseBlock "toolu_1" "get_stock_prices" ["AAPL", "MSFT"]])) ∈ before :=
  conversation_append_only (sampleWorld alwaysToolModel) sampleEvent 0 _ _ _ _
    (by
      have h : ∃ rest, (handler (sampleWorld alwaysToolModel) sampleEvent).trace =
          .queryHoldings (.str "u1")
              (.ok (.arr [.obj [("symbol", .str "AAPL"), ("quantity", .num 10)]])) ::
          .modelCall 0
            (initialMessages (sampleWorld alwaysToolModel) sampleEvent
              (.arr [.obj [("symbol", .str "AAPL"), ("quantity", .num 10)]]))
            (.ok (modelResponse "tool_use"
              [toolUseBlock "toolu_1" "get_stock_prices" ["AAPL", "MSFT"]])) :: rest :=
        ⟨_, rfl⟩
      obtain ⟨rest, h⟩ := h
      rw [h]
      exact List.mem_cons_of_mem _ (List.mem_cons_self _ _))
    (by
      have h : ∃ rest, (handler (sampleWorld alwaysToolModel) sampleEvent).trace =
          .queryHoldings (.str "u1")
              (.ok (.arr [.obj [("symbol", .str "AAPL"), ("quantity", .num 10)]])) ::
          .modelCall 0
            (initialMessages (sampleWorld alwaysToolModel) sampleEvent
              (.arr [.obj [("symbol", .str "AAPL"), ("quantity", .num 10)]]))
            (.ok (modelResponse "tool_use"
              [toolUseBlock "toolu_1" "get_stock_prices" ["AAPL", "MSFT"]])) ::
          .dailyPrices (.arr [.str "AAPL", .str "MSFT"]) (.ok (.arr [])) ::
          .modelCall (0 + 1)
            (initialMessages (sampleWorld alwaysToolModel) sampleEvent
                (.arr [.obj [("symbol", .str "AAPL"), ("quantity", .num 10)]]) ++
              toolTurn (sampleWorld alwaysToolModel)
                (.arr [toolUseBlock "toolu_1" "get_stock_prices" ["AAPL", "MSFT"]])
                (.str "toolu_1") (.arr []))
            (.ok (modelResponse "tool_use"
              [toolUseBlock "toolu_1" "get_stock_prices" ["AAPL", "MSFT"]])) :: rest :=
        ⟨_, rfl⟩
      obtain ⟨rest, h⟩ := h
      rw [h]
      exact List.mem_cons_of_mem _ (List.mem_cons_of_mem _
        (List.mem_cons_of_mem _ (List.mem_cons_self _ _))))

/-! ## The daily price lookup -/

theorem isUndefined_eq (v : JVal) (h : isUndefined v = true) : v = .undefined := by
  cases v <;> first | rfl | (simp [isUndefined] at h)

theorem member_jsonObject_three (k1 k2 k3 : String) (v1 v2 v3 : JVal)
    (h12 : k1 ≠ k2) (h13 : k1 ≠ k3) (h23 : k2 ≠ k3) :
    member (jsonObject [(k1, v1), (k2, v2), (k3, v3)]) k1 = v1 ∧
    member (jsonObject [(k1, v1), (k2, v2), (k3, v3)]) k2 = v2 ∧
    member (jsonObject [(k1, v1), (k2, v2), (k3, v3)]) k3 = v3 := by
  have e12 : (k1 == k2) = false := by simpa using h12
  have e13 : (k1 == k3) = false := by simpa using h13
  have e23 : (k2 == k3) = false := by simpa using h23
  have e21 : (k2 == k1) = false := by simpa using Ne.symm h12
  have e31 : (k3 == k1) = false := by simpa using Ne.symm h13
  have e32 : (k3 == k2) = false := by simpa using Ne.symm h23
  rcases h1 : isUndefined v1 with _ | _ <;> rcases h2 : isUndefined v2 with _ | _ <;>
    rcases h3 : isUndefined v3 with _ | _ <;>
    simp [member, jsonObject, getProp, List.filter, List.lookup, h1, h2, h3,
      e12, e13, e23, e21, e31, e32] <;>
    first
    | exact (isUndefined_eq _ h1).symm
    | exact (isUndefined_eq _ h2).symm
    | exact (isUndefined_eq _ h3).symm
    | (constructor <;> first
        | exact (isUndefined_eq _ h1).symm
        | exact (isUndefined_eq _ h2).symm
        | exact (isUndefined_eq _ h3).symm)
    | (refine ⟨?_, ?_, ?_⟩ <;> first
        | exact (isUndefined_eq _ h1).symm
        | exact (isUndefined_eq _ h2).symm
        | exact (isUndefined_eq _ h3).symm)

theorem dailyResult_symbol (symbol : JVal) (answer : Except JsError JVal) :
    member (dailyResult symbol answer) "symbol" = symbol := by
  cases answer with
  | ok items =>
    exact (member_jsonObject_three "symbol" "data" "success" symbol items (.bool true)
      (by decide) (by decide) (by decide)).1
  | error e =>
    exact (member_jsonObject_three "symbol" "error" "success" symbol (.str e.message)
      (.bool false) (by decide) (by decide) (by decide)).1

theorem dailyResult_ok (symbol items : JVal) :
    member (dailyResult symbol (.ok items)) "success" = .bool true ∧
    member (dailyResult symbol (.ok items)) "data" = items := by
  have h := member_jsonObject_three "symbol" "data" "success" symbol items (.bool true)
    (by decide) (by decide) (by decide)
  exact ⟨h.2.2, h.2.1⟩

theorem dailyResult_error (symbol : JVal) (e : JsError) :
    member (dailyResult symbol (.error e)) "success" = .bool false ∧
    member (dailyResult symbol (.error e)) "error" = .str e.message := by
  have h := member_jsonObject_three "symbol" "error" "success" symbol (.str e.message)
    (.bool false) (by decide) (by decide) (by decide)
  exact ⟨h.2.2, h.2.1⟩

theorem dailyQueries_length (W : DailyWorld) (S : List JVal) :
    ∀ i, (dailyQueries W i S).length = S.length := by
  induction S with
  | nil => intro i; rfl
  | cons s rest ih =>
    intro i
    simp [dailyQueries, ih]

theorem dailyQueries_getElem? (W : DailyWorld) (S : List JVal) :
    ∀ i j s, S[j]? = some s →
      (dailyQueries W i S)[j]? = some (s, W.queryItems (i + j) s) := by
  induction S with
  | nil => intro i j s h; simp at h
  | cons s0 rest ih =>
    intro i j s h
    cases j with
    | zero =>
      simp only [List.getElem?_cons_zero, Option.some.injEq] at h
      subst h
      simp [dailyQueries]
    | succ j =>
      simp only [List.getElem?_cons_succ] at h
      have := ih (i + 1) j s h
      simp only [dailyQueries, List.getElem?_cons_succ, this]
      congr 3
      omega

theorem symbolsRejected_arr (S : List JVal) : symbolsRejected (.arr S) = S.isEmpty := by
  cases S <;> simp [symbolsRejected, truthy, isArray, arrayItems]

theorem symbolsRejected_other (symbols : JVal) (h : ∀ S, symbols = .arr S → S = []) :
    symbolsRejected symbols = true := by
  cases symbols with
  | arr S =>
    rw [symbolsRejected_arr, h S rfl]
    rfl
  | _ => simp [symbolsRejected, isArray, truthy]

/-- C22 (daily price lookup).  For a request that is not a preflight and whose
parsed body has the member `symbols`: when `symbols` is a non-empty array
`S`, the handler answers 200 with a body whose `total` is the length of `S`
and whose `results` has one entry per element of `S`, in the order of `S`;
entry `i` carries `symbol = S[i]`, with `success: true` and the items when the
query of element `i` succeeded and `success: false` and the message of the
error when it failed, whatever happens to the other symbols; the queries are
exactly one per element, in order, on table `stock-app-data-daily`.  When
`symbols` is anything else (missing, not an array, or the empty array) the
handler answers 400 with `symbols array is required` and makes no query. -/
theorem daily_lookup_contract (W : DailyWorld) (event : DailyEvent) (body symbols : JVal)
    (hmethod : strictEqStr event.httpMethod "OPTIONS" = false)
    (hbody : event.body = .ok body)
    (hsym : getProp body "symbols" = .ok symbols) :
    (∀ S, symbols = .arr S → S ≠ [] →
      ∃ results,
        (dailyGetHandler W event).outcome =
          .ok ⟨200, corsHeaders "POST,OPTIONS",
            some (.obj [("results", .arr results), ("total", .num (Int.ofNat S.length))])⟩ ∧
        results.length = S.length ∧
        (∀ i s, S[i]? = some s →
          ∃ entry, results[i]? = some entry ∧ member entry "symbol" = s ∧
            (∀ items, W.queryItems i s = .ok items →
              member entry "success" = .bool true ∧ member entry "data" = items) ∧
            (∀ e, W.queryItems i s = .error e →
              member entry "success" = .bool false ∧
              member entry "error" = .str e.message)) ∧
        (dailyGetHandler W event).trace.length = S.length ∧
        (∀ i s, S[i]? = some s →
          (dailyGetHandler W event).trace[i]? =
            some (DailyEffect.query "stock-app-data-daily" s (W.queryItems i s)))) ∧
    ((∀ S, symbols = .arr S → S = []) →
      dailyGetHandler W event =
        ⟨[], .ok ⟨400, corsHeaders "POST,OPTIONS",
          some (.obj [("error", .str "symbols array is required")])⟩⟩) := by
  constructor
  · intro S hS hne
    subst hS
    have hrej : symbolsRejected (.arr S) = false := by
      rw [symbolsRejected_arr]
      cases S with
      | nil => exact absurd rfl hne
      | cons a l => rfl
    refine ⟨(dailyQueries W 0 S).map fun sa => dailyResult sa.1 sa.2, ?_, ?_, ?_, ?_, ?_⟩
    · simp [dailyGetHandler, hmethod, hbody, hsym, hrej, arrayItems, jsonObject, isUndefined]
    · simp [dailyQueries_length]
    · intro i s hi
      have hq := dailyQueries_getElem? W S 0 i s hi
      rw [Nat.zero_add] at hq
      refine ⟨dailyResult s (W.queryItems i s), ?_, dailyResult_symbol _ _, ?_, ?_⟩
      · simp [List.getElem?_map, hq]
      · intro items hok
        rw [hok]
        exact dailyResult_ok s items
      · intro e herr
        rw [herr]
        exact dailyResult_error s e
    · simp [dailyGetHandler, hmethod, hbody, hsym, hrej, arrayItems, dailyQueries_length]
    · intro i s hi
      have hq := dailyQueries_getElem? W S 0 i s hi
      rw [Nat.zero_add] at hq
      simp [dailyGetHandler, hmethod, hbody, hsym, hrej, arrayItems, List.getElem?_map, hq]
  · intro h
    have hrej := symbolsRejected_other symbols h
    simp [dailyGetHandler, hmethod, hbody, hsym, hrej, jsonObject, isUndefined]

theorem daily_lookup_contract_witness :
    (∃ results,
      (dailyGetHandler sampleDailyWorld sampleDailyEvent).outcome =
        .ok ⟨200, corsHeaders "POST,OPTIONS",
          some (.obj [("results", .arr results), ("total", .num 2)])⟩ ∧
      results.length = 2 ∧
      (∃ entry, results[1]? = some entry ∧ member entry "symbol" = .str "MSFT" ∧
        member entry "success" = .bool false ∧
        member entry "error" = .str "table not found") ∧
      (∃ entry, results[0]? = some entry ∧ member entry "symbol" = .str "AAPL" ∧
        member entry "success" = .bool true)) ∧
    dailyGetHandler sampleDailyWorld ⟨.str "POST", .ok (.obj [("symbols", .str "AAPL")])⟩ =
      ⟨[], .ok ⟨400, corsHeaders "POST,OPTIONS",
        some (.obj [("error", .str "symbols array is required")])⟩⟩ := by
  have h := daily_lookup_contract sampleDailyWorld sampleDailyEvent
    (.obj [("symbols", .arr [.str "AAPL", .str "MSFT"])]) (.arr [.str "AAPL", .str "MSFT"])
    rfl rfl rfl
  have h2 := daily_lookup_contract sampleDailyWorld
    ⟨.str "POST", .ok (.obj [("symbols", .str "AAPL")])⟩
    (.obj [("symbols", .str "AAPL")]) (.str "AAPL") rfl rfl rfl
  refine ⟨?_, h2.2 (fun S hS => by cases hS)⟩
  obtain ⟨results, hout, hlen, hentry, -, -⟩ := h.1 _ rfl (by simp)
  refine ⟨results, hout, hlen, ?_, ?_⟩
  · obtain ⟨entry, he, hs, -, herr⟩ := hentry 1 (.str "MSFT") rfl
    exact ⟨entry, he, hs, herr ⟨"ResourceNotFoundException", "table not found"⟩ rfl⟩
  · obtain ⟨entry, he, hs, hok, -⟩ := hentry 0 (.str "AAPL") rfl
    exact ⟨entry, he, hs, (hok _ rfl).1⟩

/-! ## The deployment -/

theorem deployed_env (polygonApiKey : Option String) :
    (deployedStarterWorld polygonApiKey).env "INSIGHT_SUGGESTIONS_FUNCTION_NAME" =
      some "stock-ai-insight-suggestions-v2" ∧
    (deployedStarterWorld polygonApiKey).env "PROCESSOR_LAMBDA_NAME" = none := by
  constructor
  · simp [deployedStarterWorld, starterEnvironment, commonEnv, List.lookup,
      stockAiInsightSuggestionsFnName, mkLambdaName]
  · simp [deployedStarterWorld, starterEnvironment, commonEnv, List.lookup]

/-- C26, evaluated under the environment of the stack.  The stack gives the
starter the name of the processor function, `stock-ai-insight-suggestions-v2`,
in the variable `INSIGHT_SUGGESTIONS_FUNCTION_NAME` and defines no variable
`PROCESSOR_LAMBDA_NAME`, which is the one the starter reads: the
`FunctionName` of the dispatch is the fallback literal
`Stock-AI-Insight-Portfolio-Suggestions`, which is not the name of the
processor function, for every body; the sample submission is dispatched to
that name. -/
theorem dispatch_target_is_fallback (polygonApiKey : Option String) (body : JVal) :
    (deployedStarterWorld polygonApiKey).env "INSIGHT_SUGGESTIONS_FUNCTION_NAME" =
      some stockAiInsightSuggestionsFnName ∧
    stockAiInsightSuggestionsFnName = "stock-ai-insight-suggestions-v2" ∧
    (deployedStarterWorld polygonApiKey).env "PROCESSOR_LAMBDA_NAME" = none ∧
    (starterInvoke (deployedStarterWorld polygonApiKey) body).functionName =
      "Stock-AI-Insight-Portfolio-Suggestions" ∧
    (starterInvoke (deployedStarterWorld polygonApiKey) body).functionName ≠
      stockAiInsightSuggestionsFnName ∧
    (starterHandler (deployedStarterWorld polygonApiKey) sampleSubmission).trace =
      [.put (starterPut (deployedStarterWorld polygonApiKey)
          (.obj [("userId", .str "u1"), ("prompt", .str "Should I rebalance?")])) (.ok ()),
       .invoke ⟨"Stock-AI-Insight-Portfolio-Suggestions", "Event",
          .obj [("jobId", .str "J"), ("userId", .str "u1"),
                ("prompt", .str "Should I rebalance?"),
                ("prompts", .arr []), ("responses", .arr [])]⟩ (.ok ())] := by
  have hname : stockAiInsightSuggestionsFnName = "stock-ai-insight-suggestions-v2" := by
    decide
  obtain ⟨h1, h2⟩ := deployed_env polygonApiKey
  have hfn : processorFunctionName (deployedStarterWorld polygonApiKey) =
      "Stock-AI-Insight-Portfolio-Suggestions" := by
    simp [processorFunctionName, h2]
  refine ⟨by rw [h1, hname], hname, h2, hfn, ?_, ?_⟩
  · show processorFunctionName (deployedStarterWorld polygonApiKey) ≠ _
    rw [hfn, hname]
    decide
  · rcases starterHandler_shape (deployedStarterWorld polygonApiKey) sampleSubmission with
      ⟨hm, -⟩ | ⟨-, e, h, -⟩ | ⟨-, body2, u, hb, -, h⟩
    · cases hm
    · rcases h with h | ⟨body2, hb, hu⟩
      · cases h
      · cases hb
        cases hu
    · cases hb
      rw [h]
      have hp : (deployedStarterWorld polygonApiKey).putItem
          (starterPut (deployedStarterWorld polygonApiKey)
            (.obj [("userId", .str "u1"), ("prompt", .str "Should I rebalance?")])) =
          .ok () := rfl
      have hi : (deployedStarterWorld polygonApiKey).invokeLambda
          (starterInvoke (deployedStarterWorld polygonApiKey)
            (.obj [("userId", .str "u1"), ("prompt", .str "Should I rebalance?")])) =
          .ok () := rfl
      rw [hp]
      dsimp only
      rw [hi]
      dsimp only
      have hinv : starterInvoke (deployedStarterWorld polygonApiKey)
          (.obj [("userId", .str "u1"), ("prompt", .str "Should I rebalance?")]) =
          ⟨"Stock-AI-Insight-Portfolio-Suggestions", "Event",
            .obj [("jobId", .str "J"), ("userId", .str "u1"),
                  ("prompt", .str "Should I rebalance?"),
                  ("prompts", .arr []), ("responses", .arr [])]⟩ := by
        unfold starterInvoke
        rw [hfn]
        rfl
      rw [hinv]

/-- With a `jobId` path parameter that can be read and a store read that
succeeds, the status checker answers 200 or 404. -/
theorem statusHandler_answers (W : CheckerWorld) (event : CheckerEvent) (jobId : JVal)
    (r : Option Item)
    (hid : getProp event.pathParameters "jobId" = .ok jobId)
    (hread : W.sendGet jobId = .ok r) :
    ∃ response, (statusHandler W event).outcome = .ok response ∧
      (response.statusCode = 200 ∨ response.statusCode = 404) := by
  unfold statusHandler
  rcases hm : strictEqStr event.httpMethod "OPTIONS" with _ | _
  · simp only [Bool.false_eq_true, if_false, hid, hread]
    cases r with
    | none => exact ⟨_, rfl, Or.inr rfl⟩
    | some item => exact ⟨_, rfl, Or.inl rfl⟩
  · simp only [if_true]
    exact ⟨_, rfl, Or.inl rfl⟩

/-- C29, evaluated at the event of `GET /ai-insight`.  The request is not a
preflight and carries `pathParameters: null`; whatever the store would
answer, the status checker makes no read and returns no response: the read of
`event.pathParameters.jobId` throws a `TypeError`, which nothing catches. -/
theorem status_checker_throws_on_collection_poll (W : CheckerWorld) :
    strictEqStr collectionPoll.httpMethod "OPTIONS" = false ∧
    collectionPoll.pathParameters = .null ∧
    statusHandler W collectionPoll =
      ⟨[], .error (typeErrorRead "null" "jobId")⟩ ∧
    ¬ ∃ response, (statusHandler W collectionPoll).outcome = .ok response := by
  refine ⟨rfl, rfl, rfl, ?_⟩
  rintro ⟨response, h⟩
  cases h

/-! ## Stored input and dispatched input -/

theorem truthy_defined (v : JVal) (h : truthy v = true) : isUndefined v = false := by
  cases v <;> first | rfl | (simp [truthy] at h)

theorem jsOr_arr_truthy (v : JVal) : truthy (jsOr v (.arr [])) = true := by
  unfold jsOr
  by_cases h : truthy v = true
  · rw [if_pos h]
    exact h
  · rw [if_neg h]
    rfl

theorem storedItem_eq (members : List (String × JVal)) (a : String) :
    storedItem members a =
      (members.lookup a).bind fun v => if isUndefined v then none else some v := by
  unfold storedItem
  rcases members.lookup a with _ | v
  · rfl
  · cases v <;> rfl

theorem jsonField_jsonObject_undefined (members : List (String × JVal)) (k : String)
    (h : ∀ v, (k, v) ∈ members → isUndefined v = true) :
    jsonField (jsonObject members) k = none := by
  have hk := jsonObject_absent members k h
  simp only [jsonObject, jsonKeys, jsonField] at hk ⊢
  rw [List.lookup_eq_none_iff]
  intro kv hkv
  rw [bne_iff_ne]
  intro heq
  apply hk
  rw [List.mem_map]
  exact ⟨kv, hkv, heq.symm⟩

theorem payload_field_eq_stored (W : StarterWorld) (body : JVal) (f : String)
    (hf : f ∈ ["jobId", "userId", "prompt", "prompts", "responses"]) :
    jsonField (starterInvoke W body).payload f = storedItem (starterPut W body).item f := by
  have hps := truthy_defined _ (jsOr_arr_truthy (member body "prompts"))
  have hrs := truthy_defined _ (jsOr_arr_truthy (member body "responses"))
  have hpay : (starterInvoke W body).payload =
      jsonObject [("jobId", .str W.randomUUID),
                  ("userId", member body "userId"),
                  ("prompt", member body "prompt"),
                  ("prompts", jsOr (member body "prompts") (.arr [])),
                  ("responses", jsOr (member body "responses") (.arr []))] := rfl
  rw [storedItem_eq, hpay]
  simp only [List.mem_cons, List.mem_singleton, List.not_mem_nil, or_false] at hf
  rcases hf with rfl | rfl | rfl | rfl | rfl
  · simp [starterPut, jsonObject, jsonField, List.filter, List.lookup, isUndefined]
  · rcases hu : isUndefined (member body "userId") with _ | _
    · rw [jsonObject_field _ "userId" (member body "userId")
        (by simp [List.lookup]) hu]
      simp [starterPut, List.lookup, hu]
    · rw [jsonField_jsonObject_undefined _ "userId"
        (by
          intro v hv
          simp only [List.mem_cons, Prod.mk.injEq, List.mem_singleton, List.not_mem_nil,
            or_false] at hv
          rcases hv with ⟨h, -⟩ | ⟨-, rfl⟩ | ⟨h, -⟩ | ⟨h, -⟩ | ⟨h, -⟩
          · exact absurd h (by decide)
          · exact hu
          · exact absurd h (by decide)
          · exact absurd h (by decide)
          · exact absurd h (by decide))]
      simp [starterPut, List.lookup, hu]
  · rcases hu : isUndefined (member body "prompt") with _ | _
    · rw [jsonObject_field _ "prompt" (member body "prompt")
        (by simp [List.lookup]) hu]
      simp [starterPut, List.lookup, hu]
    · rw [jsonField_jsonObject_undefined _ "prompt"
        (by
          intro v hv
          simp only [List.mem_cons, Prod.mk.injEq, List.mem_singleton, List.not_mem_nil,
            or_false] at hv
          rcases hv with ⟨h, -⟩ | ⟨h, -⟩ | ⟨-, rfl⟩ | ⟨h, -⟩ | ⟨h, -⟩
          · exact absurd h (by decide)
          · exact absurd h (by decide)
          · exact hu
          · exact absurd h (by decide)
          · exact absurd h (by decide))]
      simp [starterPut, List.lookup, hu]
  · rw [jsonObject_field _ "prompts" (jsOr (member body "prompts") (.arr []))
      (by simp [List.lookup]) hps]
    simp [starterPut, List.lookup, hps]
  · rw [jsonObject_field _ "responses" (jsOr (member body "responses") (.arr []))
      (by simp [List.lookup]) hrs]
    simp [starterPut, List.lookup, hrs]

theorem starter_accepted_shape (W : StarterWorld) (event : StarterEvent)
    (haccept : (starterHandler W event).response.statusCode = 202) :
    ∃ body, event.body = .ok body ∧
      (starterHandler W event).trace =
        [.put (starterPut W body) (.ok ()), .invoke (starterInvoke W body) (.ok ())] := by
  rcases starterHandler_shape W event with ⟨-, h⟩ | ⟨-, e, -, h⟩ | ⟨-, body, u, hb, -, h⟩
  · rw [h] at haccept
    simp at haccept
  · rw [h] at haccept
    simp [errorResponse] at haccept
  · refine ⟨body, hb, ?_⟩
    rw [h] at haccept ⊢
    rcases hp : W.putItem (starterPut W body) with e | a
    · rw [hp] at haccept
      simp [errorResponse] at haccept
    · rw [hp] at haccept
      dsimp only at haccept ⊢
      rcases hi : W.invokeLambda (starterInvoke W body) with e | b
      · rw [hi] at haccept
        simp [errorResponse] at haccept
      · rfl

theorem eventOfPayload_fields (payload : JVal) (ev : JobEvent)
    (h : eventOfPayload payload = some ev) :
    jsonField payload "jobId" = some (.str ev.jobId) ∧
    ev.userId = (jsonField payload "userId").getD .undefined ∧
    ev.prompt = (jsonField payload "prompt").getD .undefined ∧
    ((jsonField payload "prompts").getD .undefined = .arr (ev.prompts.getD []) ∨
      truthy ((jsonField payload "prompts").getD .undefined) = false) ∧
    ((jsonField payload "responses").getD .undefined = .arr (ev.responses.getD []) ∨
      truthy ((jsonField payload "responses").getD .undefined) = false) := by
  unfold eventOfPayload at h
  dsimp only at h
  split at h
  · rename_i jobId prompts responses h1 h2 h3
    cases h
    refine ⟨h1, rfl, rfl, ?_, ?_⟩
    · generalize (jsonField payload "prompts").getD .undefined = v at h2
      cases v <;> simp at h2 <;> first
        | (right; rfl)
        | (left; subst h2; rfl)
    · generalize (jsonField payload "responses").getD .undefined = v at h3
      cases v <;> simp at h3 <;> first
        | (right; rfl)
        | (left; subst h3; rfl)
  · cases h

/-- C30 (stored input equals dispatched input).  For every submission the
starter accepts (it answers 202), the external calls are one accepted record
write followed by one accepted dispatch, and the payload of the dispatch
carries under `jobId`, `userId`, `prompt`, `prompts` and `responses` exactly
what the stored record holds under these names, and nothing else; `prompts`
and `responses` are `[]` in both when the body has none.  Hence the event the
orchestrator receives has the job id, user id, question text and history of
the stored record. -/
theorem stored_input_is_dispatched_input (W : StarterWorld) (event : StarterEvent)
    (haccept : (starterHandler W event).response.statusCode = 202) :
    ∃ cmd icmd body,
      event.body = .ok body ∧
      (starterHandler W event).trace = [.put cmd (.ok ()), .invoke icmd (.ok ())] ∧
      (∀ f ∈ ["jobId", "userId", "prompt", "prompts", "responses"],
        jsonField icmd.payload f = storedItem cmd.item f) ∧
      (∀ f ∈ jsonKeys icmd.payload,
        f ∈ ["jobId", "userId", "prompt", "prompts", "responses"]) ∧
      (member body "prompts" = .undefined →
        storedItem cmd.item "prompts" = some (.arr []) ∧
        jsonField icmd.payload "prompts" = some (.arr [])) ∧
      (member body "responses" = .undefined →
        storedItem cmd.item "responses" = some (.arr []) ∧
        jsonField icmd.payload "responses" = some (.arr [])) ∧
      (∀ ev, eventOfPayload icmd.payload = some ev →
        storedItem cmd.item "jobId" = some (.str ev.jobId) ∧
        ev.userId = itemAttr (storedItem cmd.item) "userId" ∧
        ev.prompt = itemAttr (storedItem cmd.item) "prompt" ∧
        storedItem cmd.item "prompts" = some (.arr (ev.prompts.getD [])) ∧
        storedItem cmd.item "responses" = some (.arr (ev.responses.getD []))) := by
  obtain ⟨body, hb, htrace⟩ := starter_accepted_shape W event haccept
  have hfield := payload_field_eq_stored W body
  have hps : storedItem (starterPut W body).item "prompts" =
      some (jsOr (member body "prompts") (.arr [])) := by
    rw [storedItem_eq]
    simp [starterPut, List.lookup,
      truthy_defined _ (jsOr_arr_truthy (member body "prompts"))]
  have hrs : storedItem (starterPut W body).item "responses" =
      some (jsOr (member body "responses") (.arr [])) := by
    rw [storedItem_eq]
    simp [starterPut, List.lookup,
      truthy_defined _ (jsOr_arr_truthy (member body "responses"))]
  refine ⟨starterPut W body, starterInvoke W body, body, hb, htrace, hfield, ?_, ?_, ?_, ?_⟩
  · intro f hf
    simp only [starterInvoke, jsonObject, jsonKeys, List.mem_map, List.mem_filter] at hf
    obtain ⟨kv, ⟨hkv, -⟩, rfl⟩ := hf
    simp only [List.mem_cons, List.mem_singleton, List.not_mem_nil, or_false] at hkv
    rcases hkv with rfl | rfl | rfl | rfl | rfl <;> simp
  · intro hnone
    have h1 : storedItem (starterPut W body).item "prompts" = some (.arr []) := by
      rw [hps, hnone]
      rfl
    exact ⟨h1, by rw [hfield "prompts" (by simp), h1]⟩
  · intro hnone
    have h1 : storedItem (starterPut W body).item "responses" = some (.arr []) := by
      rw [hrs, hnone]
      rfl
    exact ⟨h1, by rw [hfield "responses" (by simp), h1]⟩
  · intro ev hev
    obtain ⟨hj, hu, hp, hpr, hre⟩ := eventOfPayload_fields _ ev hev
    rw [hfield "jobId" (by simp)] at hj
    rw [hfield "userId" (by simp)] at hu
    rw [hfield "prompt" (by simp)] at hp
    rw [hfield "prompts" (by simp), hps] at hpr
    rw [hfield "responses" (by simp), hrs] at hre
    refine ⟨hj, hu, hp, ?_, ?_⟩
    · rw [hps]
      rcases hpr with hpr | hpr
      · simp only [Option.getD_some] at hpr
        rw [hpr]
      · simp only [Option.getD_some] at hpr
        rw [jsOr_arr_truthy] at hpr
        cases hpr
    · rw [hrs]
      rcases hre with hre | hre
      · simp only [Option.getD_some] at hre
        rw [hre]
      · simp only [Option.getD_some] at hre
        rw [jsOr_arr_truthy] at hre
        cases hre

theorem stored_input_is_dispatched_input_witness :
    (starterHandler sampleStarterWorld sampleSubmission).response.statusCode = 202 ∧
    ∃ cmd icmd,
      (starterHandler sampleStarterWorld sampleSubmission).trace =
        [.put cmd (.ok ()), .invoke icmd (.ok ())] ∧
      jsonField icmd.payload "userId" = storedItem cmd.item "userId" ∧
      jsonField icmd.payload "prompts" = some (.arr []) ∧
      storedItem cmd.item "prompts" = some (.arr []) := by
  refine ⟨rfl, ?_⟩
  obtain ⟨cmd, icmd, body, hb, htrace, hfield, -, hps, -, -⟩ :=
    stored_input_is_dispatched_input sampleStarterWorld sampleSubmission rfl
  have hbody : body = .obj [("userId", .str "u1"), ("prompt", .str "Should I rebalance?")] := by
    have h : sampleSubmission.body =
        .ok (.obj [("userId", .str "u1"), ("prompt", .str "Should I rebalance?")]) := rfl
    rw [hb] at h
    cases h
    rfl
  subst hbody
  obtain ⟨h1, h2⟩ := hps rfl
  exact ⟨cmd, icmd, htrace, hfield "userId" (by simp), h2, h1⟩

end AiInsight
